import Mathlib

/-!
# UefiSeven: the VESA shim synthesizer, the INT 10h vector inspector and the
# legacy memory lock arbiter

A shallow embedding of `UefiSevenPkg/Platform/UefiSeven/UefiSeven.c`.

* Physical memory is a total map from addresses to bytes.
* `EFI_STATUS` is a 64-bit `UINTN`; an error status has the top bit set.
* The header `UefiSeven.h` (the VBE record types, the IVT entry type and the
  macros `IVT_ADDRESS`, `VGA_ROM_ADDRESS`, `VGA_ROM_SIZE`, `FIXED_MTRR_SIZE`,
  `VENDOR_NAME`, `PRODUCT_NAME`, `PRODUCT_REVISION`) is not among the sources:
  the macros are parameters (`Constants`), the record layouts are modelled
  from the VBE 3.0 standard named by the specification.
* Pointer arithmetic is modelled on unbounded addresses; the integer
  computations of the C code carry their explicit truncations.
* `CanWriteAtAddress` reads `*TestPtr` back through a plain `UINT8 *`. What
  that read yields on memory that ignores stores is not fixed by the source,
  so it is a parameter (`ReadBack`) of the probe and of everything that calls
  it; the statements about `EnsureMemoryLock` and `UefiMain` hold for both of
  its values.
-/

namespace UefiSeven

/-! ## Status codes -/

/-- An `EFI_STATUS` is a `UINTN` (64 bits on X64). -/
abbrev EFI_STATUS := Nat

/-- The top bit of a `UINTN`: `MAX_BIT`, set in every error code. -/
def MAX_BIT : Nat := 2 ^ 63

def EFI_SUCCESS : EFI_STATUS := 0
def EFI_INVALID_PARAMETER : EFI_STATUS := MAX_BIT + 2
def EFI_UNSUPPORTED : EFI_STATUS := MAX_BIT + 3
def EFI_NOT_READY : EFI_STATUS := MAX_BIT + 6
def EFI_DEVICE_ERROR : EFI_STATUS := MAX_BIT + 7
def EFI_NOT_FOUND : EFI_STATUS := MAX_BIT + 14

/-- The macro `EFI_ERROR (Status)`: the status, read as a signed `INTN`, is negative. -/
def EFI_ERROR (s : EFI_STATUS) : Bool := decide (MAX_BIT ≤ s % 2 ^ 64)

/-! ## Physical memory -/

abbrev Byte := Fin 256

/-- Physical memory: one byte per address. -/
abbrev Mem := Nat → Byte

/-- Truncation of a number to a byte (a `UINT8` store). -/
def toByte (v : Nat) : Byte := ⟨v % 256, Nat.mod_lt _ (by decide)⟩

def read8 (m : Mem) (a : Nat) : Nat := (m a).val

def write8 (m : Mem) (a v : Nat) : Mem := fun x => if x = a then toByte v else m x

/-- Little-endian 16-bit load. -/
def read16 (m : Mem) (a : Nat) : Nat := read8 m a + 256 * read8 m (a + 1)

/-- Little-endian 16-bit store of `v` truncated to 16 bits. -/
def write16 (m : Mem) (a v : Nat) : Mem :=
  write8 (write8 m a (v % 256)) (a + 1) (v / 256 % 256)

/-- Little-endian 32-bit load. -/
def read32 (m : Mem) (a : Nat) : Nat := read16 m a + 65536 * read16 m (a + 2)

/-- Little-endian 32-bit store of `v` truncated to 32 bits. -/
def write32 (m : Mem) (a v : Nat) : Mem :=
  write16 (write16 m a (v % 65536)) (a + 2) (v / 65536 % 65536)

/-- The library routine `CopyMem (dst, src, n)` for a source held outside the
modelled memory (a string literal): the bytes are stored at `dst, dst+1, ...`. -/
def CopyMem (m : Mem) (dst : Nat) : List Nat → Mem
  | [] => m
  | b :: bs => CopyMem (write8 m dst b) (dst + 1) bs

/-! ## Constants of `UefiSeven.h` -/

/-- The macros of `UefiSeven.h` used by the three functions. Strings are byte
lists that include their terminating NUL, so `sizeof` is the list length. -/
structure Constants where
  IVT_ADDRESS : Nat
  VGA_ROM_ADDRESS : Nat
  VGA_ROM_SIZE : Nat
  FIXED_MTRR_SIZE : Nat
  VENDOR_NAME : List Nat
  PRODUCT_NAME : List Nat
  PRODUCT_REVISION : List Nat

/-- A concrete instance used to evaluate the definitions: the conventional PC
layout (vector table at 0, video ROM window C0000h..CFFFFh, 128 KiB fixed
MTRR range) and short product strings. -/
def pcConstants : Constants where
  IVT_ADDRESS := 0x0
  VGA_ROM_ADDRESS := 0xC0000
  VGA_ROM_SIZE := 0x10000
  FIXED_MTRR_SIZE := 0x20000
  VENDOR_NAME := [0x55, 0x37, 0x00]
  PRODUCT_NAME := [0x56, 0x47, 0x41, 0x00]
  PRODUCT_REVISION := [0x31, 0x00]

/-! ## Interrupt vector inspector -/

/-- Modelled from the spec: the type `IVT_ENTRY` is declared in `UefiSeven.h`,
which is not among the sources. Each entry of the vector table is a 4-byte
real-mode far pointer; the offset word comes first, the segment word second. -/
def sizeof_IVT_ENTRY : Nat := 4

def IVT_ENTRY.Offset (m : Mem) (entry : Nat) : Nat := read16 m entry

def IVT_ENTRY.Segment (m : Mem) (entry : Nat) : Nat := read16 m (entry + 2)

/-- The address of the INT 10h slot: `(IVT_ENTRY *)(UINTN)IVT_ADDRESS + 0x10`. -/
def Int10hEntry (k : Constants) : Nat := k.IVT_ADDRESS + 0x10 * sizeof_IVT_ENTRY

/-- The physical address the INT 10h slot decodes to:
`(Int10hEntry->Segment << 4) + Int10hEntry->Offset`. -/
def Int10hHandler (k : Constants) (m : Mem) : Nat :=
  (IVT_ENTRY.Segment m (Int10hEntry k) <<< 4) + IVT_ENTRY.Offset m (Int10hEntry k)

def PROTECTIVE_OPCODE_1 : Nat := 0xFF

def PROTECTIVE_OPCODE_2 : Nat := 0x00

/-- `IsInt10hHandlerDefined`. -/
def IsInt10hHandlerDefined (k : Constants) (m : Mem) : Bool :=
  if k.VGA_ROM_ADDRESS ≤ Int10hHandler k m ∧
      Int10hHandler k m < k.VGA_ROM_ADDRESS + k.VGA_ROM_SIZE then
    let Opcode := read8 m (Int10hHandler k m)
    if Opcode = PROTECTIVE_OPCODE_1 ∨ Opcode = PROTECTIVE_OPCODE_2 then
      false
    else
      true
  else
    false

/-- A memory image whose INT 10h slot holds F000:F065, a handler in the system
BIOS segment, outside the video ROM window. -/
def biosVectorMem : Mem := fun a =>
  if a = 0x40 then 0x65 else if a = 0x41 then 0xF0 else if a = 0x43 then 0xF0 else 0

/-- A memory image whose INT 10h slot holds C000:0200 and whose byte at C0200h
is the opcode CBh. -/
def shimVectorMem : Mem := fun a =>
  if a = 0x41 then 0x02 else if a = 0x43 then 0xC0 else if a = 0xC0200 then 0xCB else 0

/-! ## Legacy memory lock arbiter -/

/-- The hardware view of memory: a store takes effect only where the address
is currently writable; elsewhere it is ignored. -/
structure Hw where
  mem : Mem
  writable : Nat → Bool

/-- A byte store issued by the processor. -/
def Hw.store (h : Hw) (a v : Nat) : Hw :=
  if h.writable a then { h with mem := write8 h.mem a v } else h

/-- How the compiled probe obtains the byte it compares with `OldValue` in
`CanWriteAtAddress`. `TestPtr` is a plain `UINT8 *`, not a `volatile` one, so
the read of `*TestPtr` that follows the store may be compiled as a load from
the hardware (`load`) or as the value the program has just stored (`forward`). -/
inductive ReadBack where
  | load
  | forward
deriving DecidableEq, Repr

/-- `CanWriteAtAddress`: read the byte, store the byte plus one, read the byte
again and compare it with the old value, and store the old value back. The
stores are issued to the hardware under either reading of the read-back. -/
def CanWriteAtAddress (rb : ReadBack) (h : Hw) (Address : Nat) : Bool × Hw :=
  let OldValue := read8 h.mem Address
  let h1 := h.store Address (read8 h.mem Address + 1)
  let Seen :=
    match rb with
    | .load => read8 h1.mem Address
    | .forward => (read8 h.mem Address + 1) % 256
  let CanWrite := OldValue != Seen
  let h2 := h1.store Address OldValue
  (CanWrite, h2)

/-- The enumeration `MEMORY_LOCK_OPERATION`; `other` stands for any value that
is neither of the two named ones (the `default` arm of the switch). -/
inductive MEMORY_LOCK_OPERATION where
  | LOCK
  | UNLOCK
  | other (v : Nat)
deriving DecidableEq, Repr

/-- The cache types of the MTRR library. -/
inductive MTRR_MEMORY_CACHE_TYPE where
  | CacheUncacheable
  | CacheWriteCombining
  | CacheWriteThrough
  | CacheWriteProtected
  | CacheWriteBack
deriving DecidableEq, Repr

/-- The platform services `EnsureMemoryLock` calls. Each mechanism is an
arbitrary function of the hardware state that reports a status of its own;
a protocol is present when its `LocateProtocol` status is not an error. The
address and length arguments are the ones passed by the caller. -/
structure Firmware where
  LocateLegacyRegion : EFI_STATUS
  LegacyRegionUnLock : Nat → Nat → Hw → EFI_STATUS × Hw
  LegacyRegionLock : Nat → Nat → Hw → EFI_STATUS × Hw
  LocateLegacyRegion2 : EFI_STATUS
  LegacyRegion2UnLock : Nat → Nat → Hw → EFI_STATUS × Hw
  LegacyRegion2Lock : Nat → Nat → Hw → EFI_STATUS × Hw
  IsMtrrSupported : Bool
  MtrrSetMemoryAttribute : Nat → Nat → MTRR_MEMORY_CACHE_TYPE → Hw → EFI_STATUS × Hw

/-- The same firmware with every status reported by a lock, unlock or MTRR
call rewritten by `f`; the effects on the hardware are unchanged. -/
def Firmware.reporting (fw : Firmware) (f : EFI_STATUS → EFI_STATUS) : Firmware :=
  { fw with
    LegacyRegionUnLock := fun a l h => (f (fw.LegacyRegionUnLock a l h).1, (fw.LegacyRegionUnLock a l h).2)
    LegacyRegionLock := fun a l h => (f (fw.LegacyRegionLock a l h).1, (fw.LegacyRegionLock a l h).2)
    LegacyRegion2UnLock := fun a l h => (f (fw.LegacyRegion2UnLock a l h).1, (fw.LegacyRegion2UnLock a l h).2)
    LegacyRegion2Lock := fun a l h => (f (fw.LegacyRegion2Lock a l h).1, (fw.LegacyRegion2Lock a l h).2)
    MtrrSetMemoryAttribute := fun a l t h =>
      (f (fw.MtrrSetMemoryAttribute a l t h).1, (fw.MtrrSetMemoryAttribute a l t h).2) }

/-- The calls `EnsureMemoryLock` makes, recorded in program order. -/
inductive Call where
  | probe (result : Bool)
  | locateLegacyRegion
  | regionUnLock
  | regionLock
  | locateLegacyRegion2
  | region2UnLock
  | region2Lock
  | isMtrrSupported
  | mtrrSet (attr : MTRR_MEMORY_CACHE_TYPE)
deriving DecidableEq, Repr

/-- A lock, unlock or MTRR call (as opposed to a probe or a query). -/
def Call.isMechanism : Call → Bool
  | .regionUnLock => true
  | .regionLock => true
  | .region2UnLock => true
  | .region2Lock => true
  | .mtrrSet _ => true
  | _ => false

/-- The result a call carries when it is a probe. -/
def Call.probeResult : Call → Option Bool
  | .probe b => some b
  | _ => none

/-- The result of the most recent `CanWriteAtAddress` probe in a trace. -/
def lastProbe : List Call → Option Bool
  | [] => none
  | c :: cs => (lastProbe cs).orElse (fun _ => c.probeResult)

/-- The local variable `Status`, the hardware, and the calls made so far. -/
structure LockState where
  Status : EFI_STATUS
  hw : Hw
  trace : List Call

/-- One call of `CanWriteAtAddress (StartAddress)`. -/
def LockState.probe (s : LockState) (rb : ReadBack) (StartAddress : Nat) : Bool × LockState :=
  let r := CanWriteAtAddress rb s.hw StartAddress
  (r.1, { s with hw := r.2, trace := s.trace ++ [Call.probe r.1] })

/-- One call of a lock, unlock or MTRR routine; its status is discarded. -/
def LockState.invoke (s : LockState) (c : Call) (r : EFI_STATUS × Hw) : LockState :=
  { s with hw := r.2, trace := s.trace ++ [c] }

/-- The block "Check if we need to perform any operation". -/
def checkAlready (rb : ReadBack) (s : LockState) (StartAddress : Nat)
    (Operation : MEMORY_LOCK_OPERATION) : LockState :=
  match Operation with
  | .UNLOCK =>
    let p := s.probe rb StartAddress
    if p.1 then { p.2 with Status := EFI_SUCCESS } else p.2
  | .LOCK =>
    let p := s.probe rb StartAddress
    if !p.1 then { p.2 with Status := EFI_SUCCESS } else p.2
  | .other _ => s

/-- The block "Try to lock/unlock with EfiLegacyRegionProtocol". -/
def tryLegacyRegion (rb : ReadBack) (fw : Firmware) (s : LockState) (StartAddress Length : Nat)
    (Operation : MEMORY_LOCK_OPERATION) : LockState :=
  if EFI_ERROR s.Status then
    let s1 : LockState :=
      { s with Status := fw.LocateLegacyRegion, trace := s.trace ++ [Call.locateLegacyRegion] }
    if !EFI_ERROR s1.Status then
      if Operation = .UNLOCK then
        let s2 := s1.invoke .regionUnLock (fw.LegacyRegionUnLock (StartAddress % 2 ^ 32) Length s1.hw)
        let p := s2.probe rb StartAddress
        { p.2 with Status := if p.1 then EFI_SUCCESS else EFI_DEVICE_ERROR }
      else
        let s2 := s1.invoke .regionLock (fw.LegacyRegionLock (StartAddress % 2 ^ 32) Length s1.hw)
        let p := s2.probe rb StartAddress
        { p.2 with Status := if p.1 then EFI_DEVICE_ERROR else EFI_SUCCESS }
    else s1
  else s

/-- The block "Try to lock/unlock with EfiLegacyRegion2Protocol". -/
def tryLegacyRegion2 (rb : ReadBack) (fw : Firmware) (s : LockState) (StartAddress Length : Nat)
    (Operation : MEMORY_LOCK_OPERATION) : LockState :=
  if EFI_ERROR s.Status then
    let s1 : LockState :=
      { s with Status := fw.LocateLegacyRegion2, trace := s.trace ++ [Call.locateLegacyRegion2] }
    if !EFI_ERROR s1.Status then
      if Operation = .UNLOCK then
        let s2 := s1.invoke .region2UnLock (fw.LegacyRegion2UnLock (StartAddress % 2 ^ 32) Length s1.hw)
        let p := s2.probe rb StartAddress
        { p.2 with Status := if p.1 then EFI_SUCCESS else EFI_DEVICE_ERROR }
      else
        let s2 := s1.invoke .region2Lock (fw.LegacyRegion2Lock (StartAddress % 2 ^ 32) Length s1.hw)
        let p := s2.probe rb StartAddress
        { p.2 with Status := if p.1 then EFI_DEVICE_ERROR else EFI_SUCCESS }
    else s1
  else s

/-- The block "Try to lock/unlock via an MTRR". The condition is evaluated
left to right, so `IsMtrrSupported` is called only after an error status. -/
def tryMtrr (rb : ReadBack) (k : Constants) (fw : Firmware) (s : LockState) (StartAddress Length : Nat)
    (Operation : MEMORY_LOCK_OPERATION) : LockState :=
  if EFI_ERROR s.Status then
    let s1 : LockState := { s with trace := s.trace ++ [Call.isMtrrSupported] }
    if fw.IsMtrrSupported ∧ Length ≤ k.FIXED_MTRR_SIZE then
      if Operation = .UNLOCK then
        let s2 := s1.invoke (.mtrrSet .CacheUncacheable)
          (fw.MtrrSetMemoryAttribute StartAddress k.FIXED_MTRR_SIZE .CacheUncacheable s1.hw)
        let p := s2.probe rb StartAddress
        { p.2 with Status := if p.1 then EFI_SUCCESS else EFI_DEVICE_ERROR }
      else
        let s2 := s1.invoke (.mtrrSet .CacheWriteProtected)
          (fw.MtrrSetMemoryAttribute StartAddress k.FIXED_MTRR_SIZE .CacheWriteProtected s1.hw)
        let p := s2.probe rb StartAddress
        { p.2 with Status := if p.1 then EFI_DEVICE_ERROR else EFI_SUCCESS }
    else s1
  else s

/-- `EnsureMemoryLock`. -/
def EnsureMemoryLock (rb : ReadBack) (k : Constants) (fw : Firmware) (hw : Hw)
    (StartAddress Length : Nat) (Operation : MEMORY_LOCK_OPERATION) : LockState :=
  if StartAddress = 0 ∨ Length = 0 then
    { Status := EFI_INVALID_PARAMETER, hw := hw, trace := [] }
  else
    match Operation with
    | .other _ => { Status := EFI_INVALID_PARAMETER, hw := hw, trace := [] }
    | _ =>
      let s0 : LockState := { Status := EFI_NOT_READY, hw := hw, trace := [] }
      let s1 := checkAlready rb s0 StartAddress Operation
      let s2 := tryLegacyRegion rb fw s1 StartAddress Length Operation
      let s3 := tryLegacyRegion2 rb fw s2 StartAddress Length Operation
      tryMtrr rb k fw s3 StartAddress Length Operation

/-- What a stage of the arbiter guarantees: a success status is backed by a
last probe that reported the requested state. -/
def Verified (op : MEMORY_LOCK_OPERATION) (s : LockState) : Prop :=
  s.Status = EFI_SUCCESS → lastProbe s.trace = some (decide (op = .UNLOCK))

/-- A status is either success or an error. -/
def Settled (s : LockState) : Prop :=
  s.Status = EFI_SUCCESS ∨ EFI_ERROR s.Status = true

/-- After the secondary-protocol block an error status is `EFI_DEVICE_ERROR`
or the status of the secondary `LocateProtocol` call. -/
def SettledLate (fw : Firmware) (s : LockState) : Prop :=
  s.Status = EFI_SUCCESS ∨
    (EFI_ERROR s.Status = true ∧
      (s.Status = EFI_DEVICE_ERROR ∨ s.Status = fw.LocateLegacyRegion2))

/-- A platform with neither legacy-region protocol and no MTRR support. -/
def bareFirmware : Firmware where
  LocateLegacyRegion := EFI_NOT_FOUND
  LegacyRegionUnLock := fun _ _ h => (EFI_UNSUPPORTED, h)
  LegacyRegionLock := fun _ _ h => (EFI_UNSUPPORTED, h)
  LocateLegacyRegion2 := EFI_NOT_FOUND
  LegacyRegion2UnLock := fun _ _ h => (EFI_UNSUPPORTED, h)
  LegacyRegion2Lock := fun _ _ h => (EFI_UNSUPPORTED, h)
  IsMtrrSupported := false
  MtrrSetMemoryAttribute := fun _ _ _ h => (EFI_UNSUPPORTED, h)

/-- A platform whose primary legacy-region protocol works: unlock makes every
address writable, lock makes every address read-only. -/
def regionFirmware : Firmware where
  LocateLegacyRegion := EFI_SUCCESS
  LegacyRegionUnLock := fun _ _ h => (EFI_SUCCESS, { h with writable := fun _ => true })
  LegacyRegionLock := fun _ _ h => (EFI_SUCCESS, { h with writable := fun _ => false })
  LocateLegacyRegion2 := EFI_NOT_FOUND
  LegacyRegion2UnLock := fun _ _ h => (EFI_UNSUPPORTED, h)
  LegacyRegion2Lock := fun _ _ h => (EFI_UNSUPPORTED, h)
  IsMtrrSupported := false
  MtrrSetMemoryAttribute := fun _ _ _ h => (EFI_UNSUPPORTED, h)

/-- Zero-filled memory that ignores every store. -/
def lockedHw : Hw := { mem := fun _ => 0, writable := fun _ => false }

/-! ## VESA shim synthesizer -/

/-- The pixel formats of the graphics output protocol. -/
inductive EFI_GRAPHICS_PIXEL_FORMAT where
  | PixelRedGreenBlueReserved8BitPerColor
  | PixelBlueGreenRedReserved8BitPerColor
  | PixelBitMask
  | PixelBltOnly
  | PixelFormatMax
deriving DecidableEq, Repr

/-- `GRAPHICS_PROTOCOL` of `Display.h`. -/
inductive GRAPHICS_PROTOCOL where
  | NONE
  | GOP
  | UGA
deriving DecidableEq, Repr

/-- `DISPLAY_INFO` of `Display.h`, without the two protocol handles. The
resolutions and the stride are `UINT32`, the base is a 64-bit physical
address, the size a `UINTN`. -/
structure DISPLAY_INFO where
  Initialized : Bool
  AdapterFound : Bool
  Protocol : GRAPHICS_PROTOCOL
  HorizontalResolution : Nat
  VerticalResolution : Nat
  PixelFormat : EFI_GRAPHICS_PIXEL_FORMAT
  PixelsPerScanLine : Nat
  FrameBufferBase : Nat
  FrameBufferSize : Nat
deriving DecidableEq, Repr

/-- The field values are in the range of their C types. -/
def DISPLAY_INFO.WellTyped (d : DISPLAY_INFO) : Prop :=
  d.HorizontalResolution < 2 ^ 32 ∧ d.VerticalResolution < 2 ^ 32 ∧
  d.PixelsPerScanLine < 2 ^ 32 ∧ d.FrameBufferBase < 2 ^ 64 ∧ d.FrameBufferSize < 2 ^ 64

instance DISPLAY_INFO.decWellTyped (d : DISPLAY_INFO) : Decidable d.WellTyped := by
  unfold DISPLAY_INFO.WellTyped
  infer_instance

/-- Modelled from the spec: `EnsureDisplayAvailable` is defined in `Display.c`,
which is not among the sources. It lazily runs the display acquisition if the
display state is not yet initialized, and fails with `EFI_NOT_FOUND` when no
adapter was found; discovery is performed at most once. `acquire` is what the
acquisition finds on this platform (`none`: neither graphics interface). -/
def EnsureDisplayAvailable (acquire : Option DISPLAY_INFO) (d : DISPLAY_INFO) :
    EFI_STATUS × DISPLAY_INFO :=
  if d.Initialized then
    (if d.AdapterFound then EFI_SUCCESS else EFI_NOT_FOUND, d)
  else
    match acquire with
    | some found => (EFI_SUCCESS, { found with Initialized := true, AdapterFound := true })
    | none => (EFI_NOT_FOUND, { d with Initialized := true, AdapterFound := false })

/-- The fields of `VBE_INFO_BASE`. -/
inductive VBE_INFO_BASE where
  | Signature
  | VesaVersion
  | OemNameAddress
  | Capabilities
  | ModeListAddress
  | VideoMem64K
  | OemSoftwareVersion
  | VendorNameAddress
  | ProductNameAddress
  | ProductRevAddress
deriving DecidableEq, Repr

/-- Modelled from the spec: the record types are declared in `UefiSeven.h`,
which is not among the sources. The byte offsets are those of the packed
general-info block of the VBE 3.0 standard. -/
def VBE_INFO_BASE.offset : VBE_INFO_BASE → Nat
  | .Signature => 0
  | .VesaVersion => 4
  | .OemNameAddress => 6
  | .Capabilities => 10
  | .ModeListAddress => 14
  | .VideoMem64K => 18
  | .OemSoftwareVersion => 20
  | .VendorNameAddress => 22
  | .ProductNameAddress => 26
  | .ProductRevAddress => 30

/-- Modelled from the spec: `sizeof (VBE_INFO_BASE)`, the offset of the scratch
buffer `VBE_INFO.Buffer` that fills the rest of the 256-byte record. -/
def sizeof_VBE_INFO_BASE : Nat := 34

/-- `sizeof (VBE_INFO)`: "jump ahead by sizeof (VBE_INFO) ie. 256 bytes". -/
def sizeof_VBE_INFO : Nat := 256

/-- `sizeof (VBE_MODE_INFO)`: "jump ahead by sizeof (VBE_MODE_INFO) ie. 256 bytes". -/
def sizeof_VBE_MODE_INFO : Nat := 256

/-- The fields of `VBE_MODE_INFO` that `ShimVesaInformation` assigns. -/
inductive VBE_MODE_INFO where
  | ModeAttr
  | WindowAAttr
  | WindowBAttr
  | WindowGranularityKB
  | WindowSizeKB
  | WindowAStartSegment
  | WindowBStartSegment
  | WindowPositioningAddress
  | Width
  | Height
  | CharCellWidth
  | CharCellHeight
  | NumPlanes
  | BitsPerPixel
  | NumBanks
  | MemoryModel
  | BankSizeKB
  | NumImagePagesLessOne
  | Vbe3
  | DirectColorModeInfo
  | LfbAddress
  | OffScreenAddress
  | OffScreenSizeKB
  | BytesPerScanLineLinear
  | NumImagesLessOneLinear
  | RedMaskSizeLinear
  | RedMaskPosLinear
  | GreenMaskSizeLinear
  | GreenMaskPosLinear
  | BlueMaskSizeLinear
  | BlueMaskPosLinear
  | ReservedMaskSizeLinear
  | ReservedMaskPosLinear
  | MaxPixelClockHz
deriving DecidableEq, Repr

/-- Modelled from the spec: the record types are declared in `UefiSeven.h`,
which is not among the sources. The byte offsets are those of the packed
mode-info block of the VBE 3.0 standard. -/
def VBE_MODE_INFO.offset : VBE_MODE_INFO → Nat
  | .ModeAttr => 0
  | .WindowAAttr => 2
  | .WindowBAttr => 3
  | .WindowGranularityKB => 4
  | .WindowSizeKB => 6
  | .WindowAStartSegment => 8
  | .WindowBStartSegment => 10
  | .WindowPositioningAddress => 12
  | .Width => 18
  | .Height => 20
  | .CharCellWidth => 22
  | .CharCellHeight => 23
  | .NumPlanes => 24
  | .BitsPerPixel => 25
  | .NumBanks => 26
  | .MemoryModel => 27
  | .BankSizeKB => 28
  | .NumImagePagesLessOne => 29
  | .Vbe3 => 30
  | .DirectColorModeInfo => 39
  | .LfbAddress => 40
  | .OffScreenAddress => 44
  | .OffScreenSizeKB => 48
  | .BytesPerScanLineLinear => 50
  | .NumImagesLessOneLinear => 53
  | .RedMaskSizeLinear => 54
  | .RedMaskPosLinear => 55
  | .GreenMaskSizeLinear => 56
  | .GreenMaskPosLinear => 57
  | .BlueMaskSizeLinear => 58
  | .BlueMaskPosLinear => 59
  | .ReservedMaskSizeLinear => 60
  | .ReservedMaskPosLinear => 61
  | .MaxPixelClockHz => 62

/-- The far-pointer expression `(UINT32)StartAddress << 12 | (UINT16)(UINTN)BufferPtr`. -/
def farPointer (StartAddress BufferPtr : Nat) : Nat :=
  (((StartAddress % 2 ^ 32) <<< 12) % 2 ^ 32) ||| (BufferPtr % 2 ^ 16)

/-- The segment half of a 32-bit far pointer: its upper 16 bits. -/
def farSegment (p : Nat) : Nat := p / 65536

/-- The offset half of a 32-bit far pointer: its lower 16 bits. -/
def farOffset (p : Nat) : Nat := p % 65536

/-- The value of `BufferPtr` when the OEM name is copied. -/
def OemNamePtr (StartAddress : Nat) : Nat := StartAddress + sizeof_VBE_INFO_BASE

/-- The value of `BufferPtr` when the mode list is stored. -/
def ModeListPtr (k : Constants) (StartAddress : Nat) : Nat :=
  OemNamePtr StartAddress + k.VENDOR_NAME.length

/-- The value of `BufferPtr` when the vendor name is copied. -/
def VendorNamePtr (k : Constants) (StartAddress : Nat) : Nat :=
  ModeListPtr k StartAddress + 2 + 2

/-- The value of `BufferPtr` when the product name is copied. -/
def ProductNamePtr (k : Constants) (StartAddress : Nat) : Nat :=
  VendorNamePtr k StartAddress + k.VENDOR_NAME.length

/-- The value of `BufferPtr` when the product revision is copied. -/
def ProductRevPtr (k : Constants) (StartAddress : Nat) : Nat :=
  ProductNamePtr k StartAddress + k.PRODUCT_NAME.length

/-- The mode list and the strings end inside `VBE_INFO.Buffer`. -/
def Constants.StringsFit (k : Constants) : Prop :=
  sizeof_VBE_INFO_BASE + k.VENDOR_NAME.length + 2 + 2 + k.VENDOR_NAME.length +
    k.PRODUCT_NAME.length + k.PRODUCT_REVISION.length ≤ sizeof_VBE_INFO

instance Constants.decStringsFit (k : Constants) : Decidable k.StringsFit := by
  unfold Constants.StringsFit
  infer_instance

/-- The section "VESA general information" of `ShimVesaInformation`. -/
def writeVbeInfo (k : Constants) (d : DISPLAY_INFO) (mem : Mem) (StartAddress : Nat) : Mem :=
  let VbeInfo := StartAddress
  let BufferPtr := StartAddress + sizeof_VBE_INFO_BASE
  let mem := CopyMem mem (VbeInfo + VBE_INFO_BASE.Signature.offset) [0x56, 0x45, 0x53, 0x41]
  let mem := write16 mem (VbeInfo + VBE_INFO_BASE.VesaVersion.offset) 0x0300
  let mem := write32 mem (VbeInfo + VBE_INFO_BASE.OemNameAddress.offset)
    (farPointer StartAddress BufferPtr)
  let mem := CopyMem mem BufferPtr k.VENDOR_NAME
  let BufferPtr := BufferPtr + k.VENDOR_NAME.length
  let mem := write32 mem (VbeInfo + VBE_INFO_BASE.Capabilities.offset) 0x1
  let mem := write32 mem (VbeInfo + VBE_INFO_BASE.ModeListAddress.offset)
    (farPointer StartAddress BufferPtr)
  let mem := write16 mem BufferPtr 0x00F1
  let BufferPtr := BufferPtr + 2
  let mem := write16 mem BufferPtr 0xFFFF
  let BufferPtr := BufferPtr + 2
  let mem := write16 mem (VbeInfo + VBE_INFO_BASE.VideoMem64K.offset)
    ((d.FrameBufferSize + 65535) % 2 ^ 64 / 65536 % 2 ^ 16)
  let mem := write16 mem (VbeInfo + VBE_INFO_BASE.OemSoftwareVersion.offset) 0x0000
  let mem := write32 mem (VbeInfo + VBE_INFO_BASE.VendorNameAddress.offset)
    (farPointer StartAddress BufferPtr)
  let mem := CopyMem mem BufferPtr k.VENDOR_NAME
  let BufferPtr := BufferPtr + k.VENDOR_NAME.length
  let mem := write32 mem (VbeInfo + VBE_INFO_BASE.ProductNameAddress.offset)
    (farPointer StartAddress BufferPtr)
  let mem := CopyMem mem BufferPtr k.PRODUCT_NAME
  let BufferPtr := BufferPtr + k.PRODUCT_NAME.length
  let mem := write32 mem (VbeInfo + VBE_INFO_BASE.ProductRevAddress.offset)
    (farPointer StartAddress BufferPtr)
  let mem := CopyMem mem BufferPtr k.PRODUCT_REVISION
  mem

/-- The local `HorizontalOffsetPx` (`UINT32`). -/
def HorizontalOffsetPx (d : DISPLAY_INFO) : Nat :=
  (d.HorizontalResolution + 2 ^ 32 - 1024) % 2 ^ 32 / 2

/-- The local `VerticalOffsetPx` (`UINT32`). -/
def VerticalOffsetPx (d : DISPLAY_INFO) : Nat :=
  ((d.VerticalResolution + 2 ^ 32 - 768) % 2 ^ 32 / 2 * d.PixelsPerScanLine) % 2 ^ 32

/-- The local `FrameBufferBaseWithOffset` (64-bit); the two products are
computed in 32 bits before they are widened. -/
def FrameBufferBaseWithOffset (d : DISPLAY_INFO) : Nat :=
  (d.FrameBufferBase + VerticalOffsetPx d * 4 % 2 ^ 32 + HorizontalOffsetPx d * 4 % 2 ^ 32)
    % 2 ^ 64

/-- The sections of "Basic VESA mode information" up to the mask sizes. -/
def writeVbeModeInfo (d : DISPLAY_INFO) (mem : Mem) (VbeModeInfo : Nat) : Mem :=
  let mem := write16 mem (VbeModeInfo + VBE_MODE_INFO.ModeAttr.offset)
    (0x80 ||| 0x40 ||| 0x20 ||| 0x10 ||| 0x08 ||| 0x02 ||| 0x01)
  let mem := write16 mem (VbeModeInfo + VBE_MODE_INFO.Width.offset) 1024
  let mem := write16 mem (VbeModeInfo + VBE_MODE_INFO.Height.offset) 768
  let mem := write8 mem (VbeModeInfo + VBE_MODE_INFO.CharCellWidth.offset) 8
  let mem := write8 mem (VbeModeInfo + VBE_MODE_INFO.CharCellHeight.offset) 16
  let mem := write8 mem (VbeModeInfo + VBE_MODE_INFO.NumBanks.offset) 1
  let mem := write8 mem (VbeModeInfo + VBE_MODE_INFO.BankSizeKB.offset) 0
  let mem := write32 mem (VbeModeInfo + VBE_MODE_INFO.LfbAddress.offset)
    (FrameBufferBaseWithOffset d % 2 ^ 32)
  let mem := write16 mem (VbeModeInfo + VBE_MODE_INFO.BytesPerScanLineLinear.offset)
    (d.PixelsPerScanLine % 2 ^ 16 * 4 % 2 ^ 16)
  let mem := write8 mem (VbeModeInfo + VBE_MODE_INFO.NumImagePagesLessOne.offset) 0
  let mem := write8 mem (VbeModeInfo + VBE_MODE_INFO.NumImagesLessOneLinear.offset) 0
  let mem := write32 mem (VbeModeInfo + VBE_MODE_INFO.WindowPositioningAddress.offset) 0x0
  let mem := write8 mem (VbeModeInfo + VBE_MODE_INFO.WindowAAttr.offset) 0x0
  let mem := write8 mem (VbeModeInfo + VBE_MODE_INFO.WindowBAttr.offset) 0x0
  let mem := write16 mem (VbeModeInfo + VBE_MODE_INFO.WindowGranularityKB.offset) 0x0
  let mem := write16 mem (VbeModeInfo + VBE_MODE_INFO.WindowSizeKB.offset) 0x0
  let mem := write16 mem (VbeModeInfo + VBE_MODE_INFO.WindowAStartSegment.offset) 0x0
  let mem := write16 mem (VbeModeInfo + VBE_MODE_INFO.WindowBStartSegment.offset) 0x0
  let mem := write8 mem (VbeModeInfo + VBE_MODE_INFO.NumPlanes.offset) 1
  let mem := write8 mem (VbeModeInfo + VBE_MODE_INFO.MemoryModel.offset) 6
  let mem := write8 mem (VbeModeInfo + VBE_MODE_INFO.DirectColorModeInfo.offset) 0x02
  let mem := write8 mem (VbeModeInfo + VBE_MODE_INFO.BitsPerPixel.offset) 32
  let mem := write8 mem (VbeModeInfo + VBE_MODE_INFO.BlueMaskSizeLinear.offset) 8
  let mem := write8 mem (VbeModeInfo + VBE_MODE_INFO.GreenMaskSizeLinear.offset) 8
  let mem := write8 mem (VbeModeInfo + VBE_MODE_INFO.RedMaskSizeLinear.offset) 8
  let mem := write8 mem (VbeModeInfo + VBE_MODE_INFO.ReservedMaskSizeLinear.offset) 8
  mem

/-- The two-way switch on `mDisplayInfo.PixelFormat`; `none` is the `else`
arm that returns `EFI_UNSUPPORTED`. -/
def writeMaskPositions (d : DISPLAY_INFO) (mem : Mem) (VbeModeInfo : Nat) : Option Mem :=
  if d.PixelFormat = .PixelBlueGreenRedReserved8BitPerColor then
    let mem := write8 mem (VbeModeInfo + VBE_MODE_INFO.BlueMaskPosLinear.offset) 0
    let mem := write8 mem (VbeModeInfo + VBE_MODE_INFO.GreenMaskPosLinear.offset) 8
    let mem := write8 mem (VbeModeInfo + VBE_MODE_INFO.RedMaskPosLinear.offset) 16
    let mem := write8 mem (VbeModeInfo + VBE_MODE_INFO.ReservedMaskPosLinear.offset) 24
    some mem
  else if d.PixelFormat = .PixelRedGreenBlueReserved8BitPerColor then
    let mem := write8 mem (VbeModeInfo + VBE_MODE_INFO.RedMaskPosLinear.offset) 0
    let mem := write8 mem (VbeModeInfo + VBE_MODE_INFO.GreenMaskPosLinear.offset) 8
    let mem := write8 mem (VbeModeInfo + VBE_MODE_INFO.BlueMaskPosLinear.offset) 16
    let mem := write8 mem (VbeModeInfo + VBE_MODE_INFO.ReservedMaskPosLinear.offset) 24
    some mem
  else
    none

/-- The section "Other" of `ShimVesaInformation`. -/
def writeVbeModeInfoOther (mem : Mem) (VbeModeInfo : Nat) : Mem :=
  let mem := write32 mem (VbeModeInfo + VBE_MODE_INFO.OffScreenAddress.offset) 0
  let mem := write16 mem (VbeModeInfo + VBE_MODE_INFO.OffScreenSizeKB.offset) 0
  let mem := write32 mem (VbeModeInfo + VBE_MODE_INFO.MaxPixelClockHz.offset) 0
  let mem := write8 mem (VbeModeInfo + VBE_MODE_INFO.Vbe3.offset) 0x01
  mem

/-- What a call of `ShimVesaInformation` leaves behind: the status, the global
`mDisplayInfo`, memory, and the value stored through `EndAddress` (if any). -/
structure ShimResult where
  Status : EFI_STATUS
  DisplayInfo : DISPLAY_INFO
  mem : Mem
  EndAddress : Option Nat

/-- `ShimVesaInformation`. `ensure` is the behaviour of `EnsureDisplayAvailable`
on the global display state; `EndAddressIsNull` tells whether the output
pointer is `NULL`. -/
def ShimVesaInformation (k : Constants) (ensure : DISPLAY_INFO → EFI_STATUS × DISPLAY_INFO)
    (mDisplayInfo : DISPLAY_INFO) (mem : Mem) (StartAddress : Nat) (EndAddressIsNull : Bool) :
    ShimResult :=
  if StartAddress = 0 ∨ EndAddressIsNull = true then
    { Status := EFI_INVALID_PARAMETER, DisplayInfo := mDisplayInfo, mem := mem,
      EndAddress := none }
  else
    let e := ensure mDisplayInfo
    if EFI_ERROR e.1 then
      { Status := EFI_NOT_FOUND, DisplayInfo := e.2, mem := mem, EndAddress := none }
    else
      let mDisplayInfo := e.2
      let mem := writeVbeInfo k mDisplayInfo mem StartAddress
      let VbeModeInfo := StartAddress + sizeof_VBE_INFO
      let mem := writeVbeModeInfo mDisplayInfo mem VbeModeInfo
      match writeMaskPositions mDisplayInfo mem VbeModeInfo with
      | none =>
        { Status := EFI_UNSUPPORTED, DisplayInfo := mDisplayInfo, mem := mem,
          EndAddress := none }
      | some mem =>
        let mem := writeVbeModeInfoOther mem VbeModeInfo
        { Status := EFI_SUCCESS, DisplayInfo := mDisplayInfo, mem := mem,
          EndAddress := some (VbeModeInfo + sizeof_VBE_MODE_INFO) }

/-- Zero-filled memory. -/
def zeroMem : Mem := fun _ => 0

/-- A 1280x800 blue-green-red display with a 4 MiB framebuffer at E0000000h. -/
def wideDisplay : DISPLAY_INFO where
  Initialized := true
  AdapterFound := true
  Protocol := .GOP
  HorizontalResolution := 1280
  VerticalResolution := 800
  PixelFormat := .PixelBlueGreenRedReserved8BitPerColor
  PixelsPerScanLine := 1280
  FrameBufferBase := 0xE0000000
  FrameBufferSize := 0x400000

/-- A 1024x768 blue-green-red display, stride 1024, 3 MiB framebuffer at
E0000000h; the display state has not been initialized yet. -/
def xgaDisplay : DISPLAY_INFO where
  Initialized := false
  AdapterFound := false
  Protocol := .GOP
  HorizontalResolution := 1024
  VerticalResolution := 768
  PixelFormat := .PixelBlueGreenRedReserved8BitPerColor
  PixelsPerScanLine := 1024
  FrameBufferBase := 0xE0000000
  FrameBufferSize := 0x300000

/-- A display whose framebuffer is one byte larger than 65535 units of 64 KiB. -/
def hugeDisplay : DISPLAY_INFO := { wideDisplay with FrameBufferSize := 0xFFFF0001 }

/-- The four channels of a 32-bit direct-colour pixel. -/
inductive Channel where
  | red
  | green
  | blue
  | reserved
deriving DecidableEq, Repr

/-- The linear mask size field of a channel, read from the mode-info record at
`VbeModeInfo`. -/
def linearMaskSize (m : Mem) (VbeModeInfo : Nat) : Channel → Nat
  | .red => read8 m (VbeModeInfo + VBE_MODE_INFO.RedMaskSizeLinear.offset)
  | .green => read8 m (VbeModeInfo + VBE_MODE_INFO.GreenMaskSizeLinear.offset)
  | .blue => read8 m (VbeModeInfo + VBE_MODE_INFO.BlueMaskSizeLinear.offset)
  | .reserved => read8 m (VbeModeInfo + VBE_MODE_INFO.ReservedMaskSizeLinear.offset)

/-- The linear mask position field of a channel, read from the mode-info
record at `VbeModeInfo`. -/
def linearMaskPos (m : Mem) (VbeModeInfo : Nat) : Channel → Nat
  | .red => read8 m (VbeModeInfo + VBE_MODE_INFO.RedMaskPosLinear.offset)
  | .green => read8 m (VbeModeInfo + VBE_MODE_INFO.GreenMaskPosLinear.offset)
  | .blue => read8 m (VbeModeInfo + VBE_MODE_INFO.BlueMaskPosLinear.offset)
  | .reserved => read8 m (VbeModeInfo + VBE_MODE_INFO.ReservedMaskPosLinear.offset)

/-- The bit range `[pos, pos + size)` a channel occupies in a pixel. -/
def channelBits (m : Mem) (VbeModeInfo : Nat) (c : Channel) : List Nat :=
  List.range' (linearMaskPos m VbeModeInfo c) (linearMaskSize m VbeModeInfo c)

/-- The same display as `wideDisplay` in red-green-blue order. -/
def wideDisplayRGB : DISPLAY_INFO :=
  { wideDisplay with PixelFormat := .PixelRedGreenBlueReserved8BitPerColor }

/-- The `n` bytes of memory starting at `a`. -/
def readBytes (m : Mem) (a : Nat) : Nat → List Nat
  | 0 => []
  | n + 1 => read8 m a :: readBytes m (a + 1) n

/-- A red-green-blue display state that has not been initialized yet. -/
def freshDisplay : DISPLAY_INFO := { wideDisplayRGB with Initialized := false }

/-- A memory transformer that overwrites a fixed set of addresses with fixed
bytes, whatever the memory it is applied to. -/
def Oblivious (f : Mem → Mem) : Prop :=
  ∃ g : Nat → Option Byte, ∀ m x, f m x = (g x).getD (m x)

/-- The library routine `ZeroMem (Buffer, Length)`. -/
def ZeroMem (m : Mem) (Buffer Length : Nat) : Mem :=
  fun x => if Buffer ≤ x ∧ x < Buffer + Length then 0 else m x

/-- A sequence of byte stores `f` issued to the hardware: each store takes
effect only where the address is writable. -/
def Hw.run (h : Hw) (f : Mem → Mem) : Hw :=
  { h with mem := fun x => if h.writable x then f h.mem x else h.mem x }

/-- Where the installation section of `UefiMain` leaves: the four `goto Exit`
statements and the end of the section. -/
inductive MainExit where
  | handlerPresent
  | shimTooBig
  | unlockFailed
  | vesaFailed
  | installed
deriving DecidableEq, Repr

/-- What the installation section of `UefiMain` leaves behind: how it left,
the hardware, the global `mDisplayInfo`, the calls of `EnsureMemoryLock` with
their traces, the local `Int10hHandlerAddress` once `ShimVesaInformation` has
stored it, the local `NewInt10hHandlerEntry` as (Segment, Offset) once it has
been computed, and the outcome of the final sanity check. -/
structure MainResult where
  exit : MainExit
  hw : Hw
  DisplayInfo : DISPLAY_INFO
  lockCalls : List (MEMORY_LOCK_OPERATION × List Call)
  Int10hHandlerAddress : Option Nat
  NewInt10hHandlerEntry : Option (Nat × Nat)
  sanity : Option Bool

/-- The installation section of `UefiMain`, from the test of `mForceFakeVesa`
to the final sanity check. What runs before it (initialisation, configuration,
display negotiation) enters through its arguments: the flag `mForceFakeVesa`,
the status `IvtAllocationStatus`, the global `mDisplayInfo` and the hardware
state; what runs after the label `Exit` (chain-loading) is not embedded.
`INT10H_HANDLER` is the shim blob of `Int10hHandler.h`, which is not among the
sources. -/
def UefiMain (rb : ReadBack) (k : Constants) (INT10H_HANDLER : List Nat) (fw : Firmware)
    (ensure : DISPLAY_INFO → EFI_STATUS × DISPLAY_INFO)
    (mForceFakeVesa : Bool) (IvtAllocationStatus : EFI_STATUS)
    (mDisplayInfo : DISPLAY_INFO) (hw : Hw) : MainResult :=
  if mForceFakeVesa = false ∧ IsInt10hHandlerDefined k hw.mem = true then
    { exit := .handlerPresent, hw := hw, DisplayInfo := mDisplayInfo, lockCalls := [],
      Int10hHandlerAddress := none, NewInt10hHandlerEntry := none, sanity := none }
  else if INT10H_HANDLER.length > k.VGA_ROM_SIZE then
    { exit := .shimTooBig, hw := hw, DisplayInfo := mDisplayInfo, lockCalls := [],
      Int10hHandlerAddress := none, NewInt10hHandlerEntry := none, sanity := none }
  else
    let u := EnsureMemoryLock rb k fw hw k.VGA_ROM_ADDRESS (k.VGA_ROM_SIZE % 2 ^ 32) .UNLOCK
    if EFI_ERROR u.Status then
      { exit := .unlockFailed, hw := u.hw, DisplayInfo := mDisplayInfo,
        lockCalls := [(.UNLOCK, u.trace)], Int10hHandlerAddress := none,
        NewInt10hHandlerEntry := none, sanity := none }
    else
      let h1 := u.hw.run (fun m => ZeroMem m k.VGA_ROM_ADDRESS k.VGA_ROM_SIZE)
      let h2 := h1.run (fun m => CopyMem m k.VGA_ROM_ADDRESS INT10H_HANDLER)
      let r := ShimVesaInformation k ensure mDisplayInfo h2.mem k.VGA_ROM_ADDRESS false
      let h3 := h2.run
        (fun m => (ShimVesaInformation k ensure mDisplayInfo m k.VGA_ROM_ADDRESS false).mem)
      if EFI_ERROR r.Status then
        { exit := .vesaFailed, hw := h3, DisplayInfo := r.DisplayInfo,
          lockCalls := [(.UNLOCK, u.trace)], Int10hHandlerAddress := r.EndAddress,
          NewInt10hHandlerEntry := none, sanity := none }
      else
        let Int10hHandlerAddress := r.EndAddress.getD 0
        let Segment := ((k.VGA_ROM_ADDRESS % 2 ^ 32) >>> 4) % 2 ^ 16
        let Offset :=
          (Int10hHandlerAddress + 2 ^ 64 - k.VGA_ROM_ADDRESS % 2 ^ 64) % 2 ^ 64 % 2 ^ 16
        let l := EnsureMemoryLock rb k fw h3 k.VGA_ROM_ADDRESS (k.VGA_ROM_SIZE % 2 ^ 32) .LOCK
        let IvtInt10hHandlerEntry := k.IVT_ADDRESS + 0x10 * sizeof_IVT_ENTRY
        let h5 :=
          if EFI_ERROR IvtAllocationStatus = false then
            (l.hw.run (fun m => write16 m (IvtInt10hHandlerEntry + 2) Segment)).run
              (fun m => write16 m IvtInt10hHandlerEntry Offset)
          else l.hw
        { exit := .installed, hw := h5, DisplayInfo := r.DisplayInfo,
          lockCalls := [(.UNLOCK, u.trace), (.LOCK, l.trace)],
          Int10hHandlerAddress := r.EndAddress,
          NewInt10hHandlerEntry := some (Segment, Offset),
          sanity := some (IsInt10hHandlerDefined k h5.mem) }

/-- A shim blob for evaluation: 512 reserved bytes followed by two opcodes. -/
def sampleBlob : List Nat := List.replicate 512 0 ++ [0x9C, 0xCF]

/-- A display whose pixel format is a bit mask, which the shim does not support. -/
def maskDisplay : DISPLAY_INFO := { wideDisplay with PixelFormat := .PixelBitMask }

/-- Writable memory holding `shimVectorMem`. -/
def shimVectorHw : Hw := { mem := shimVectorMem, writable := fun _ => true }

/-- Writable zero-filled memory. -/
def openHw : Hw := { mem := zeroMem, writable := fun _ => true }

/-! ## Theorems -/

/-! ### Interrupt vector inspector -/

/-- C2 (counterexample): with the INT 10h slot holding F000:F065, an address
outside the shadow window, `IsInt10hHandlerDefined` returns FALSE although the
address is not inside the window; the claimed equivalence fails there. -/
theorem IsInt10hHandlerDefined_outside_false :
    Int10hHandler pcConstants biosVectorMem = 0xFF065 ∧
    IsInt10hHandlerDefined pcConstants biosVectorMem = false ∧
    ¬ (IsInt10hHandlerDefined pcConstants biosVectorMem = false ↔
        ((pcConstants.VGA_ROM_ADDRESS ≤ Int10hHandler pcConstants biosVectorMem ∧
          Int10hHandler pcConstants biosVectorMem <
            pcConstants.VGA_ROM_ADDRESS + pcConstants.VGA_ROM_SIZE) ∧
         (read8 biosVectorMem (Int10hHandler pcConstants biosVectorMem) = 0xFF ∨
          read8 biosVectorMem (Int10hHandler pcConstants biosVectorMem) = 0x00))) := by
  decide

/-- C2 (amended): `IsInt10hHandlerDefined` returns FALSE if and only if the
decoded address lies outside the window, or lies inside it and the byte there
is one of the two protective opcodes. -/
theorem IsInt10hHandlerDefined_false_iff (k : Constants) (m : Mem) :
    IsInt10hHandlerDefined k m = false ↔
      (¬ (k.VGA_ROM_ADDRESS ≤ IVT_ENTRY.Segment m (k.IVT_ADDRESS + 0x40) * 16 +
              IVT_ENTRY.Offset m (k.IVT_ADDRESS + 0x40) ∧
          IVT_ENTRY.Segment m (k.IVT_ADDRESS + 0x40) * 16 +
              IVT_ENTRY.Offset m (k.IVT_ADDRESS + 0x40) <
            k.VGA_ROM_ADDRESS + k.VGA_ROM_SIZE) ∨
       (read8 m (IVT_ENTRY.Segment m (k.IVT_ADDRESS + 0x40) * 16 +
              IVT_ENTRY.Offset m (k.IVT_ADDRESS + 0x40)) = 0xFF ∨
        read8 m (IVT_ENTRY.Segment m (k.IVT_ADDRESS + 0x40) * 16 +
              IVT_ENTRY.Offset m (k.IVT_ADDRESS + 0x40)) = 0x00)) := by
  have hh : Int10hHandler k m =
      IVT_ENTRY.Segment m (k.IVT_ADDRESS + 0x40) * 16 +
        IVT_ENTRY.Offset m (k.IVT_ADDRESS + 0x40) := by
    simp [Int10hHandler, Int10hEntry, sizeof_IVT_ENTRY, Nat.shiftLeft_eq]
  rw [← hh]
  unfold IsInt10hHandlerDefined
  simp only [PROTECTIVE_OPCODE_1, PROTECTIVE_OPCODE_2]
  by_cases hw : k.VGA_ROM_ADDRESS ≤ Int10hHandler k m ∧
      Int10hHandler k m < k.VGA_ROM_ADDRESS + k.VGA_ROM_SIZE
  · by_cases ho : read8 m (Int10hHandler k m) = 0xFF ∨ read8 m (Int10hHandler k m) = 0x00
    · simp [hw, ho]
    · simp [hw, ho]
  · simp [hw]

/-! ### Legacy memory lock arbiter -/

theorem read8_lt (m : Mem) (a : Nat) : read8 m a < 256 := (m a).isLt

theorem read8_write8_same (m : Mem) (a v : Nat) : read8 (write8 m a v) a = v % 256 := by
  simp [read8, write8, toByte]

theorem read8_write8_ne (m : Mem) (a x v : Nat) (h : x ≠ a) :
    read8 (write8 m a v) x = read8 m x := by
  simp [read8, write8, h]

theorem write8_read8_self (m : Mem) (a : Nat) : write8 m a (read8 m a) = m := by
  funext x
  by_cases hx : x = a
  · subst hx
    apply Fin.ext
    simp [write8, toByte, read8, Nat.mod_eq_of_lt (m x).isLt]
  · simp [write8, hx]

theorem write8_write8_same (m : Mem) (a v w : Nat) :
    write8 (write8 m a v) a w = write8 m a w := by
  funext x
  by_cases hx : x = a <;> simp [write8, hx]

/-- When the read-back is a load from the hardware, the probe reports exactly
the writability of the address. -/
theorem CanWriteAtAddress_fst_load (h : Hw) (a : Nat) :
    (CanWriteAtAddress .load h a).1 = h.writable a := by
  have hlt := read8_lt h.mem a
  unfold CanWriteAtAddress Hw.store
  by_cases hw : h.writable a
  · have hne : read8 h.mem a ≠ (read8 h.mem a + 1) % 256 := by omega
    simp [hw, read8_write8_same, hne]
  · simp [hw]

/-- When the read-back is the value just stored, the probe reports TRUE
whatever the hardware does with the store. -/
theorem CanWriteAtAddress_fst_forward (h : Hw) (a : Nat) :
    (CanWriteAtAddress .forward h a).1 = true := by
  have hlt := read8_lt h.mem a
  have hne : read8 h.mem a ≠ (read8 h.mem a + 1) % 256 := by omega
  simp [CanWriteAtAddress, hne]

/-- Where stores persist, the probe reports TRUE under either reading. -/
theorem CanWriteAtAddress_fst_writable (rb : ReadBack) (h : Hw) (a : Nat)
    (hw : h.writable a = true) : (CanWriteAtAddress rb h a).1 = true := by
  cases rb
  · rw [CanWriteAtAddress_fst_load, hw]
  · exact CanWriteAtAddress_fst_forward h a

/-- The probe leaves the hardware state as it found it. -/
theorem CanWriteAtAddress_snd (rb : ReadBack) (h : Hw) (a : Nat) :
    (CanWriteAtAddress rb h a).2 = h := by
  unfold CanWriteAtAddress Hw.store
  by_cases hw : h.writable a
  · simp [hw, write8_write8_same, write8_read8_self]
  · simp [hw]

theorem lastProbe_append (t u : List Call) :
    lastProbe (t ++ u) = (lastProbe u).orElse (fun _ => lastProbe t) := by
  induction t with
  | nil => cases h : lastProbe u <;> simp [lastProbe, h]
  | cons c cs ih =>
    show lastProbe (c :: (cs ++ u)) = _
    simp only [lastProbe, ih]
    cases h : lastProbe u <;> simp

theorem lastProbe_append_probe (t : List Call) (b : Bool) :
    lastProbe (t ++ [Call.probe b]) = some b := by
  simp [lastProbe_append, lastProbe, Call.probeResult]

theorem LockState.probe_fst (rb : ReadBack) (s : LockState) (a : Nat) :
    (s.probe rb a).1 = (CanWriteAtAddress rb s.hw a).1 := rfl

theorem LockState.probe_snd (rb : ReadBack) (s : LockState) (a : Nat) :
    (s.probe rb a).2 =
      { s with trace := s.trace ++ [Call.probe (CanWriteAtAddress rb s.hw a).1] } := by
  simp [LockState.probe, CanWriteAtAddress_snd]

theorem EFI_ERROR_SUCCESS : EFI_ERROR EFI_SUCCESS = false := by decide

theorem EFI_ERROR_DEVICE_ERROR : EFI_ERROR EFI_DEVICE_ERROR = true := by decide

theorem EFI_ERROR_NOT_READY : EFI_ERROR EFI_NOT_READY = true := by decide

theorem EFI_DEVICE_ERROR_ne_SUCCESS : EFI_DEVICE_ERROR ≠ EFI_SUCCESS := by decide

theorem EFI_NOT_READY_ne_SUCCESS : EFI_NOT_READY ≠ EFI_SUCCESS := by decide

theorem EFI_INVALID_PARAMETER_ne_SUCCESS : EFI_INVALID_PARAMETER ≠ EFI_SUCCESS := by decide

theorem EFI_ERROR_ne_SUCCESS (s : EFI_STATUS) (h : EFI_ERROR s = true) : s ≠ EFI_SUCCESS := by
  intro hs
  rw [hs, EFI_ERROR_SUCCESS] at h
  exact Bool.noConfusion h

/-- The arbiter's outcome does not depend on the statuses its mechanisms report. -/
theorem EnsureMemoryLock_reporting (rb : ReadBack) (k : Constants)
    (fw : Firmware) (f : EFI_STATUS → EFI_STATUS)
    (hw : Hw) (S L : Nat) (op : MEMORY_LOCK_OPERATION) :
    EnsureMemoryLock rb k (fw.reporting f) hw S L op = EnsureMemoryLock rb k fw hw S L op := rfl

theorem checkAlready_verified (rb : ReadBack) (hw : Hw) (S : Nat) (op : MEMORY_LOCK_OPERATION)
    (hop : op = .LOCK ∨ op = .UNLOCK) :
    Verified op (checkAlready rb { Status := EFI_NOT_READY, hw := hw, trace := [] } S op) := by
  unfold Verified checkAlready
  rcases hop with rfl | rfl
  · simp only [LockState.probe_fst, LockState.probe_snd]
    rcases Bool.eq_false_or_eq_true
        (CanWriteAtAddress rb hw S).1 with hx | hx <;>
      simp only [hx] <;> simp [lastProbe_append_probe, EFI_NOT_READY_ne_SUCCESS, lastProbe, Call.probeResult]
  · simp only [LockState.probe_fst, LockState.probe_snd]
    rcases Bool.eq_false_or_eq_true
        (CanWriteAtAddress rb hw S).1 with hx | hx <;>
      simp only [hx] <;> simp [lastProbe_append_probe, EFI_NOT_READY_ne_SUCCESS, lastProbe, Call.probeResult]

theorem tryLegacyRegion_verified (rb : ReadBack) (fw : Firmware) (s : LockState) (S L : Nat)
    (op : MEMORY_LOCK_OPERATION) (hop : op = .LOCK ∨ op = .UNLOCK) (hs : Verified op s) :
    Verified op (tryLegacyRegion rb fw s S L op) := by
  unfold Verified tryLegacyRegion at *
  by_cases he : EFI_ERROR s.Status = true
  · by_cases hl : EFI_ERROR fw.LocateLegacyRegion = true
    · have := EFI_ERROR_ne_SUCCESS _ hl
      simp [he, hl, this]
    · simp only [Bool.not_eq_true] at hl
      rcases hop with rfl | rfl
      · simp only [he, hl, LockState.probe_fst, LockState.probe_snd, LockState.invoke]
        rcases Bool.eq_false_or_eq_true
            (CanWriteAtAddress rb (fw.LegacyRegionLock (S % 2 ^ 32) L s.hw).2 S).1 with hx | hx <;>
          simp only [hx] <;> simp [lastProbe_append, lastProbe, Call.probeResult, EFI_DEVICE_ERROR_ne_SUCCESS]
      · simp only [he, hl, LockState.probe_fst, LockState.probe_snd, LockState.invoke]
        rcases Bool.eq_false_or_eq_true
            (CanWriteAtAddress rb (fw.LegacyRegionUnLock (S % 2 ^ 32) L s.hw).2 S).1 with hx | hx <;>
          simp only [hx] <;> simp [lastProbe_append, lastProbe, Call.probeResult, EFI_DEVICE_ERROR_ne_SUCCESS]
  · simpa [he] using hs

theorem tryLegacyRegion2_verified (rb : ReadBack) (fw : Firmware) (s : LockState) (S L : Nat)
    (op : MEMORY_LOCK_OPERATION) (hop : op = .LOCK ∨ op = .UNLOCK) (hs : Verified op s) :
    Verified op (tryLegacyRegion2 rb fw s S L op) := by
  unfold Verified tryLegacyRegion2 at *
  by_cases he : EFI_ERROR s.Status = true
  · by_cases hl : EFI_ERROR fw.LocateLegacyRegion2 = true
    · have := EFI_ERROR_ne_SUCCESS _ hl
      simp [he, hl, this]
    · simp only [Bool.not_eq_true] at hl
      rcases hop with rfl | rfl
      · simp only [he, hl, LockState.probe_fst, LockState.probe_snd, LockState.invoke]
        rcases Bool.eq_false_or_eq_true
            (CanWriteAtAddress rb (fw.LegacyRegion2Lock (S % 2 ^ 32) L s.hw).2 S).1 with hx | hx <;>
          simp only [hx] <;> simp [lastProbe_append, lastProbe, Call.probeResult, EFI_DEVICE_ERROR_ne_SUCCESS]
      · simp only [he, hl, LockState.probe_fst, LockState.probe_snd, LockState.invoke]
        rcases Bool.eq_false_or_eq_true
            (CanWriteAtAddress rb (fw.LegacyRegion2UnLock (S % 2 ^ 32) L s.hw).2 S).1 with hx | hx <;>
          simp only [hx] <;> simp [lastProbe_append, lastProbe, Call.probeResult, EFI_DEVICE_ERROR_ne_SUCCESS]
  · simpa [he] using hs

theorem tryMtrr_verified (rb : ReadBack) (k : Constants) (fw : Firmware) (s : LockState) (S L : Nat)
    (op : MEMORY_LOCK_OPERATION) (hop : op = .LOCK ∨ op = .UNLOCK) (hs : Verified op s) :
    Verified op (tryMtrr rb k fw s S L op) := by
  unfold Verified tryMtrr at *
  by_cases he : EFI_ERROR s.Status = true
  · have hne := EFI_ERROR_ne_SUCCESS _ he
    by_cases hm : fw.IsMtrrSupported = true ∧ L ≤ k.FIXED_MTRR_SIZE
    · rcases hop with rfl | rfl
      · simp only [he, hm, LockState.probe_fst, LockState.probe_snd, LockState.invoke]
        rcases Bool.eq_false_or_eq_true
            (CanWriteAtAddress rb (fw.MtrrSetMemoryAttribute S k.FIXED_MTRR_SIZE .CacheWriteProtected s.hw).2 S).1 with hx | hx <;>
          simp only [hx] <;> simp [lastProbe_append, lastProbe, Call.probeResult, EFI_DEVICE_ERROR_ne_SUCCESS]
      · simp only [he, hm, LockState.probe_fst, LockState.probe_snd, LockState.invoke]
        rcases Bool.eq_false_or_eq_true
            (CanWriteAtAddress rb (fw.MtrrSetMemoryAttribute S k.FIXED_MTRR_SIZE .CacheUncacheable s.hw).2 S).1 with hx | hx <;>
          simp only [hx] <;> simp [lastProbe_append, lastProbe, Call.probeResult, EFI_DEVICE_ERROR_ne_SUCCESS]
    · simp [he, hm, hne]
  · simpa [he] using hs

theorem EnsureMemoryLock_valid (rb : ReadBack) (k : Constants) (fw : Firmware) (hw : Hw) (S L : Nat)
    (op : MEMORY_LOCK_OPERATION) (hS : S ≠ 0) (hL : L ≠ 0) (hop : op = .LOCK ∨ op = .UNLOCK) :
    EnsureMemoryLock rb k fw hw S L op =
      tryMtrr rb k fw (tryLegacyRegion2 rb fw (tryLegacyRegion rb fw
        (checkAlready rb { Status := EFI_NOT_READY, hw := hw, trace := [] } S op) S L op) S L op)
        S L op := by
  unfold EnsureMemoryLock
  rcases hop with rfl | rfl <;> simp [hS, hL]

theorem EnsureMemoryLock_invalid (rb : ReadBack) (k : Constants)
    (fw : Firmware) (hw : Hw) (S L : Nat)
    (op : MEMORY_LOCK_OPERATION) (h : S = 0 ∨ L = 0 ∨ ∃ v, op = .other v) :
    EnsureMemoryLock rb k fw hw S L op =
      { Status := EFI_INVALID_PARAMETER, hw := hw, trace := [] } := by
  unfold EnsureMemoryLock
  by_cases hv : S = 0 ∨ L = 0
  · simp [hv]
  · rcases h with h | h | ⟨v, rfl⟩
    · exact absurd (Or.inl h) hv
    · exact absurd (Or.inr h) hv
    · simp [hv]

/-- C3: if `EnsureMemoryLock` returns `EFI_SUCCESS`, the operation was LOCK or
UNLOCK and the last `CanWriteAtAddress` probe in its trace returned TRUE for
UNLOCK and FALSE for LOCK; and rewriting the statuses the lock, unlock and MTRR
calls report changes nothing in the outcome. -/
theorem EnsureMemoryLock_success_probe (rb : ReadBack) (k : Constants)
    (fw : Firmware) (hw : Hw) (S L : Nat)
    (op : MEMORY_LOCK_OPERATION)
    (h : (EnsureMemoryLock rb k fw hw S L op).Status = EFI_SUCCESS) :
    ((op = .UNLOCK ∧ lastProbe (EnsureMemoryLock rb k fw hw S L op).trace = some true) ∨
     (op = .LOCK ∧ lastProbe (EnsureMemoryLock rb k fw hw S L op).trace = some false)) ∧
    (∀ f : EFI_STATUS → EFI_STATUS,
      EnsureMemoryLock rb k (fw.reporting f) hw S L op = EnsureMemoryLock rb k fw hw S L op) := by
  refine ⟨?_, fun f => rfl⟩
  by_cases hv : S = 0 ∨ L = 0 ∨ ∃ v, op = .other v
  · rw [EnsureMemoryLock_invalid rb k fw hw S L op hv] at h
    exact absurd h EFI_INVALID_PARAMETER_ne_SUCCESS
  · have hS : S ≠ 0 := fun e => hv (Or.inl e)
    have hL : L ≠ 0 := fun e => hv (Or.inr (Or.inl e))
    have hop : op = .LOCK ∨ op = .UNLOCK := by
      cases op with
      | LOCK => exact Or.inl rfl
      | UNLOCK => exact Or.inr rfl
      | other v => exact absurd (Or.inr (Or.inr ⟨v, rfl⟩)) hv
    have hver : Verified op (EnsureMemoryLock rb k fw hw S L op) := by
      rw [EnsureMemoryLock_valid rb k fw hw S L op hS hL hop]
      exact tryMtrr_verified rb k fw _ S L op hop
        (tryLegacyRegion2_verified rb fw _ S L op hop
          (tryLegacyRegion_verified rb fw _ S L op hop (checkAlready_verified rb hw S op hop)))
    have hlast := hver h
    rcases hop with rfl | rfl
    · exact Or.inr ⟨rfl, by simpa using hlast⟩
    · exact Or.inl ⟨rfl, by simpa using hlast⟩

/-- C3 (witness): on a platform whose primary protocol works, unlocking a
locked window succeeds, and the last probe reported writable memory. -/
theorem EnsureMemoryLock_success_probe_witness :
    (EnsureMemoryLock .load pcConstants regionFirmware lockedHw 0xC0000 0x10000 .UNLOCK).Status
        = EFI_SUCCESS ∧
    (((MEMORY_LOCK_OPERATION.UNLOCK = .UNLOCK ∧
        lastProbe (EnsureMemoryLock .load pcConstants regionFirmware lockedHw 0xC0000 0x10000
          .UNLOCK).trace = some true) ∨
      (MEMORY_LOCK_OPERATION.UNLOCK = .LOCK ∧
        lastProbe (EnsureMemoryLock .load pcConstants regionFirmware lockedHw 0xC0000 0x10000
          .UNLOCK).trace = some false)) ∧
     (∀ f : EFI_STATUS → EFI_STATUS,
        EnsureMemoryLock .load pcConstants (regionFirmware.reporting f) lockedHw 0xC0000 0x10000 .UNLOCK
          = EnsureMemoryLock .load pcConstants regionFirmware lockedHw 0xC0000 0x10000 .UNLOCK)) :=
  ⟨by decide, EnsureMemoryLock_success_probe .load pcConstants regionFirmware lockedHw 0xC0000 0x10000
    .UNLOCK (by decide)⟩

theorem lastProbe_mem (t : List Call) (b : Bool) (h : lastProbe t = some b) :
    Call.probe b ∈ t := by
  induction t with
  | nil => simp [lastProbe] at h
  | cons c cs ih =>
    simp only [lastProbe] at h
    cases hc : lastProbe cs with
    | some b2 =>
      rw [hc] at h
      simp only [Option.orElse, Option.some.injEq] at h
      subst h
      exact List.mem_cons_of_mem _ (ih hc)
    | none =>
      rw [hc] at h
      cases c <;> simp [Call.probeResult, Option.orElse] at h
      subst h
      exact List.mem_cons_self _ _

theorem checkAlready_settled (rb : ReadBack) (hw : Hw) (S : Nat) (op : MEMORY_LOCK_OPERATION) :
    Settled (checkAlready rb { Status := EFI_NOT_READY, hw := hw, trace := [] } S op) := by
  unfold Settled checkAlready
  cases op with
  | other v => exact Or.inr EFI_ERROR_NOT_READY
  | LOCK =>
    simp only [LockState.probe_fst, LockState.probe_snd]
    rcases Bool.eq_false_or_eq_true
        (CanWriteAtAddress rb hw S).1 with hx | hx <;> simp only [hx] <;> simp [EFI_ERROR_NOT_READY]
  | UNLOCK =>
    simp only [LockState.probe_fst, LockState.probe_snd]
    rcases Bool.eq_false_or_eq_true
        (CanWriteAtAddress rb hw S).1 with hx | hx <;> simp only [hx] <;> simp [EFI_ERROR_NOT_READY]

theorem tryLegacyRegion_settled (rb : ReadBack) (fw : Firmware) (s : LockState) (S L : Nat)
    (op : MEMORY_LOCK_OPERATION) (hs : Settled s) : Settled (tryLegacyRegion rb fw s S L op) := by
  unfold Settled tryLegacyRegion at *
  by_cases he : EFI_ERROR s.Status = true
  · by_cases hl : EFI_ERROR fw.LocateLegacyRegion = true
    · simp [he, hl]
    · simp only [Bool.not_eq_true] at hl
      by_cases ho : op = .UNLOCK
      · simp only [he, hl, ho, LockState.probe_fst, LockState.probe_snd, LockState.invoke]
        rcases Bool.eq_false_or_eq_true
            (CanWriteAtAddress rb (fw.LegacyRegionUnLock (S % 2 ^ 32) L s.hw).2 S).1 with hx | hx <;>
          simp only [hx] <;> simp [EFI_ERROR_DEVICE_ERROR]
      · simp only [he, hl, ho, LockState.probe_fst, LockState.probe_snd, LockState.invoke]
        rcases Bool.eq_false_or_eq_true
            (CanWriteAtAddress rb (fw.LegacyRegionLock (S % 2 ^ 32) L s.hw).2 S).1 with hx | hx <;>
          simp only [hx] <;> simp [EFI_ERROR_DEVICE_ERROR]
  · simpa [he] using hs

theorem tryLegacyRegion2_settled (rb : ReadBack) (fw : Firmware) (s : LockState) (S L : Nat)
    (op : MEMORY_LOCK_OPERATION) (hs : Settled s) :
    SettledLate fw (tryLegacyRegion2 rb fw s S L op) := by
  unfold Settled at hs
  unfold SettledLate tryLegacyRegion2
  by_cases he : EFI_ERROR s.Status = true
  · by_cases hl : EFI_ERROR fw.LocateLegacyRegion2 = true
    · simp [he, hl]
    · simp only [Bool.not_eq_true] at hl
      by_cases ho : op = .UNLOCK
      · simp only [he, hl, ho, LockState.probe_fst, LockState.probe_snd, LockState.invoke]
        rcases Bool.eq_false_or_eq_true
            (CanWriteAtAddress rb (fw.LegacyRegion2UnLock (S % 2 ^ 32) L s.hw).2 S).1 with hx | hx <;>
          simp only [hx] <;> simp [EFI_ERROR_DEVICE_ERROR]
      · simp only [he, hl, ho, LockState.probe_fst, LockState.probe_snd, LockState.invoke]
        rcases Bool.eq_false_or_eq_true
            (CanWriteAtAddress rb (fw.LegacyRegion2Lock (S % 2 ^ 32) L s.hw).2 S).1 with hx | hx <;>
          simp only [hx] <;> simp [EFI_ERROR_DEVICE_ERROR]
  · rcases hs with hs | hs
    · rw [if_neg he]
      exact Or.inl hs
    · exact absurd hs he

theorem tryMtrr_settled (rb : ReadBack) (k : Constants) (fw : Firmware) (s : LockState) (S L : Nat)
    (op : MEMORY_LOCK_OPERATION) (hs : SettledLate fw s) :
    SettledLate fw (tryMtrr rb k fw s S L op) := by
  unfold SettledLate at *
  unfold tryMtrr
  by_cases he : EFI_ERROR s.Status = true
  · by_cases hm : fw.IsMtrrSupported = true ∧ L ≤ k.FIXED_MTRR_SIZE
    · by_cases ho : op = .UNLOCK
      · simp only [he, hm, ho, LockState.probe_fst, LockState.probe_snd, LockState.invoke]
        rcases Bool.eq_false_or_eq_true
            (CanWriteAtAddress rb (fw.MtrrSetMemoryAttribute S k.FIXED_MTRR_SIZE .CacheUncacheable s.hw).2 S).1 with hx | hx <;>
          simp only [hx] <;> simp [EFI_ERROR_DEVICE_ERROR]
      · simp only [he, hm, ho, LockState.probe_fst, LockState.probe_snd, LockState.invoke]
        rcases Bool.eq_false_or_eq_true
            (CanWriteAtAddress rb (fw.MtrrSetMemoryAttribute S k.FIXED_MTRR_SIZE .CacheWriteProtected s.hw).2 S).1 with hx | hx <;>
          simp only [hx] <;> simp [EFI_ERROR_DEVICE_ERROR]
    · simpa [he, hm] using hs
  · simpa [he] using hs

/-- With neither protocol located and a range larger than the fixed MTRR
range, a call that does not find the region already in the requested state
probes once, queries, and gives up with the secondary locate status. -/
theorem EnsureMemoryLock_bare (rb : ReadBack) (k : Constants) (fw : Firmware) (hw : Hw) (S L : Nat)
    (op : MEMORY_LOCK_OPERATION) (hS : S ≠ 0) (hL : L ≠ 0) (hop : op = .LOCK ∨ op = .UNLOCK)
    (h1 : EFI_ERROR fw.LocateLegacyRegion = true) (h2 : EFI_ERROR fw.LocateLegacyRegion2 = true)
    (hbig : k.FIXED_MTRR_SIZE < L) (hst : (CanWriteAtAddress rb hw S).1 = !decide (op = .UNLOCK)) :
    EnsureMemoryLock rb k fw hw S L op =
      { Status := fw.LocateLegacyRegion2, hw := hw,
        trace := [Call.probe ((CanWriteAtAddress rb hw S).1), Call.locateLegacyRegion,
          Call.locateLegacyRegion2, Call.isMtrrSupported] } := by
  have hnb : ¬ L ≤ k.FIXED_MTRR_SIZE := by omega
  rw [EnsureMemoryLock_valid rb k fw hw S L op hS hL hop]
  rcases hop with rfl | rfl
  · simp only [checkAlready, tryLegacyRegion, tryLegacyRegion2, tryMtrr,
      LockState.probe_fst, LockState.probe_snd] at *
    simp at hst
    simp [hst, h1, h2, hnb, EFI_ERROR_NOT_READY]
  · simp only [checkAlready, tryLegacyRegion, tryLegacyRegion2, tryMtrr,
      LockState.probe_fst, LockState.probe_snd] at *
    simp at hst
    simp [hst, h1, h2, hnb, EFI_ERROR_NOT_READY]

theorem checkAlready_trace (rb : ReadBack) (hw : Hw) (S : Nat) (op : MEMORY_LOCK_OPERATION)
    (hop : op = .LOCK ∨ op = .UNLOCK) :
    (checkAlready rb { Status := EFI_NOT_READY, hw := hw, trace := [] } S op).trace =
      [Call.probe ((CanWriteAtAddress rb hw S).1)] := by
  unfold checkAlready
  rcases hop with rfl | rfl
  · simp only [LockState.probe_fst, LockState.probe_snd]
    rcases Bool.eq_false_or_eq_true
        (CanWriteAtAddress rb hw S).1 with hx | hx <;> simp only [hx] <;> simp
  · simp only [LockState.probe_fst, LockState.probe_snd]
    rcases Bool.eq_false_or_eq_true
        (CanWriteAtAddress rb hw S).1 with hx | hx <;> simp only [hx] <;> simp

theorem tryLegacyRegion_trace (rb : ReadBack) (fw : Firmware) (s : LockState) (S L : Nat)
    (op : MEMORY_LOCK_OPERATION) :
    ∃ u, (tryLegacyRegion rb fw s S L op).trace = s.trace ++ u := by
  unfold tryLegacyRegion
  simp only [LockState.probe_snd, LockState.invoke]
  by_cases he : EFI_ERROR s.Status = true
  · by_cases hl : (!EFI_ERROR fw.LocateLegacyRegion) = true
    · by_cases ho : op = .UNLOCK
      · exact ⟨_, by simp only [he, hl, ho, if_true, List.append_assoc]; rfl⟩
      · exact ⟨_, by simp only [he, hl, ho, if_true, if_false, List.append_assoc]; rfl⟩
    · exact ⟨_, by simp only [he, hl, if_true, if_false]; rfl⟩
  · exact ⟨[], by simp [he]⟩

theorem tryLegacyRegion2_trace (rb : ReadBack) (fw : Firmware) (s : LockState) (S L : Nat)
    (op : MEMORY_LOCK_OPERATION) :
    ∃ u, (tryLegacyRegion2 rb fw s S L op).trace = s.trace ++ u := by
  unfold tryLegacyRegion2
  simp only [LockState.probe_snd, LockState.invoke]
  by_cases he : EFI_ERROR s.Status = true
  · by_cases hl : (!EFI_ERROR fw.LocateLegacyRegion2) = true
    · by_cases ho : op = .UNLOCK
      · exact ⟨_, by simp only [he, hl, ho, if_true, List.append_assoc]; rfl⟩
      · exact ⟨_, by simp only [he, hl, ho, if_true, if_false, List.append_assoc]; rfl⟩
    · exact ⟨_, by simp only [he, hl, if_true, if_false]; rfl⟩
  · exact ⟨[], by simp [he]⟩

theorem tryMtrr_trace (rb : ReadBack) (k : Constants) (fw : Firmware) (s : LockState) (S L : Nat)
    (op : MEMORY_LOCK_OPERATION) :
    ∃ u, (tryMtrr rb k fw s S L op).trace = s.trace ++ u := by
  unfold tryMtrr
  simp only [LockState.probe_snd, LockState.invoke]
  by_cases he : EFI_ERROR s.Status = true
  · by_cases hl : fw.IsMtrrSupported = true ∧ L ≤ k.FIXED_MTRR_SIZE
    · by_cases ho : op = .UNLOCK
      · exact ⟨_, by simp only [he, hl, ho, if_true, List.append_assoc]; rfl⟩
      · exact ⟨_, by simp only [he, hl, ho, if_true, if_false, List.append_assoc]; rfl⟩
    · exact ⟨_, by simp only [he, hl, if_true, if_false]; rfl⟩
  · exact ⟨[], by simp [he]⟩

/-- The first entry of the trace of a valid call is the initial probe. -/
theorem EnsureMemoryLock_first_probe (rb : ReadBack) (k : Constants)
    (fw : Firmware) (hw : Hw) (S L : Nat)
    (op : MEMORY_LOCK_OPERATION) (hS : S ≠ 0) (hL : L ≠ 0) (hop : op = .LOCK ∨ op = .UNLOCK) :
    Call.probe ((CanWriteAtAddress rb hw S).1) ∈ (EnsureMemoryLock rb k fw hw S L op).trace := by
  rw [EnsureMemoryLock_valid rb k fw hw S L op hS hL hop]
  obtain ⟨u3, h3⟩ := tryMtrr_trace rb k fw (tryLegacyRegion2 rb fw (tryLegacyRegion rb fw
    (checkAlready rb { Status := EFI_NOT_READY, hw := hw, trace := [] } S op) S L op) S L op) S L op
  obtain ⟨u2, h2⟩ := tryLegacyRegion2_trace rb fw (tryLegacyRegion rb fw
    (checkAlready rb { Status := EFI_NOT_READY, hw := hw, trace := [] } S op) S L op) S L op
  obtain ⟨u1, h1⟩ := tryLegacyRegion_trace rb fw
    (checkAlready rb { Status := EFI_NOT_READY, hw := hw, trace := [] } S op) S L op
  rw [h3, h2, h1, checkAlready_trace rb hw S op hop]
  simp

/-- C4 (counterexample): with neither legacy-region protocol located, no MTRR
support and a 192 KiB range (larger than the fixed MTRR range), unlocking a
locked window is a valid call in which every probe reports the region still
locked, yet the status returned is `EFI_NOT_FOUND` (the status of the last
`LocateProtocol` call), not `EFI_NOT_READY`. -/
theorem EnsureMemoryLock_not_ready_counterexample :
    EFI_ERROR bareFirmware.LocateLegacyRegion = true ∧
    EFI_ERROR bareFirmware.LocateLegacyRegion2 = true ∧
    pcConstants.FIXED_MTRR_SIZE < 0x30000 ∧
    (∀ b, Call.probe b ∈
        (EnsureMemoryLock .load pcConstants bareFirmware lockedHw 0xC0000 0x30000 .UNLOCK).trace →
      b = false) ∧
    (EnsureMemoryLock .load pcConstants bareFirmware lockedHw 0xC0000 0x30000 .UNLOCK).Status
      = EFI_NOT_FOUND ∧
    (EnsureMemoryLock .load pcConstants bareFirmware lockedHw 0xC0000 0x30000 .UNLOCK).Status
      ≠ EFI_NOT_READY := by
  decide

/-- C4 (amended): for every valid call of `EnsureMemoryLock` in which every
probe reports the opposite of the requested writability state, the returned
status is an error: `EFI_DEVICE_ERROR`, or the status of the secondary
`LocateProtocol` call. In particular, when neither legacy-region protocol can
be located and `Length` exceeds `FIXED_MTRR_SIZE`, it returns the status of the
secondary `LocateProtocol` call, has invoked no lock, unlock or MTRR call, and
leaves the hardware state as it was. -/
theorem EnsureMemoryLock_failure_status (rb : ReadBack) (k : Constants)
    (fw : Firmware) (hw : Hw) (S L : Nat)
    (op : MEMORY_LOCK_OPERATION) (hS : S ≠ 0) (hL : L ≠ 0) (hop : op = .LOCK ∨ op = .UNLOCK)
    (hno : ∀ b, Call.probe b ∈ (EnsureMemoryLock rb k fw hw S L op).trace →
      b = !decide (op = .UNLOCK)) :
    EFI_ERROR (EnsureMemoryLock rb k fw hw S L op).Status = true ∧
    ((EnsureMemoryLock rb k fw hw S L op).Status = EFI_DEVICE_ERROR ∨
      (EnsureMemoryLock rb k fw hw S L op).Status = fw.LocateLegacyRegion2) ∧
    (EFI_ERROR fw.LocateLegacyRegion = true → EFI_ERROR fw.LocateLegacyRegion2 = true →
      k.FIXED_MTRR_SIZE < L →
        (EnsureMemoryLock rb k fw hw S L op).Status = fw.LocateLegacyRegion2 ∧
        (∀ c ∈ (EnsureMemoryLock rb k fw hw S L op).trace, c.isMechanism = false) ∧
        (EnsureMemoryLock rb k fw hw S L op).hw = hw) := by
  have hver : Verified op (EnsureMemoryLock rb k fw hw S L op) := by
    rw [EnsureMemoryLock_valid rb k fw hw S L op hS hL hop]
    exact tryMtrr_verified rb k fw _ S L op hop
      (tryLegacyRegion2_verified rb fw _ S L op hop
        (tryLegacyRegion_verified rb fw _ S L op hop (checkAlready_verified rb hw S op hop)))
  have hset : SettledLate fw (EnsureMemoryLock rb k fw hw S L op) := by
    rw [EnsureMemoryLock_valid rb k fw hw S L op hS hL hop]
    exact tryMtrr_settled rb k fw _ S L op
      (tryLegacyRegion2_settled rb fw _ S L op
        (tryLegacyRegion_settled rb fw _ S L op (checkAlready_settled rb hw S op)))
  have hfail : (EnsureMemoryLock rb k fw hw S L op).Status ≠ EFI_SUCCESS := by
    intro hsucc
    have hb := hno _ (lastProbe_mem _ _ (hver hsucc))
    cases hd : decide (op = .UNLOCK) <;> simp [hd] at hb
  have hstart : (CanWriteAtAddress rb hw S).1 = !decide (op = .UNLOCK) :=
    hno _ (EnsureMemoryLock_first_probe rb k fw hw S L op hS hL hop)
  rcases hset with hset | ⟨herr, hwhich⟩
  · exact absurd hset hfail
  · refine ⟨herr, hwhich, ?_⟩
    intro h1 h2 hbig
    rw [EnsureMemoryLock_bare rb k fw hw S L op hS hL hop h1 h2 hbig hstart]
    refine ⟨rfl, ?_, rfl⟩
    intro c hc
    simp only [List.mem_cons, List.mem_singleton, List.not_mem_nil, or_false] at hc
    rcases hc with rfl | rfl | rfl | rfl <;> rfl

/-- C4 (witness): the call of the counterexample satisfies every hypothesis of
the amended statement. -/
theorem EnsureMemoryLock_failure_status_witness :
    EFI_ERROR (EnsureMemoryLock .load pcConstants bareFirmware lockedHw 0xC0000 0x30000
      .UNLOCK).Status = true ∧
    ((EnsureMemoryLock .load pcConstants bareFirmware lockedHw 0xC0000 0x30000 .UNLOCK).Status
        = EFI_DEVICE_ERROR ∨
      (EnsureMemoryLock .load pcConstants bareFirmware lockedHw 0xC0000 0x30000 .UNLOCK).Status
        = bareFirmware.LocateLegacyRegion2) ∧
    (EFI_ERROR bareFirmware.LocateLegacyRegion = true →
      EFI_ERROR bareFirmware.LocateLegacyRegion2 = true →
      pcConstants.FIXED_MTRR_SIZE < 0x30000 →
        (EnsureMemoryLock .load pcConstants bareFirmware lockedHw 0xC0000 0x30000 .UNLOCK).Status
          = bareFirmware.LocateLegacyRegion2 ∧
        (∀ c ∈ (EnsureMemoryLock .load pcConstants bareFirmware lockedHw 0xC0000 0x30000
          .UNLOCK).trace, c.isMechanism = false) ∧
        (EnsureMemoryLock .load pcConstants bareFirmware lockedHw 0xC0000 0x30000 .UNLOCK).hw
          = lockedHw) :=
  EnsureMemoryLock_failure_status .load pcConstants bareFirmware lockedHw 0xC0000 0x30000 .UNLOCK
    (by decide) (by decide) (Or.inr rfl) (by decide)

/-! ### Reading memory through stores -/

theorem read8_write16_ne (m : Mem) (a v x : Nat) (h : x < a ∨ a + 2 ≤ x) :
    read8 (write16 m a v) x = read8 m x := by
  unfold write16
  rw [read8_write8_ne _ _ _ _ (by omega), read8_write8_ne _ _ _ _ (by omega)]

theorem read8_write32_ne (m : Mem) (a v x : Nat) (h : x < a ∨ a + 4 ≤ x) :
    read8 (write32 m a v) x = read8 m x := by
  unfold write32
  rw [read8_write16_ne _ _ _ _ (by omega), read8_write16_ne _ _ _ _ (by omega)]

theorem read8_CopyMem_ne (src : List Nat) (m : Mem) (dst x : Nat)
    (h : x < dst ∨ dst + src.length ≤ x) : read8 (CopyMem m dst src) x = read8 m x := by
  induction src generalizing m dst with
  | nil => rfl
  | cons b bs ih =>
    simp only [List.length_cons] at h
    rw [CopyMem, ih _ _ (by omega), read8_write8_ne _ _ _ _ (by omega)]

theorem read16_write8_ne (m : Mem) (a v x : Nat) (h : x + 2 ≤ a ∨ a < x) :
    read16 (write8 m a v) x = read16 m x := by
  unfold read16
  rw [read8_write8_ne _ _ _ _ (by omega), read8_write8_ne _ _ _ _ (by omega)]

theorem read16_write16_ne (m : Mem) (a v x : Nat) (h : x + 2 ≤ a ∨ a + 2 ≤ x) :
    read16 (write16 m a v) x = read16 m x := by
  unfold read16
  rw [read8_write16_ne _ _ _ _ (by omega), read8_write16_ne _ _ _ _ (by omega)]

theorem read16_write32_ne (m : Mem) (a v x : Nat) (h : x + 2 ≤ a ∨ a + 4 ≤ x) :
    read16 (write32 m a v) x = read16 m x := by
  unfold read16
  rw [read8_write32_ne _ _ _ _ (by omega), read8_write32_ne _ _ _ _ (by omega)]

theorem read16_CopyMem_ne (src : List Nat) (m : Mem) (dst x : Nat)
    (h : x + 2 ≤ dst ∨ dst + src.length ≤ x) : read16 (CopyMem m dst src) x = read16 m x := by
  unfold read16
  rw [read8_CopyMem_ne _ _ _ _ (by omega), read8_CopyMem_ne _ _ _ _ (by omega)]

theorem read32_write8_ne (m : Mem) (a v x : Nat) (h : x + 4 ≤ a ∨ a < x) :
    read32 (write8 m a v) x = read32 m x := by
  unfold read32
  rw [read16_write8_ne _ _ _ _ (by omega), read16_write8_ne _ _ _ _ (by omega)]

theorem read32_write16_ne (m : Mem) (a v x : Nat) (h : x + 4 ≤ a ∨ a + 2 ≤ x) :
    read32 (write16 m a v) x = read32 m x := by
  unfold read32
  rw [read16_write16_ne _ _ _ _ (by omega), read16_write16_ne _ _ _ _ (by omega)]

theorem read32_write32_ne (m : Mem) (a v x : Nat) (h : x + 4 ≤ a ∨ a + 4 ≤ x) :
    read32 (write32 m a v) x = read32 m x := by
  unfold read32
  rw [read16_write32_ne _ _ _ _ (by omega), read16_write32_ne _ _ _ _ (by omega)]

theorem read32_CopyMem_ne (src : List Nat) (m : Mem) (dst x : Nat)
    (h : x + 4 ≤ dst ∨ dst + src.length ≤ x) : read32 (CopyMem m dst src) x = read32 m x := by
  unfold read32
  rw [read16_CopyMem_ne _ _ _ _ (by omega), read16_CopyMem_ne _ _ _ _ (by omega)]

theorem read16_write16_same (m : Mem) (a v : Nat) : read16 (write16 m a v) a = v % 65536 := by
  unfold read16 write16
  rw [read8_write8_ne _ _ _ _ (by omega), read8_write8_same, read8_write8_same]
  omega

theorem read32_write32_same (m : Mem) (a v : Nat) : read32 (write32 m a v) a = v % 2 ^ 32 := by
  unfold read32 write32
  rw [read16_write16_ne _ _ _ _ (by omega), read16_write16_same, read16_write16_same]
  omega

theorem write8_apply_ne (m : Mem) (a v x : Nat) (h : x ≠ a) : write8 m a v x = m x := by
  simp [write8, h]

theorem write16_apply_ne (m : Mem) (a v x : Nat) (h : x < a ∨ a + 2 ≤ x) :
    write16 m a v x = m x := by
  unfold write16
  rw [write8_apply_ne _ _ _ _ (by omega), write8_apply_ne _ _ _ _ (by omega)]

theorem write32_apply_ne (m : Mem) (a v x : Nat) (h : x < a ∨ a + 4 ≤ x) :
    write32 m a v x = m x := by
  unfold write32
  rw [write16_apply_ne _ _ _ _ (by omega), write16_apply_ne _ _ _ _ (by omega)]

theorem CopyMem_apply_ne (src : List Nat) (m : Mem) (dst x : Nat)
    (h : x < dst ∨ dst + src.length ≤ x) : CopyMem m dst src x = m x := by
  induction src generalizing m dst with
  | nil => rfl
  | cons b bs ih =>
    simp only [List.length_cons] at h
    rw [CopyMem, ih _ _ (by omega), write8_apply_ne _ _ _ _ (by omega)]

theorem read16_congr (m1 m2 : Mem) (a : Nat) (h0 : m1 a = m2 a) (h1 : m1 (a + 1) = m2 (a + 1)) :
    read16 m1 a = read16 m2 a := by
  simp [read16, read8, h0, h1]

theorem read32_congr (m1 m2 : Mem) (a : Nat) (h0 : m1 a = m2 a) (h1 : m1 (a + 1) = m2 (a + 1))
    (h2 : m1 (a + 2) = m2 (a + 2)) (h3 : m1 (a + 3) = m2 (a + 3)) :
    read32 m1 a = read32 m2 a := by
  simp [read32, read16, read8, h0, h1, h2, h3]

theorem readBytes_congr (m1 m2 : Mem) (n a : Nat)
    (h : ∀ x, a ≤ x → x < a + n → m1 x = m2 x) : readBytes m1 a n = readBytes m2 a n := by
  induction n generalizing a with
  | zero => rfl
  | succ n ih =>
    simp only [readBytes, read8]
    rw [h a (Nat.le_refl _) (by omega), ih (a + 1) (fun x h1 h2 => h x (by omega) (by omega))]

theorem readBytes_write16_ne (m : Mem) (a v x n : Nat) (h : x + n ≤ a ∨ a + 2 ≤ x) :
    readBytes (write16 m a v) x n = readBytes m x n :=
  readBytes_congr _ _ _ _ (fun y h1 h2 => write16_apply_ne _ _ _ _ (by omega))

theorem readBytes_write32_ne (m : Mem) (a v x n : Nat) (h : x + n ≤ a ∨ a + 4 ≤ x) :
    readBytes (write32 m a v) x n = readBytes m x n :=
  readBytes_congr _ _ _ _ (fun y h1 h2 => write32_apply_ne _ _ _ _ (by omega))

theorem readBytes_CopyMem_ne (src : List Nat) (m : Mem) (dst x n : Nat)
    (h : x + n ≤ dst ∨ dst + src.length ≤ x) :
    readBytes (CopyMem m dst src) x n = readBytes m x n :=
  readBytes_congr _ _ _ _ (fun y h1 h2 => CopyMem_apply_ne _ _ _ _ (by omega))

theorem readBytes_CopyMem_same (src : List Nat) (m : Mem) (dst : Nat) :
    readBytes (CopyMem m dst src) dst src.length = src.map (· % 256) := by
  induction src generalizing m dst with
  | nil => rfl
  | cons b bs ih =>
    simp only [List.length_cons, readBytes, CopyMem, List.map_cons]
    rw [ih, read8_CopyMem_ne _ _ _ _ (by omega), read8_write8_same]

theorem readBytes_mode_list (m : Mem) (a v w : Nat) :
    readBytes (write16 (write16 m a v) (a + 2) w) a 4 =
      [v % 256, v / 256 % 256, w % 256, w / 256 % 256] := by
  have e : a + 1 + 1 = a + 2 := by omega
  simp only [readBytes, write16, e]
  rw [read8_write8_ne _ _ _ _ (by omega), read8_write8_ne _ _ _ _ (by omega),
    read8_write8_ne _ _ _ _ (by omega), read8_write8_same,
    read8_write8_ne _ _ _ _ (by omega), read8_write8_ne _ _ _ _ (by omega),
    read8_write8_same,
    read8_write8_ne _ _ _ _ (by omega), read8_write8_same, read8_write8_same]
  simp

/-- A far pointer built for a base that is a multiple of 64 KiB below 1 MiB
and a target less than 64 KiB above it: the segment is the base divided by 16
and the offset is the distance from the base. -/
theorem farPointer_aligned (S ptr : Nat) (hS : S % 65536 = 0) (hlt : S < 2 ^ 20)
    (h1 : S ≤ ptr) (h2 : ptr < S + 65536) :
    farPointer S ptr % 2 ^ 32 = 2 ^ 16 * (S / 16) + (ptr - S) := by
  unfold farPointer
  have e1 : (S % 2 ^ 32) <<< 12 % 2 ^ 32 = 2 ^ 16 * (S / 16) := by
    rw [Nat.shiftLeft_eq]
    omega
  have e2 : ptr % 2 ^ 16 = ptr - S := by omega
  have e3 : ptr - S < 2 ^ 16 := by omega
  rw [e1, e2, ← Nat.mul_add_lt_is_or e3]
  omega

theorem farPointer_roundtrip (S ptr : Nat) (hS : S % 65536 = 0) (hlt : S < 2 ^ 20)
    (h1 : S ≤ ptr) (h2 : ptr < S + 65536) :
    farSegment (farPointer S ptr % 2 ^ 32) = S / 16 ∧
    farOffset (farPointer S ptr % 2 ^ 32) = ptr - S ∧
    farSegment (farPointer S ptr % 2 ^ 32) * 16 + farOffset (farPointer S ptr % 2 ^ 32) = ptr := by
  rw [farPointer_aligned S ptr hS hlt h1 h2]
  unfold farSegment farOffset
  refine ⟨by omega, by omega, by omega⟩

/-! ### VESA shim synthesizer -/

/-- The state after a call that passes the parameter and display checks. -/
theorem ShimVesaInformation_run (k : Constants) (ensure : DISPLAY_INFO → EFI_STATUS × DISPLAY_INFO)
    (d : DISPLAY_INFO) (mem : Mem) (S : Nat) (isNull : Bool)
    (hS : S ≠ 0) (hN : isNull = false) (hE : EFI_ERROR (ensure d).1 = false) :
    ShimVesaInformation k ensure d mem S isNull =
      match writeMaskPositions (ensure d).2
          (writeVbeModeInfo (ensure d).2 (writeVbeInfo k (ensure d).2 mem S) (S + 256))
          (S + 256) with
      | none =>
        { Status := EFI_UNSUPPORTED, DisplayInfo := (ensure d).2,
          mem := writeVbeModeInfo (ensure d).2 (writeVbeInfo k (ensure d).2 mem S) (S + 256),
          EndAddress := none }
      | some m =>
        { Status := EFI_SUCCESS, DisplayInfo := (ensure d).2,
          mem := writeVbeModeInfoOther m (S + 256),
          EndAddress := some (S + 256 + 256) } := by
  unfold ShimVesaInformation
  simp [hS, hN, hE, sizeof_VBE_INFO, sizeof_VBE_MODE_INFO]

/-- The mode-info sections store only inside the mode-info record. -/
theorem writeVbeModeInfo_apply_ne (d : DISPLAY_INFO) (m : Mem) (V x : Nat)
    (h : x < V ∨ V + 256 ≤ x) : writeVbeModeInfo d m V x = m x := by
  unfold writeVbeModeInfo
  simp only [VBE_MODE_INFO.offset]
  simp (disch := omega) only [write8_apply_ne, write16_apply_ne, write32_apply_ne]

theorem writeMaskPositions_apply_ne (d : DISPLAY_INFO) (m m' : Mem) (V x : Nat)
    (hm : writeMaskPositions d m V = some m') (h : x < V ∨ V + 256 ≤ x) : m' x = m x := by
  unfold writeMaskPositions at hm
  simp only [VBE_MODE_INFO.offset] at hm
  split_ifs at hm <;> simp only [Option.some.injEq] at hm <;> subst hm <;>
    simp (disch := omega) only [write8_apply_ne]

theorem writeVbeModeInfoOther_apply_ne (m : Mem) (V x : Nat)
    (h : x < V ∨ V + 256 ≤ x) : writeVbeModeInfoOther m V x = m x := by
  unfold writeVbeModeInfoOther
  simp only [VBE_MODE_INFO.offset]
  simp (disch := omega) only [write8_apply_ne, write16_apply_ne, write32_apply_ne]

/-- The general-info section stores only inside the general-info record when
the strings fit its buffer. -/
theorem writeVbeInfo_apply_ne (k : Constants) (d : DISPLAY_INFO) (m : Mem) (S x : Nat)
    (hfit : k.StringsFit) (h : x < S ∨ S + 256 ≤ x) : writeVbeInfo k d m S x = m x := by
  unfold Constants.StringsFit at hfit
  unfold writeVbeInfo
  simp only [VBE_INFO_BASE.offset, sizeof_VBE_INFO_BASE, sizeof_VBE_INFO] at *
  simp (disch := first | omega | (simp only [List.length_cons, List.length_nil]; omega)) only
    [write16_apply_ne, write32_apply_ne, CopyMem_apply_ne]

/-- Below the mode-info record, memory after the call is what the general-info
section left. -/
theorem ShimVesaInformation_mem_below (k : Constants)
    (ensure : DISPLAY_INFO → EFI_STATUS × DISPLAY_INFO)
    (d : DISPLAY_INFO) (mem : Mem) (S : Nat) (isNull : Bool)
    (hS : S ≠ 0) (hN : isNull = false) (hE : EFI_ERROR (ensure d).1 = false)
    (x : Nat) (hx : x < S + 256) :
    (ShimVesaInformation k ensure d mem S isNull).mem x = writeVbeInfo k (ensure d).2 mem S x := by
  rw [ShimVesaInformation_run k ensure d mem S isNull hS hN hE]
  cases hm : writeMaskPositions (ensure d).2
      (writeVbeModeInfo (ensure d).2 (writeVbeInfo k (ensure d).2 mem S) (S + 256)) (S + 256) with
  | none =>
    simp only
    rw [writeVbeModeInfo_apply_ne _ _ _ _ (Or.inl hx)]
  | some m' =>
    simp only
    rw [writeVbeModeInfoOther_apply_ne _ _ _ (Or.inl hx),
      writeMaskPositions_apply_ne _ _ _ _ _ hm (Or.inl hx),
      writeVbeModeInfo_apply_ne _ _ _ _ (Or.inl hx)]

/-- The `VideoMem64K` field after a call that passes the checks. -/
theorem VideoMem64K_stored (k : Constants)
    (ensure : DISPLAY_INFO → EFI_STATUS × DISPLAY_INFO)
    (d : DISPLAY_INFO) (mem : Mem) (S : Nat) (isNull : Bool)
    (hS : S ≠ 0) (hN : isNull = false) (hE : EFI_ERROR (ensure d).1 = false) :
    read16 (ShimVesaInformation k ensure d mem S isNull).mem
        (S + VBE_INFO_BASE.VideoMem64K.offset) =
      ((ensure d).2.FrameBufferSize + 65535) % 2 ^ 64 / 65536 % 2 ^ 16 := by
  simp only [VBE_INFO_BASE.offset]
  rw [read16_congr _ (writeVbeInfo k (ensure d).2 mem S) _
    (ShimVesaInformation_mem_below k ensure d mem S isNull hS hN hE _ (by omega))
    (ShimVesaInformation_mem_below k ensure d mem S isNull hS hN hE _ (by omega))]
  unfold writeVbeInfo
  simp only [VBE_INFO_BASE.offset, sizeof_VBE_INFO_BASE]
  simp (disch := first | omega | (simp only [List.length_cons, List.length_nil]; omega)) only
    [read16_write16_ne, read16_write32_ne, read16_CopyMem_ne, read16_write16_same]
  omega

/-- C8 (counterexample): for a framebuffer of FFFF0001h bytes the call succeeds
and stores 0 in `VideoMem64K`, although 65536 units of 64 KiB are needed; the
stored count times 65536 does not even reach the framebuffer size. -/
theorem ShimVesaInformation_VideoMem64K_truncated :
    (ShimVesaInformation pcConstants (EnsureDisplayAvailable none) hugeDisplay zeroMem
      0xC0000 false).Status = EFI_SUCCESS ∧
    read16 (ShimVesaInformation pcConstants (EnsureDisplayAvailable none) hugeDisplay zeroMem
      0xC0000 false).mem (0xC0000 + VBE_INFO_BASE.VideoMem64K.offset) = 0 ∧
    ¬ (hugeDisplay.FrameBufferSize ≤
        read16 (ShimVesaInformation pcConstants (EnsureDisplayAvailable none) hugeDisplay zeroMem
          0xC0000 false).mem (0xC0000 + VBE_INFO_BASE.VideoMem64K.offset) * 65536) := by
  decide

/-- C8 (amended): for every framebuffer size of at most FFFF0000h bytes, the
`VideoMem64K` field written by a call that passes the parameter and display
checks is the size divided by 65536 rounded up: the least `n` with
`n * 65536 >= FrameBufferSize`; it is 48 for a 3 MiB framebuffer. -/
theorem ShimVesaInformation_VideoMem64K_ceil (k : Constants)
    (ensure : DISPLAY_INFO → EFI_STATUS × DISPLAY_INFO)
    (d : DISPLAY_INFO) (mem : Mem) (S : Nat) (isNull : Bool)
    (hS : S ≠ 0) (hN : isNull = false) (hE : EFI_ERROR (ensure d).1 = false)
    (hsize : (ensure d).2.FrameBufferSize ≤ 0xFFFF0000) :
    (ensure d).2.FrameBufferSize ≤
      read16 (ShimVesaInformation k ensure d mem S isNull).mem
        (S + VBE_INFO_BASE.VideoMem64K.offset) * 65536 ∧
    (∀ j : Nat, (ensure d).2.FrameBufferSize ≤ j * 65536 →
      read16 (ShimVesaInformation k ensure d mem S isNull).mem
        (S + VBE_INFO_BASE.VideoMem64K.offset) ≤ j) ∧
    ((ensure d).2.FrameBufferSize = 0x300000 →
      read16 (ShimVesaInformation k ensure d mem S isNull).mem
        (S + VBE_INFO_BASE.VideoMem64K.offset) = 48) := by
  rw [VideoMem64K_stored k ensure d mem S isNull hS hN hE]
  refine ⟨by omega, fun j hj => by omega, fun h3 => by omega⟩

/-- C8 (witness): a 3 MiB framebuffer gives 48 units. -/
theorem ShimVesaInformation_VideoMem64K_ceil_witness :
    xgaDisplay.FrameBufferSize ≤
      read16 (ShimVesaInformation pcConstants (EnsureDisplayAvailable (some xgaDisplay))
        xgaDisplay zeroMem 0xC0000 false).mem
        (0xC0000 + VBE_INFO_BASE.VideoMem64K.offset) * 65536 ∧
    read16 (ShimVesaInformation pcConstants (EnsureDisplayAvailable (some xgaDisplay))
        xgaDisplay zeroMem 0xC0000 false).mem
        (0xC0000 + VBE_INFO_BASE.VideoMem64K.offset) = 48 :=
  have h := ShimVesaInformation_VideoMem64K_ceil pcConstants
    (EnsureDisplayAvailable (some xgaDisplay)) xgaDisplay zeroMem 0xC0000 false
    (by decide) rfl (by decide) (by decide)
  ⟨h.1, h.2.2 (by decide)⟩

/-- The status of a call, case by case. -/
theorem ShimVesaInformation_Status_eq (k : Constants)
    (ensure : DISPLAY_INFO → EFI_STATUS × DISPLAY_INFO)
    (d : DISPLAY_INFO) (mem : Mem) (S : Nat) (isNull : Bool) :
    (ShimVesaInformation k ensure d mem S isNull).Status =
      if S = 0 ∨ isNull = true then EFI_INVALID_PARAMETER
      else if EFI_ERROR (ensure d).1 = true then EFI_NOT_FOUND
      else if (ensure d).2.PixelFormat ≠ .PixelBlueGreenRedReserved8BitPerColor ∧
          (ensure d).2.PixelFormat ≠ .PixelRedGreenBlueReserved8BitPerColor then EFI_UNSUPPORTED
      else EFI_SUCCESS := by
  unfold ShimVesaInformation
  by_cases h1 : S = 0 ∨ isNull = true
  · simp [h1]
  · by_cases h2 : EFI_ERROR (ensure d).1 = true
    · simp [h1, h2]
    · simp only [h1, h2, if_false]
      unfold writeMaskPositions
      by_cases hb : (ensure d).2.PixelFormat = .PixelBlueGreenRedReserved8BitPerColor
      · simp [hb]
      · by_cases hr : (ensure d).2.PixelFormat = .PixelRedGreenBlueReserved8BitPerColor
        · simp [hr]
        · simp [hb, hr]

/-- C7: the status returned by `ShimVesaInformation` is `EFI_INVALID_PARAMETER`
if `StartAddress` is 0 or the `EndAddress` pointer is null; otherwise
`EFI_NOT_FOUND` if `EnsureDisplayAvailable` reports an error; otherwise
`EFI_UNSUPPORTED` exactly when the pixel format is neither of the two 32-bit
orderings; otherwise `EFI_SUCCESS`. In the first two cases memory is left
untouched, and in the first case the display state is not even consulted. -/
theorem ShimVesaInformation_status_cases (k : Constants)
    (ensure : DISPLAY_INFO → EFI_STATUS × DISPLAY_INFO)
    (d : DISPLAY_INFO) (mem : Mem) (S : Nat) (isNull : Bool) :
    (ShimVesaInformation k ensure d mem S isNull).Status =
      (if S = 0 ∨ isNull = true then EFI_INVALID_PARAMETER
       else if EFI_ERROR (ensure d).1 = true then EFI_NOT_FOUND
       else if (ensure d).2.PixelFormat ≠ .PixelBlueGreenRedReserved8BitPerColor ∧
          (ensure d).2.PixelFormat ≠ .PixelRedGreenBlueReserved8BitPerColor then EFI_UNSUPPORTED
       else EFI_SUCCESS) ∧
    (S = 0 ∨ isNull = true →
      (ShimVesaInformation k ensure d mem S isNull).mem = mem ∧
      (ShimVesaInformation k ensure d mem S isNull).DisplayInfo = d ∧
      (ShimVesaInformation k ensure d mem S isNull).EndAddress = none) ∧
    (¬ (S = 0 ∨ isNull = true) → EFI_ERROR (ensure d).1 = true →
      (ShimVesaInformation k ensure d mem S isNull).mem = mem ∧
      (ShimVesaInformation k ensure d mem S isNull).EndAddress = none) := by
  refine ⟨ShimVesaInformation_Status_eq k ensure d mem S isNull, ?_, ?_⟩
  · intro h
    unfold ShimVesaInformation
    simp [h]
  · intro h1 h2
    unfold ShimVesaInformation
    simp [h1, h2]

/-- What a successful call went through and left behind. -/
theorem ShimVesaInformation_success (k : Constants)
    (ensure : DISPLAY_INFO → EFI_STATUS × DISPLAY_INFO)
    (d : DISPLAY_INFO) (mem : Mem) (S : Nat) (isNull : Bool)
    (hok : (ShimVesaInformation k ensure d mem S isNull).Status = EFI_SUCCESS) :
    S ≠ 0 ∧ isNull = false ∧ EFI_ERROR (ensure d).1 = false ∧
    ∃ m', writeMaskPositions (ensure d).2
        (writeVbeModeInfo (ensure d).2 (writeVbeInfo k (ensure d).2 mem S) (S + 256))
        (S + 256) = some m' ∧
      (ShimVesaInformation k ensure d mem S isNull).mem = writeVbeModeInfoOther m' (S + 256) ∧
      (ShimVesaInformation k ensure d mem S isNull).EndAddress = some (S + 256 + 256) ∧
      (ShimVesaInformation k ensure d mem S isNull).DisplayInfo = (ensure d).2 := by
  have hst := ShimVesaInformation_Status_eq k ensure d mem S isNull
  rw [hok] at hst
  by_cases h1 : S = 0 ∨ isNull = true
  · rw [if_pos h1] at hst
    exact absurd hst.symm EFI_INVALID_PARAMETER_ne_SUCCESS
  · by_cases h2 : EFI_ERROR (ensure d).1 = true
    · rw [if_neg h1, if_pos h2] at hst
      exact absurd hst.symm (by decide)
    · have hS : S ≠ 0 := fun e => h1 (Or.inl e)
      have hN : isNull = false := by
        cases isNull
        · rfl
        · exact absurd (Or.inr rfl) h1
      have hE : EFI_ERROR (ensure d).1 = false := by simpa using h2
      refine ⟨hS, hN, hE, ?_⟩
      have hrun := ShimVesaInformation_run k ensure d mem S isNull hS hN hE
      rw [hrun] at hok ⊢
      cases hm : writeMaskPositions (ensure d).2
          (writeVbeModeInfo (ensure d).2 (writeVbeInfo k (ensure d).2 mem S) (S + 256))
          (S + 256) with
      | none =>
        rw [hm] at hok
        have hne : EFI_UNSUPPORTED ≠ EFI_SUCCESS := by decide
        exact absurd hok hne
      | some m' => exact ⟨m', rfl, rfl, rfl, rfl⟩

/-- The `LfbAddress` field after a successful call. -/
theorem ShimVesaInformation_LfbAddress_eq (k : Constants)
    (ensure : DISPLAY_INFO → EFI_STATUS × DISPLAY_INFO)
    (d : DISPLAY_INFO) (mem : Mem) (S : Nat) (isNull : Bool)
    (hok : (ShimVesaInformation k ensure d mem S isNull).Status = EFI_SUCCESS) :
    read32 (ShimVesaInformation k ensure d mem S isNull).mem
        (S + sizeof_VBE_INFO + VBE_MODE_INFO.LfbAddress.offset) =
      FrameBufferBaseWithOffset (ensure d).2 % 2 ^ 32 := by
  obtain ⟨-, -, -, m', hm, hmem, -, -⟩ := ShimVesaInformation_success k ensure d mem S isNull hok
  rw [hmem]
  unfold writeMaskPositions at hm
  unfold writeVbeModeInfoOther
  simp only [VBE_MODE_INFO.offset, sizeof_VBE_INFO] at hm ⊢
  split_ifs at hm <;> simp only [Option.some.injEq] at hm <;> subst hm <;>
    unfold writeVbeModeInfo <;> simp only [VBE_MODE_INFO.offset] <;>
    simp (disch := omega) only [read32_write8_ne, read32_write16_ne, read32_write32_ne,
      read32_write32_same, Nat.mod_mod]

theorem FrameBufferBaseWithOffset_centered (d : DISPLAY_INFO) (hT : d.WellTyped)
    (hH : 1024 ≤ d.HorizontalResolution) (hV : 768 ≤ d.VerticalResolution)
    (h32 : d.FrameBufferBase + (d.VerticalResolution - 768) / 2 * d.PixelsPerScanLine * 4 +
      (d.HorizontalResolution - 1024) / 2 * 4 < 2 ^ 32) :
    FrameBufferBaseWithOffset d % 2 ^ 32 =
      d.FrameBufferBase + (d.VerticalResolution - 768) / 2 * d.PixelsPerScanLine * 4 +
        (d.HorizontalResolution - 1024) / 2 * 4 := by
  obtain ⟨h1, h2, -, -, -⟩ := hT
  have eH : (d.HorizontalResolution + 2 ^ 32 - 1024) % 2 ^ 32 = d.HorizontalResolution - 1024 := by
    omega
  have eV : (d.VerticalResolution + 2 ^ 32 - 768) % 2 ^ 32 = d.VerticalResolution - 768 := by
    omega
  unfold FrameBufferBaseWithOffset VerticalOffsetPx HorizontalOffsetPx
  rw [eH, eV]
  generalize (d.VerticalResolution - 768) / 2 * d.PixelsPerScanLine = a at h32 ⊢
  omega

/-- C5: for a display state with `HorizontalResolution >= 1024` and
`VerticalResolution >= 768` whose centred address fits in 32 bits, a successful
`ShimVesaInformation` stores `LfbAddress = FrameBufferBase +
((VerticalResolution - 768) / 2) * PixelsPerScanLine * 4 +
((HorizontalResolution - 1024) / 2) * 4`; a 1024x768 display gives
`FrameBufferBase`, a 1280x800 display `FrameBufferBase + 16*stride*4 + 128*4`. -/
theorem ShimVesaInformation_LfbAddress_centered (k : Constants)
    (ensure : DISPLAY_INFO → EFI_STATUS × DISPLAY_INFO)
    (d : DISPLAY_INFO) (mem : Mem) (S : Nat) (isNull : Bool)
    (hok : (ShimVesaInformation k ensure d mem S isNull).Status = EFI_SUCCESS)
    (hT : (ensure d).2.WellTyped)
    (hH : 1024 ≤ (ensure d).2.HorizontalResolution)
    (hV : 768 ≤ (ensure d).2.VerticalResolution)
    (h32 : (ensure d).2.FrameBufferBase +
      ((ensure d).2.VerticalResolution - 768) / 2 * (ensure d).2.PixelsPerScanLine * 4 +
      ((ensure d).2.HorizontalResolution - 1024) / 2 * 4 < 2 ^ 32) :
    read32 (ShimVesaInformation k ensure d mem S isNull).mem
        (S + sizeof_VBE_INFO + VBE_MODE_INFO.LfbAddress.offset) =
      (ensure d).2.FrameBufferBase +
        ((ensure d).2.VerticalResolution - 768) / 2 * (ensure d).2.PixelsPerScanLine * 4 +
        ((ensure d).2.HorizontalResolution - 1024) / 2 * 4 ∧
    ((ensure d).2.HorizontalResolution = 1024 → (ensure d).2.VerticalResolution = 768 →
      read32 (ShimVesaInformation k ensure d mem S isNull).mem
        (S + sizeof_VBE_INFO + VBE_MODE_INFO.LfbAddress.offset) = (ensure d).2.FrameBufferBase) ∧
    ((ensure d).2.HorizontalResolution = 1280 → (ensure d).2.VerticalResolution = 800 →
      read32 (ShimVesaInformation k ensure d mem S isNull).mem
        (S + sizeof_VBE_INFO + VBE_MODE_INFO.LfbAddress.offset) =
        (ensure d).2.FrameBufferBase + 16 * (ensure d).2.PixelsPerScanLine * 4 + 128 * 4) := by
  have hval := ShimVesaInformation_LfbAddress_eq k ensure d mem S isNull hok
  rw [FrameBufferBaseWithOffset_centered _ hT hH hV h32] at hval
  refine ⟨hval, ?_, ?_⟩
  · intro e1 e2
    rw [hval, e1, e2]
    simp
  · intro e1 e2
    rw [hval, e1, e2]

/-- C5 (witness): the 1280x800 display with stride 1280 at E0000000h. -/
theorem ShimVesaInformation_LfbAddress_centered_witness :
    (ShimVesaInformation pcConstants (EnsureDisplayAvailable none) wideDisplay zeroMem
      0xC0000 false).Status = EFI_SUCCESS ∧
    read32 (ShimVesaInformation pcConstants (EnsureDisplayAvailable none) wideDisplay zeroMem
      0xC0000 false).mem (0xC0000 + sizeof_VBE_INFO + VBE_MODE_INFO.LfbAddress.offset) =
      0xE0000000 + 16 * 1280 * 4 + 128 * 4 :=
  ⟨by decide,
   (ShimVesaInformation_LfbAddress_centered pcConstants (EnsureDisplayAvailable none)
      wideDisplay zeroMem 0xC0000 false (by decide) (by decide) (by decide) (by decide)
      (by decide)).2.2 rfl rfl⟩

/-- The eight linear mask fields after a successful call, by pixel format. -/
theorem ShimVesaInformation_masks (k : Constants)
    (ensure : DISPLAY_INFO → EFI_STATUS × DISPLAY_INFO)
    (d : DISPLAY_INFO) (mem : Mem) (S : Nat) (isNull : Bool)
    (hok : (ShimVesaInformation k ensure d mem S isNull).Status = EFI_SUCCESS) :
    read8 (ShimVesaInformation k ensure d mem S isNull).mem
      (S + sizeof_VBE_INFO + VBE_MODE_INFO.RedMaskSizeLinear.offset) = 8 ∧
    read8 (ShimVesaInformation k ensure d mem S isNull).mem
      (S + sizeof_VBE_INFO + VBE_MODE_INFO.GreenMaskSizeLinear.offset) = 8 ∧
    read8 (ShimVesaInformation k ensure d mem S isNull).mem
      (S + sizeof_VBE_INFO + VBE_MODE_INFO.BlueMaskSizeLinear.offset) = 8 ∧
    read8 (ShimVesaInformation k ensure d mem S isNull).mem
      (S + sizeof_VBE_INFO + VBE_MODE_INFO.ReservedMaskSizeLinear.offset) = 8 ∧
    (((ensure d).2.PixelFormat = .PixelBlueGreenRedReserved8BitPerColor ∧
      read8 (ShimVesaInformation k ensure d mem S isNull).mem
        (S + sizeof_VBE_INFO + VBE_MODE_INFO.BlueMaskPosLinear.offset) = 0 ∧
      read8 (ShimVesaInformation k ensure d mem S isNull).mem
        (S + sizeof_VBE_INFO + VBE_MODE_INFO.GreenMaskPosLinear.offset) = 8 ∧
      read8 (ShimVesaInformation k ensure d mem S isNull).mem
        (S + sizeof_VBE_INFO + VBE_MODE_INFO.RedMaskPosLinear.offset) = 16 ∧
      read8 (ShimVesaInformation k ensure d mem S isNull).mem
        (S + sizeof_VBE_INFO + VBE_MODE_INFO.ReservedMaskPosLinear.offset) = 24) ∨
     ((ensure d).2.PixelFormat = .PixelRedGreenBlueReserved8BitPerColor ∧
      read8 (ShimVesaInformation k ensure d mem S isNull).mem
        (S + sizeof_VBE_INFO + VBE_MODE_INFO.RedMaskPosLinear.offset) = 0 ∧
      read8 (ShimVesaInformation k ensure d mem S isNull).mem
        (S + sizeof_VBE_INFO + VBE_MODE_INFO.GreenMaskPosLinear.offset) = 8 ∧
      read8 (ShimVesaInformation k ensure d mem S isNull).mem
        (S + sizeof_VBE_INFO + VBE_MODE_INFO.BlueMaskPosLinear.offset) = 16 ∧
      read8 (ShimVesaInformation k ensure d mem S isNull).mem
        (S + sizeof_VBE_INFO + VBE_MODE_INFO.ReservedMaskPosLinear.offset) = 24)) := by
  obtain ⟨-, -, -, m', hm, hmem, -, -⟩ := ShimVesaInformation_success k ensure d mem S isNull hok
  rw [hmem]
  unfold writeMaskPositions at hm
  unfold writeVbeModeInfoOther
  simp only [VBE_MODE_INFO.offset, sizeof_VBE_INFO] at hm ⊢
  by_cases hb : (ensure d).2.PixelFormat = .PixelBlueGreenRedReserved8BitPerColor
  · rw [if_pos hb] at hm
    simp only [Option.some.injEq] at hm
    subst hm
    unfold writeVbeModeInfo
    simp only [VBE_MODE_INFO.offset]
    simp (disch := omega) only [read8_write8_ne, read8_write16_ne, read8_write32_ne,
      read8_write8_same]
    simp [hb]
  · by_cases hr : (ensure d).2.PixelFormat = .PixelRedGreenBlueReserved8BitPerColor
    · rw [if_neg hb, if_pos hr] at hm
      simp only [Option.some.injEq] at hm
      subst hm
      unfold writeVbeModeInfo
      simp only [VBE_MODE_INFO.offset]
      simp (disch := omega) only [read8_write8_ne, read8_write16_ne, read8_write32_ne,
        read8_write8_same]
      simp [hr]
    · rw [if_neg hb, if_neg hr] at hm
      exact Option.noConfusion hm

/-- C6: after a successful `ShimVesaInformation` the four linear mask sizes are
8; the positions are blue 0, green 8, red 16, reserved 24 for the
blue-green-red-reserved format and red 0, green 8, blue 16, reserved 24 for the
red-green-blue-reserved format; in both cases the positions are a permutation
of 0, 8, 16, 24 and the four bit ranges `[pos, pos + 8)` together hold each of
the bits 0..31 exactly once. -/
theorem ShimVesaInformation_channel_layout (k : Constants)
    (ensure : DISPLAY_INFO → EFI_STATUS × DISPLAY_INFO)
    (d : DISPLAY_INFO) (mem : Mem) (S : Nat) (isNull : Bool)
    (hok : (ShimVesaInformation k ensure d mem S isNull).Status = EFI_SUCCESS) :
    (∀ c, linearMaskSize (ShimVesaInformation k ensure d mem S isNull).mem
      (S + sizeof_VBE_INFO) c = 8) ∧
    (((ensure d).2.PixelFormat = .PixelBlueGreenRedReserved8BitPerColor ∧
      linearMaskPos (ShimVesaInformation k ensure d mem S isNull).mem
        (S + sizeof_VBE_INFO) .blue = 0 ∧
      linearMaskPos (ShimVesaInformation k ensure d mem S isNull).mem
        (S + sizeof_VBE_INFO) .green = 8 ∧
      linearMaskPos (ShimVesaInformation k ensure d mem S isNull).mem
        (S + sizeof_VBE_INFO) .red = 16 ∧
      linearMaskPos (ShimVesaInformation k ensure d mem S isNull).mem
        (S + sizeof_VBE_INFO) .reserved = 24) ∨
     ((ensure d).2.PixelFormat = .PixelRedGreenBlueReserved8BitPerColor ∧
      linearMaskPos (ShimVesaInformation k ensure d mem S isNull).mem
        (S + sizeof_VBE_INFO) .red = 0 ∧
      linearMaskPos (ShimVesaInformation k ensure d mem S isNull).mem
        (S + sizeof_VBE_INFO) .green = 8 ∧
      linearMaskPos (ShimVesaInformation k ensure d mem S isNull).mem
        (S + sizeof_VBE_INFO) .blue = 16 ∧
      linearMaskPos (ShimVesaInformation k ensure d mem S isNull).mem
        (S + sizeof_VBE_INFO) .reserved = 24)) ∧
    ([Channel.red, Channel.green, Channel.blue, Channel.reserved].map
        (linearMaskPos (ShimVesaInformation k ensure d mem S isNull).mem
          (S + sizeof_VBE_INFO))).Perm [0, 8, 16, 24] ∧
    ([Channel.red, Channel.green, Channel.blue, Channel.reserved].flatMap
        (channelBits (ShimVesaInformation k ensure d mem S isNull).mem
          (S + sizeof_VBE_INFO))).Perm (List.range 32) := by
  obtain ⟨sr, sg, sb, sx, hpos⟩ := ShimVesaInformation_masks k ensure d mem S isNull hok
  have hsize : ∀ c, linearMaskSize (ShimVesaInformation k ensure d mem S isNull).mem
      (S + sizeof_VBE_INFO) c = 8 := by
    intro c
    cases c
    · exact sr
    · exact sg
    · exact sb
    · exact sx
  refine ⟨hsize, ?_, ?_, ?_⟩
  · exact hpos
  · rcases hpos with ⟨-, pb, pg, pr, px⟩ | ⟨-, pr, pg, pb, px⟩
    · simp only [List.map, linearMaskPos, pb, pg, pr, px]
      decide
    · simp only [List.map, linearMaskPos, pb, pg, pr, px]
      decide
  · rcases hpos with ⟨-, pb, pg, pr, px⟩ | ⟨-, pr, pg, pb, px⟩
    · simp only [List.flatMap, List.map, List.flatten, channelBits, hsize, linearMaskPos,
        pb, pg, pr, px]
      decide
    · simp only [List.flatMap, List.map, List.flatten, channelBits, hsize, linearMaskPos,
        pb, pg, pr, px]
      decide

/-- C6 (witness): a red-green-blue display. -/
theorem ShimVesaInformation_channel_layout_witness :
    (ShimVesaInformation pcConstants (EnsureDisplayAvailable none) wideDisplayRGB zeroMem
      0xC0000 false).Status = EFI_SUCCESS ∧
    ([Channel.red, Channel.green, Channel.blue, Channel.reserved].flatMap
        (channelBits (ShimVesaInformation pcConstants (EnsureDisplayAvailable none)
          wideDisplayRGB zeroMem 0xC0000 false).mem
          (0xC0000 + sizeof_VBE_INFO))).Perm (List.range 32) :=
  ⟨by decide,
   (ShimVesaInformation_channel_layout pcConstants (EnsureDisplayAvailable none)
      wideDisplayRGB zeroMem 0xC0000 false (by decide)).2.2.2⟩

/-- The five far-pointer fields after a call that passes the checks. -/
theorem ShimVesaInformation_farPointers (k : Constants)
    (ensure : DISPLAY_INFO → EFI_STATUS × DISPLAY_INFO)
    (d : DISPLAY_INFO) (mem : Mem) (S : Nat) (isNull : Bool)
    (hS : S ≠ 0) (hN : isNull = false) (hE : EFI_ERROR (ensure d).1 = false) :
    read32 (ShimVesaInformation k ensure d mem S isNull).mem
      (S + VBE_INFO_BASE.OemNameAddress.offset) = farPointer S (OemNamePtr S) % 2 ^ 32 ∧
    read32 (ShimVesaInformation k ensure d mem S isNull).mem
      (S + VBE_INFO_BASE.ModeListAddress.offset) = farPointer S (ModeListPtr k S) % 2 ^ 32 ∧
    read32 (ShimVesaInformation k ensure d mem S isNull).mem
      (S + VBE_INFO_BASE.VendorNameAddress.offset) = farPointer S (VendorNamePtr k S) % 2 ^ 32 ∧
    read32 (ShimVesaInformation k ensure d mem S isNull).mem
      (S + VBE_INFO_BASE.ProductNameAddress.offset) = farPointer S (ProductNamePtr k S) % 2 ^ 32 ∧
    read32 (ShimVesaInformation k ensure d mem S isNull).mem
      (S + VBE_INFO_BASE.ProductRevAddress.offset) = farPointer S (ProductRevPtr k S) % 2 ^ 32 := by
  have hb : ∀ x, x + 4 ≤ S + 34 →
      read32 (ShimVesaInformation k ensure d mem S isNull).mem x =
        read32 (writeVbeInfo k (ensure d).2 mem S) x := by
    intro x hx
    exact read32_congr _ _ _
      (ShimVesaInformation_mem_below k ensure d mem S isNull hS hN hE _ (by omega))
      (ShimVesaInformation_mem_below k ensure d mem S isNull hS hN hE _ (by omega))
      (ShimVesaInformation_mem_below k ensure d mem S isNull hS hN hE _ (by omega))
      (ShimVesaInformation_mem_below k ensure d mem S isNull hS hN hE _ (by omega))
  simp only [VBE_INFO_BASE.offset, ProductRevPtr, ProductNamePtr, VendorNamePtr, ModeListPtr,
    OemNamePtr, sizeof_VBE_INFO_BASE]
  rw [hb _ (by omega), hb _ (by omega), hb _ (by omega), hb _ (by omega), hb _ (by omega)]
  unfold writeVbeInfo
  simp only [VBE_INFO_BASE.offset, sizeof_VBE_INFO_BASE]
  refine ⟨?_, ?_, ?_, ?_, ?_⟩ <;>
    simp (disch := first | omega | (simp only [List.length_cons, List.length_nil]; omega)) only
      [read32_write16_ne, read32_write32_ne, read32_CopyMem_ne, read32_write32_same]

/-- The mode list and the strings after a call that passes the checks, when
they fit the scratch buffer. -/
theorem ShimVesaInformation_strings (k : Constants)
    (ensure : DISPLAY_INFO → EFI_STATUS × DISPLAY_INFO)
    (d : DISPLAY_INFO) (mem : Mem) (S : Nat) (isNull : Bool)
    (hS : S ≠ 0) (hN : isNull = false) (hE : EFI_ERROR (ensure d).1 = false)
    (hfit : k.StringsFit) :
    readBytes (ShimVesaInformation k ensure d mem S isNull).mem (OemNamePtr S)
      k.VENDOR_NAME.length = k.VENDOR_NAME.map (· % 256) ∧
    readBytes (ShimVesaInformation k ensure d mem S isNull).mem (ModeListPtr k S) 4
      = [0xF1, 0x00, 0xFF, 0xFF] ∧
    readBytes (ShimVesaInformation k ensure d mem S isNull).mem (VendorNamePtr k S)
      k.VENDOR_NAME.length = k.VENDOR_NAME.map (· % 256) ∧
    readBytes (ShimVesaInformation k ensure d mem S isNull).mem (ProductNamePtr k S)
      k.PRODUCT_NAME.length = k.PRODUCT_NAME.map (· % 256) ∧
    readBytes (ShimVesaInformation k ensure d mem S isNull).mem (ProductRevPtr k S)
      k.PRODUCT_REVISION.length = k.PRODUCT_REVISION.map (· % 256) := by
  unfold Constants.StringsFit at hfit
  simp only [sizeof_VBE_INFO_BASE, sizeof_VBE_INFO] at hfit
  have hb : ∀ x n, x + n ≤ S + 256 →
      readBytes (ShimVesaInformation k ensure d mem S isNull).mem x n =
        readBytes (writeVbeInfo k (ensure d).2 mem S) x n := by
    intro x n hx
    exact readBytes_congr _ _ _ _ (fun y h1 h2 =>
      ShimVesaInformation_mem_below k ensure d mem S isNull hS hN hE _ (by omega))
  simp only [ProductRevPtr, ProductNamePtr, VendorNamePtr, ModeListPtr,
    OemNamePtr, sizeof_VBE_INFO_BASE]
  rw [hb _ _ (by omega), hb _ _ (by omega), hb _ _ (by omega), hb _ _ (by omega),
    hb _ _ (by omega)]
  unfold writeVbeInfo
  simp only [VBE_INFO_BASE.offset, sizeof_VBE_INFO_BASE]
  refine ⟨?_, ?_, ?_, ?_, ?_⟩ <;>
    simp (disch := first | omega | (simp only [List.length_cons, List.length_nil]; omega)) only
      [readBytes_write16_ne, readBytes_write32_ne, readBytes_CopyMem_ne, readBytes_CopyMem_same,
       readBytes_mode_list]

/-- C1 (counterexample): at the 16-byte-aligned base C0010h the call succeeds
and the OEM name is written at C0032h, but the far pointer stored in
`OemNameAddress` is C001:0032, which decodes to C0042h. -/
theorem ShimVesaInformation_farPointer_misaligned :
    0xC0010 % 16 = 0 ∧
    (ShimVesaInformation pcConstants (EnsureDisplayAvailable none) wideDisplay zeroMem
      0xC0010 false).Status = EFI_SUCCESS ∧
    readBytes (ShimVesaInformation pcConstants (EnsureDisplayAvailable none) wideDisplay zeroMem
      0xC0010 false).mem 0xC0032 3 = pcConstants.VENDOR_NAME ∧
    OemNamePtr 0xC0010 = 0xC0032 ∧
    farSegment (read32 (ShimVesaInformation pcConstants (EnsureDisplayAvailable none)
      wideDisplay zeroMem 0xC0010 false).mem
      (0xC0010 + VBE_INFO_BASE.OemNameAddress.offset)) = 0xC001 ∧
    farOffset (read32 (ShimVesaInformation pcConstants (EnsureDisplayAvailable none)
      wideDisplay zeroMem 0xC0010 false).mem
      (0xC0010 + VBE_INFO_BASE.OemNameAddress.offset)) = 0x0032 ∧
    farSegment (read32 (ShimVesaInformation pcConstants (EnsureDisplayAvailable none)
      wideDisplay zeroMem 0xC0010 false).mem
      (0xC0010 + VBE_INFO_BASE.OemNameAddress.offset)) * 16 +
    farOffset (read32 (ShimVesaInformation pcConstants (EnsureDisplayAvailable none)
      wideDisplay zeroMem 0xC0010 false).mem
      (0xC0010 + VBE_INFO_BASE.OemNameAddress.offset)) ≠ OemNamePtr 0xC0010 := by
  decide

/-- C1 (amended): for every `StartAddress` that is a multiple of 65536 below
1 MiB on which `ShimVesaInformation` succeeds, with the mode list and strings
fitting the scratch buffer, each of the five far pointers stored in the
general-info record (segment = upper 16 bits, offset = lower 16 bits) satisfies
`segment*16 + offset ==` the address at which the corresponding string or mode
list was written, and the memory there holds that string or mode list. -/
theorem ShimVesaInformation_farPointer_roundtrip (k : Constants)
    (ensure : DISPLAY_INFO → EFI_STATUS × DISPLAY_INFO)
    (d : DISPLAY_INFO) (mem : Mem) (S : Nat) (isNull : Bool)
    (hok : (ShimVesaInformation k ensure d mem S isNull).Status = EFI_SUCCESS)
    (hal : S % 65536 = 0) (hlt : S < 2 ^ 20) (hfit : k.StringsFit) :
    (farSegment (read32 (ShimVesaInformation k ensure d mem S isNull).mem
        (S + VBE_INFO_BASE.OemNameAddress.offset)) * 16 +
      farOffset (read32 (ShimVesaInformation k ensure d mem S isNull).mem
        (S + VBE_INFO_BASE.OemNameAddress.offset)) = OemNamePtr S ∧
     readBytes (ShimVesaInformation k ensure d mem S isNull).mem (OemNamePtr S)
        k.VENDOR_NAME.length = k.VENDOR_NAME.map (· % 256)) ∧
    (farSegment (read32 (ShimVesaInformation k ensure d mem S isNull).mem
        (S + VBE_INFO_BASE.ModeListAddress.offset)) * 16 +
      farOffset (read32 (ShimVesaInformation k ensure d mem S isNull).mem
        (S + VBE_INFO_BASE.ModeListAddress.offset)) = ModeListPtr k S ∧
     readBytes (ShimVesaInformation k ensure d mem S isNull).mem (ModeListPtr k S) 4
        = [0xF1, 0x00, 0xFF, 0xFF]) ∧
    (farSegment (read32 (ShimVesaInformation k ensure d mem S isNull).mem
        (S + VBE_INFO_BASE.VendorNameAddress.offset)) * 16 +
      farOffset (read32 (ShimVesaInformation k ensure d mem S isNull).mem
        (S + VBE_INFO_BASE.VendorNameAddress.offset)) = VendorNamePtr k S ∧
     readBytes (ShimVesaInformation k ensure d mem S isNull).mem (VendorNamePtr k S)
        k.VENDOR_NAME.length = k.VENDOR_NAME.map (· % 256)) ∧
    (farSegment (read32 (ShimVesaInformation k ensure d mem S isNull).mem
        (S + VBE_INFO_BASE.ProductNameAddress.offset)) * 16 +
      farOffset (read32 (ShimVesaInformation k ensure d mem S isNull).mem
        (S + VBE_INFO_BASE.ProductNameAddress.offset)) = ProductNamePtr k S ∧
     readBytes (ShimVesaInformation k ensure d mem S isNull).mem (ProductNamePtr k S)
        k.PRODUCT_NAME.length = k.PRODUCT_NAME.map (· % 256)) ∧
    (farSegment (read32 (ShimVesaInformation k ensure d mem S isNull).mem
        (S + VBE_INFO_BASE.ProductRevAddress.offset)) * 16 +
      farOffset (read32 (ShimVesaInformation k ensure d mem S isNull).mem
        (S + VBE_INFO_BASE.ProductRevAddress.offset)) = ProductRevPtr k S ∧
     readBytes (ShimVesaInformation k ensure d mem S isNull).mem (ProductRevPtr k S)
        k.PRODUCT_REVISION.length = k.PRODUCT_REVISION.map (· % 256)) := by
  obtain ⟨hS, hN, hE, -⟩ := ShimVesaInformation_success k ensure d mem S isNull hok
  obtain ⟨p1, p2, p3, p4, p5⟩ := ShimVesaInformation_farPointers k ensure d mem S isNull hS hN hE
  obtain ⟨c1, c2, c3, c4, c5⟩ :=
    ShimVesaInformation_strings k ensure d mem S isNull hS hN hE hfit
  have hfit2 := hfit
  unfold Constants.StringsFit at hfit2
  simp only [sizeof_VBE_INFO_BASE, sizeof_VBE_INFO] at hfit2
  rw [p1, p2, p3, p4, p5]
  refine ⟨⟨?_, c1⟩, ⟨?_, c2⟩, ⟨?_, c3⟩, ⟨?_, c4⟩, ⟨?_, c5⟩⟩
  · exact (farPointer_roundtrip S _ hal hlt
      (by simp only [OemNamePtr, sizeof_VBE_INFO_BASE]; omega)
      (by simp only [OemNamePtr, sizeof_VBE_INFO_BASE]; omega)).2.2
  · exact (farPointer_roundtrip S _ hal hlt
      (by simp only [ModeListPtr, OemNamePtr, sizeof_VBE_INFO_BASE]; omega)
      (by simp only [ModeListPtr, OemNamePtr, sizeof_VBE_INFO_BASE]; omega)).2.2
  · exact (farPointer_roundtrip S _ hal hlt
      (by simp only [VendorNamePtr, ModeListPtr, OemNamePtr, sizeof_VBE_INFO_BASE]; omega)
      (by simp only [VendorNamePtr, ModeListPtr, OemNamePtr, sizeof_VBE_INFO_BASE]; omega)).2.2
  · exact (farPointer_roundtrip S _ hal hlt
      (by simp only [ProductNamePtr, VendorNamePtr, ModeListPtr, OemNamePtr,
        sizeof_VBE_INFO_BASE]; omega)
      (by simp only [ProductNamePtr, VendorNamePtr, ModeListPtr, OemNamePtr,
        sizeof_VBE_INFO_BASE]; omega)).2.2
  · exact (farPointer_roundtrip S _ hal hlt
      (by simp only [ProductRevPtr, ProductNamePtr, VendorNamePtr, ModeListPtr, OemNamePtr,
        sizeof_VBE_INFO_BASE]; omega)
      (by simp only [ProductRevPtr, ProductNamePtr, VendorNamePtr, ModeListPtr, OemNamePtr,
        sizeof_VBE_INFO_BASE]; omega)).2.2

/-- C1 (witness): the shadow-window base C0000h; the product revision pointer
decodes to the address of the product revision string. -/
theorem ShimVesaInformation_farPointer_roundtrip_witness :
    (ShimVesaInformation pcConstants (EnsureDisplayAvailable none) wideDisplay zeroMem
      0xC0000 false).Status = EFI_SUCCESS ∧
    0xC0000 % 65536 = 0 ∧ 0xC0000 < 2 ^ 20 ∧ pcConstants.StringsFit ∧
    farSegment (read32 (ShimVesaInformation pcConstants (EnsureDisplayAvailable none)
        wideDisplay zeroMem 0xC0000 false).mem
        (0xC0000 + VBE_INFO_BASE.ProductRevAddress.offset)) * 16 +
      farOffset (read32 (ShimVesaInformation pcConstants (EnsureDisplayAvailable none)
        wideDisplay zeroMem 0xC0000 false).mem
        (0xC0000 + VBE_INFO_BASE.ProductRevAddress.offset)) = ProductRevPtr pcConstants 0xC0000 :=
  ⟨by decide, by decide, by decide, by decide,
   (ShimVesaInformation_farPointer_roundtrip pcConstants (EnsureDisplayAvailable none)
      wideDisplay zeroMem 0xC0000 false (by decide) (by decide) (by decide)
      (by decide)).2.2.2.2.1⟩

/-- C9: whenever `ShimVesaInformation` succeeds, the address returned through
`EndAddress` is `StartAddress + 512`, the address following the 256-byte
general-info record and the 256-byte mode-info record; when the mode list and
strings fit the scratch buffer, memory outside `[StartAddress, EndAddress)` is
left as it was. -/
theorem ShimVesaInformation_EndAddress (k : Constants)
    (ensure : DISPLAY_INFO → EFI_STATUS × DISPLAY_INFO)
    (d : DISPLAY_INFO) (mem : Mem) (S : Nat) (isNull : Bool)
    (hok : (ShimVesaInformation k ensure d mem S isNull).Status = EFI_SUCCESS) :
    (ShimVesaInformation k ensure d mem S isNull).EndAddress =
      some (S + sizeof_VBE_INFO + sizeof_VBE_MODE_INFO) ∧
    S + sizeof_VBE_INFO + sizeof_VBE_MODE_INFO = S + 512 ∧
    (k.StringsFit → ∀ x, x < S ∨ S + 512 ≤ x →
      (ShimVesaInformation k ensure d mem S isNull).mem x = mem x) := by
  obtain ⟨-, -, -, m', hm, hmem, hend, -⟩ :=
    ShimVesaInformation_success k ensure d mem S isNull hok
  refine ⟨hend, rfl, ?_⟩
  intro hfit x hx
  rw [hmem, writeVbeModeInfoOther_apply_ne _ _ _ (by omega),
    writeMaskPositions_apply_ne _ _ _ _ _ hm (by omega),
    writeVbeModeInfo_apply_ne _ _ _ _ (by omega),
    writeVbeInfo_apply_ne k _ _ _ _ hfit (by omega)]

/-- C9 (witness): the end address for the base C0000h is C0200h. -/
theorem ShimVesaInformation_EndAddress_witness :
    (ShimVesaInformation pcConstants (EnsureDisplayAvailable none) wideDisplay zeroMem
      0xC0000 false).Status = EFI_SUCCESS ∧
    (ShimVesaInformation pcConstants (EnsureDisplayAvailable none) wideDisplay zeroMem
      0xC0000 false).EndAddress = some 0xC0200 :=
  ⟨by decide,
   (ShimVesaInformation_EndAddress pcConstants (EnsureDisplayAvailable none) wideDisplay
      zeroMem 0xC0000 false (by decide)).1⟩

/-! ### Idempotence -/

theorem Oblivious.idem (f : Mem → Mem) (hf : Oblivious f) (m : Mem) : f (f m) = f m := by
  obtain ⟨g, hg⟩ := hf
  funext x
  rw [hg (f m) x, hg m x]
  cases g x <;> rfl

theorem Oblivious.id : Oblivious (fun m => m) := ⟨fun _ => none, fun _ _ => rfl⟩

theorem Oblivious.write8 (f : Mem → Mem) (a v : Nat) (hf : Oblivious f) :
    Oblivious (fun m => write8 (f m) a v) := by
  obtain ⟨g, hg⟩ := hf
  refine ⟨fun x => if x = a then some (toByte v) else g x, fun m x => ?_⟩
  by_cases hx : x = a
  · simp [UefiSeven.write8, hx]
  · simp [UefiSeven.write8, hx, hg]

theorem Oblivious.write16 (f : Mem → Mem) (a v : Nat) (hf : Oblivious f) :
    Oblivious (fun m => write16 (f m) a v) := by
  unfold UefiSeven.write16
  exact Oblivious.write8 _ _ _ (Oblivious.write8 _ _ _ hf)

theorem Oblivious.write32 (f : Mem → Mem) (a v : Nat) (hf : Oblivious f) :
    Oblivious (fun m => write32 (f m) a v) := by
  unfold UefiSeven.write32
  exact Oblivious.write16 _ _ _ (Oblivious.write16 _ _ _ hf)

theorem Oblivious.CopyMem (src : List Nat) (f : Mem → Mem) (dst : Nat) (hf : Oblivious f) :
    Oblivious (fun m => CopyMem (f m) dst src) := by
  induction src generalizing f dst with
  | nil => exact hf
  | cons b bs ih =>
    simp only [UefiSeven.CopyMem]
    exact ih _ _ (Oblivious.write8 _ _ _ hf)

theorem writeVbeInfo_oblivious (k : Constants) (d : DISPLAY_INFO) (S : Nat) (f : Mem → Mem)
    (hf : Oblivious f) : Oblivious (fun m => writeVbeInfo k d (f m) S) := by
  unfold writeVbeInfo
  simp only []
  repeat first
    | exact hf
    | apply Oblivious.write16
    | apply Oblivious.write32
    | apply Oblivious.CopyMem

theorem writeVbeModeInfo_oblivious (d : DISPLAY_INFO) (V : Nat) (f : Mem → Mem)
    (hf : Oblivious f) : Oblivious (fun m => writeVbeModeInfo d (f m) V) := by
  unfold writeVbeModeInfo
  simp only []
  repeat first
    | exact hf
    | apply Oblivious.write8
    | apply Oblivious.write16
    | apply Oblivious.write32

theorem writeVbeModeInfoOther_oblivious (V : Nat) (f : Mem → Mem)
    (hf : Oblivious f) : Oblivious (fun m => writeVbeModeInfoOther (f m) V) := by
  unfold writeVbeModeInfoOther
  simp only []
  repeat first
    | exact hf
    | apply Oblivious.write8
    | apply Oblivious.write16
    | apply Oblivious.write32

/-- The memory effect of a call is a fixed set of byte stores. -/
theorem ShimVesaInformation_oblivious (k : Constants)
    (ensure : DISPLAY_INFO → EFI_STATUS × DISPLAY_INFO)
    (d : DISPLAY_INFO) (S : Nat) (isNull : Bool) :
    Oblivious (fun m => (ShimVesaInformation k ensure d m S isNull).mem) := by
  by_cases h1 : S = 0 ∨ isNull = true
  · unfold ShimVesaInformation
    simp only [h1, if_true]
    exact Oblivious.id
  · have hS : S ≠ 0 := fun e => h1 (Or.inl e)
    have hN : isNull = false := by
      cases isNull
      · rfl
      · exact absurd (Or.inr rfl) h1
    by_cases h2 : EFI_ERROR (ensure d).1 = true
    · unfold ShimVesaInformation
      simp only [h1, h2, if_true, if_false]
      exact Oblivious.id
    · have hE : EFI_ERROR (ensure d).1 = false := by simpa using h2
      simp only [ShimVesaInformation_run k ensure d _ S isNull hS hN hE]
      unfold writeMaskPositions
      by_cases hb : (ensure d).2.PixelFormat = .PixelBlueGreenRedReserved8BitPerColor
      · simp only [if_pos hb]
        apply writeVbeModeInfoOther_oblivious
        apply Oblivious.write8
        apply Oblivious.write8
        apply Oblivious.write8
        apply Oblivious.write8
        apply writeVbeModeInfo_oblivious
        apply writeVbeInfo_oblivious
        exact Oblivious.id
      · by_cases hr : (ensure d).2.PixelFormat = .PixelRedGreenBlueReserved8BitPerColor
        · simp only [if_neg hb, if_pos hr]
          apply writeVbeModeInfoOther_oblivious
          apply Oblivious.write8
          apply Oblivious.write8
          apply Oblivious.write8
          apply Oblivious.write8
          apply writeVbeModeInfo_oblivious
          apply writeVbeInfo_oblivious
          exact Oblivious.id
        · simp only [if_neg hb, if_neg hr]
          apply writeVbeModeInfo_oblivious
          apply writeVbeInfo_oblivious
          exact Oblivious.id

/-- Status, end address and display state of a call do not depend on the
memory contents. -/
theorem ShimVesaInformation_mem_irrelevant (k : Constants)
    (ensure : DISPLAY_INFO → EFI_STATUS × DISPLAY_INFO)
    (d : DISPLAY_INFO) (m1 m2 : Mem) (S : Nat) (isNull : Bool) :
    (ShimVesaInformation k ensure d m1 S isNull).Status =
      (ShimVesaInformation k ensure d m2 S isNull).Status ∧
    (ShimVesaInformation k ensure d m1 S isNull).EndAddress =
      (ShimVesaInformation k ensure d m2 S isNull).EndAddress ∧
    (ShimVesaInformation k ensure d m1 S isNull).DisplayInfo =
      (ShimVesaInformation k ensure d m2 S isNull).DisplayInfo := by
  by_cases h1 : S = 0 ∨ isNull = true
  · unfold ShimVesaInformation
    simp only [h1, if_true, and_self]
  · have hS : S ≠ 0 := fun e => h1 (Or.inl e)
    have hN : isNull = false := by
      cases isNull
      · rfl
      · exact absurd (Or.inr rfl) h1
    by_cases h2 : EFI_ERROR (ensure d).1 = true
    · unfold ShimVesaInformation
      simp only [h1, h2, if_true, if_false, and_self]
    · have hE : EFI_ERROR (ensure d).1 = false := by simpa using h2
      rw [ShimVesaInformation_run k ensure d m1 S isNull hS hN hE,
        ShimVesaInformation_run k ensure d m2 S isNull hS hN hE]
      unfold writeMaskPositions
      by_cases hb : (ensure d).2.PixelFormat = .PixelBlueGreenRedReserved8BitPerColor
      · simp only [if_pos hb, and_self]
      · by_cases hr : (ensure d).2.PixelFormat = .PixelRedGreenBlueReserved8BitPerColor
        · simp only [if_neg hb, if_pos hr, and_self]
        · simp only [if_neg hb, if_neg hr, and_self]

/-- With a display probe that is stable on re-invocation, a call started from
the display state an earlier call left behaves as that earlier call did. -/
theorem ShimVesaInformation_display_stable (k : Constants)
    (ensure : DISPLAY_INFO → EFI_STATUS × DISPLAY_INFO)
    (hstable : ∀ d0, ensure (ensure d0).2 = ensure d0)
    (d : DISPLAY_INFO) (m0 m : Mem) (S : Nat) (isNull : Bool) :
    ShimVesaInformation k ensure (ShimVesaInformation k ensure d m0 S isNull).DisplayInfo
      m S isNull = ShimVesaInformation k ensure d m S isNull := by
  have hd : (ShimVesaInformation k ensure d m0 S isNull).DisplayInfo =
      if S = 0 ∨ isNull = true then d else (ensure d).2 := by
    unfold ShimVesaInformation
    by_cases h1 : S = 0 ∨ isNull = true
    · simp only [h1, if_true]
    · by_cases h2 : EFI_ERROR (ensure d).1 = true
      · simp only [h1, h2, if_true, if_false]
      · simp only [h1, h2, if_false]
        cases writeMaskPositions (ensure d).2
          (writeVbeModeInfo (ensure d).2 (writeVbeInfo k (ensure d).2 m0 S)
            (S + sizeof_VBE_INFO)) (S + sizeof_VBE_INFO) <;> rfl
  rw [hd]
  by_cases h1 : S = 0 ∨ isNull = true
  · rw [if_pos h1]
  · rw [if_neg h1]
    unfold ShimVesaInformation
    simp only [h1, if_false, hstable d]

/-- The display probe modelled from the specification is stable on
re-invocation. -/
theorem EnsureDisplayAvailable_stable (acquire : Option DISPLAY_INFO) (d0 : DISPLAY_INFO) :
    EnsureDisplayAvailable acquire (EnsureDisplayAvailable acquire d0).2 =
      EnsureDisplayAvailable acquire d0 := by
  unfold EnsureDisplayAvailable
  by_cases hi : d0.Initialized = true
  · simp [hi]
  · cases acquire with
    | none => simp [hi]
    | some found => simp [hi]

/-- C10: `ShimVesaInformation` is idempotent. With a display probe that is
stable on re-invocation, running it a second time on the memory and display
state the first run left, with the same `StartAddress`, leaves memory
byte-identical to running it once and returns the same status and the same
`EndAddress`. -/
theorem ShimVesaInformation_idempotent (k : Constants)
    (ensure : DISPLAY_INFO → EFI_STATUS × DISPLAY_INFO)
    (hstable : ∀ d0, ensure (ensure d0).2 = ensure d0)
    (d : DISPLAY_INFO) (mem : Mem) (S : Nat) (isNull : Bool) :
    (ShimVesaInformation k ensure (ShimVesaInformation k ensure d mem S isNull).DisplayInfo
      (ShimVesaInformation k ensure d mem S isNull).mem S isNull).mem =
      (ShimVesaInformation k ensure d mem S isNull).mem ∧
    (ShimVesaInformation k ensure (ShimVesaInformation k ensure d mem S isNull).DisplayInfo
      (ShimVesaInformation k ensure d mem S isNull).mem S isNull).Status =
      (ShimVesaInformation k ensure d mem S isNull).Status ∧
    (ShimVesaInformation k ensure (ShimVesaInformation k ensure d mem S isNull).DisplayInfo
      (ShimVesaInformation k ensure d mem S isNull).mem S isNull).EndAddress =
      (ShimVesaInformation k ensure d mem S isNull).EndAddress ∧
    (ShimVesaInformation k ensure (ShimVesaInformation k ensure d mem S isNull).DisplayInfo
      (ShimVesaInformation k ensure d mem S isNull).mem S isNull).DisplayInfo =
      (ShimVesaInformation k ensure d mem S isNull).DisplayInfo := by
  rw [ShimVesaInformation_display_stable k ensure hstable d mem _ S isNull]
  obtain ⟨hs, he, hd⟩ := ShimVesaInformation_mem_irrelevant k ensure d
    (ShimVesaInformation k ensure d mem S isNull).mem mem S isNull
  exact ⟨Oblivious.idem _ (ShimVesaInformation_oblivious k ensure d S isNull) mem, hs, he, hd⟩

/-- C10 (witness): two runs at C0000h starting from a display state that the
first run initializes. -/
theorem ShimVesaInformation_idempotent_witness :
    (ShimVesaInformation pcConstants (EnsureDisplayAvailable (some wideDisplay))
      (ShimVesaInformation pcConstants (EnsureDisplayAvailable (some wideDisplay)) freshDisplay
        zeroMem 0xC0000 false).DisplayInfo
      (ShimVesaInformation pcConstants (EnsureDisplayAvailable (some wideDisplay)) freshDisplay
        zeroMem 0xC0000 false).mem 0xC0000 false).mem =
      (ShimVesaInformation pcConstants (EnsureDisplayAvailable (some wideDisplay)) freshDisplay
        zeroMem 0xC0000 false).mem ∧
    (ShimVesaInformation pcConstants (EnsureDisplayAvailable (some wideDisplay)) freshDisplay
        zeroMem 0xC0000 false).Status = EFI_SUCCESS :=
  ⟨(ShimVesaInformation_idempotent pcConstants (EnsureDisplayAvailable (some wideDisplay))
      (EnsureDisplayAvailable_stable (some wideDisplay)) freshDisplay zeroMem 0xC0000 false).1,
   by decide⟩

/-! ### Mode list -/

theorem readBytes_four (m : Mem) (a b0 b1 b2 b3 : Nat)
    (h : readBytes m a 4 = [b0, b1, b2, b3]) :
    read16 m a = b0 + 256 * b1 ∧ read16 m (a + 2) = b2 + 256 * b3 := by
  have e2 : a + 1 + 1 = a + 2 := by omega
  simp only [readBytes, e2, List.cons.injEq, and_true] at h
  obtain ⟨h0, h1, h2, h3⟩ := h
  exact ⟨by simp only [read16, h0, h1], by simp only [read16, h2, h3]⟩

/-- C11 (counterexample): at the 16-byte-aligned base C0010h the call succeeds
and the mode list is written at C0035h, but `ModeListAddress` holds C001:0035,
which decodes to C0045h, where memory holds 0000h and not the mode number. -/
theorem ShimVesaInformation_misaligned_mode_list :
    (ShimVesaInformation pcConstants (EnsureDisplayAvailable none) wideDisplay zeroMem
      0xC0010 false).Status = EFI_SUCCESS ∧
    farSegment (read32 (ShimVesaInformation pcConstants (EnsureDisplayAvailable none)
      wideDisplay zeroMem 0xC0010 false).mem
      (0xC0010 + VBE_INFO_BASE.ModeListAddress.offset)) * 16 +
    farOffset (read32 (ShimVesaInformation pcConstants (EnsureDisplayAvailable none)
      wideDisplay zeroMem 0xC0010 false).mem
      (0xC0010 + VBE_INFO_BASE.ModeListAddress.offset)) = 0xC0045 ∧
    read16 (ShimVesaInformation pcConstants (EnsureDisplayAvailable none) wideDisplay zeroMem
      0xC0010 false).mem 0xC0045 = 0x0000 ∧
    read16 (ShimVesaInformation pcConstants (EnsureDisplayAvailable none) wideDisplay zeroMem
      0xC0010 false).mem 0xC0045 ≠ 0x00F1 ∧
    ModeListPtr pcConstants 0xC0010 = 0xC0035 := by
  decide

/-- C11 (amended): after a successful `ShimVesaInformation` at a `StartAddress`
that is a multiple of 65536 below 1 MiB, with the mode list and strings fitting
the scratch buffer, the memory at the location recorded in `ModeListAddress`
holds the mode number 00F1h immediately followed by the terminator FFFFh; that
location is where the list was stored, and each of the three strings copied
afterwards starts at or after the end of these four bytes. -/
theorem ShimVesaInformation_mode_list (k : Constants)
    (ensure : DISPLAY_INFO → EFI_STATUS × DISPLAY_INFO)
    (d : DISPLAY_INFO) (mem : Mem) (S : Nat) (isNull : Bool)
    (hok : (ShimVesaInformation k ensure d mem S isNull).Status = EFI_SUCCESS)
    (hal : S % 65536 = 0) (hlt : S < 2 ^ 20) (hfit : k.StringsFit) :
    read16 (ShimVesaInformation k ensure d mem S isNull).mem
      (farSegment (read32 (ShimVesaInformation k ensure d mem S isNull).mem
          (S + VBE_INFO_BASE.ModeListAddress.offset)) * 16 +
        farOffset (read32 (ShimVesaInformation k ensure d mem S isNull).mem
          (S + VBE_INFO_BASE.ModeListAddress.offset))) = 0x00F1 ∧
    read16 (ShimVesaInformation k ensure d mem S isNull).mem
      (farSegment (read32 (ShimVesaInformation k ensure d mem S isNull).mem
          (S + VBE_INFO_BASE.ModeListAddress.offset)) * 16 +
        farOffset (read32 (ShimVesaInformation k ensure d mem S isNull).mem
          (S + VBE_INFO_BASE.ModeListAddress.offset)) + 2) = 0xFFFF ∧
    farSegment (read32 (ShimVesaInformation k ensure d mem S isNull).mem
        (S + VBE_INFO_BASE.ModeListAddress.offset)) * 16 +
      farOffset (read32 (ShimVesaInformation k ensure d mem S isNull).mem
        (S + VBE_INFO_BASE.ModeListAddress.offset)) = ModeListPtr k S ∧
    ModeListPtr k S + 4 ≤ VendorNamePtr k S ∧
    ModeListPtr k S + 4 ≤ ProductNamePtr k S ∧
    ModeListPtr k S + 4 ≤ ProductRevPtr k S := by
  obtain ⟨hS, hN, hE, -⟩ := ShimVesaInformation_success k ensure d mem S isNull hok
  obtain ⟨-, p2, -, -, -⟩ := ShimVesaInformation_farPointers k ensure d mem S isNull hS hN hE
  obtain ⟨-, c2, -, -, -⟩ := ShimVesaInformation_strings k ensure d mem S isNull hS hN hE hfit
  have hfit2 := hfit
  unfold Constants.StringsFit at hfit2
  simp only [sizeof_VBE_INFO_BASE, sizeof_VBE_INFO] at hfit2
  have hloc := (farPointer_roundtrip S (ModeListPtr k S) hal hlt
      (by simp only [ModeListPtr, OemNamePtr, sizeof_VBE_INFO_BASE]; omega)
      (by simp only [ModeListPtr, OemNamePtr, sizeof_VBE_INFO_BASE]; omega)).2.2
  rw [p2, hloc]
  obtain ⟨w0, w1⟩ := readBytes_four _ _ _ _ _ _ c2
  refine ⟨w0, w1, rfl, ?_, ?_, ?_⟩ <;>
    simp only [ProductRevPtr, ProductNamePtr, VendorNamePtr, ModeListPtr, OemNamePtr] <;> omega

/-- C11 (witness): the mode list at the shadow-window base C0000h. -/
theorem ShimVesaInformation_mode_list_witness :
    (ShimVesaInformation pcConstants (EnsureDisplayAvailable none) wideDisplay zeroMem
      0xC0000 false).Status = EFI_SUCCESS ∧
    read16 (ShimVesaInformation pcConstants (EnsureDisplayAvailable none) wideDisplay zeroMem
      0xC0000 false).mem
      (farSegment (read32 (ShimVesaInformation pcConstants (EnsureDisplayAvailable none)
          wideDisplay zeroMem 0xC0000 false).mem
          (0xC0000 + VBE_INFO_BASE.ModeListAddress.offset)) * 16 +
        farOffset (read32 (ShimVesaInformation pcConstants (EnsureDisplayAvailable none)
          wideDisplay zeroMem 0xC0000 false).mem
          (0xC0000 + VBE_INFO_BASE.ModeListAddress.offset))) = 0x00F1 :=
  ⟨by decide,
   (ShimVesaInformation_mode_list pcConstants (EnsureDisplayAvailable none) wideDisplay
      zeroMem 0xC0000 false (by decide) (by decide) (by decide) (by decide)).1⟩

/-! ### Short circuit and probe -/

/-- C12: for every valid call of `EnsureMemoryLock` whose initial probe, the
call `CanWriteAtAddress (StartAddress)`, returns what the requested end state
asks for (TRUE for UNLOCK, FALSE for LOCK), under either reading of the
probe's read-back, the call returns `EFI_SUCCESS`; its trace is the single
initial probe, so neither legacy-region protocol is located or invoked and the
MTRR routines are not called; the hardware state, and with it the probed byte,
is as before. -/
theorem EnsureMemoryLock_short_circuit (rb : ReadBack) (k : Constants)
    (fw : Firmware) (hw : Hw) (S L : Nat)
    (op : MEMORY_LOCK_OPERATION) (hS : S ≠ 0) (hL : L ≠ 0) (hop : op = .LOCK ∨ op = .UNLOCK)
    (hst : (CanWriteAtAddress rb hw S).1 = decide (op = .UNLOCK)) :
    (EnsureMemoryLock rb k fw hw S L op).Status = EFI_SUCCESS ∧
    (EnsureMemoryLock rb k fw hw S L op).trace = [Call.probe (decide (op = .UNLOCK))] ∧
    (∀ c ∈ (EnsureMemoryLock rb k fw hw S L op).trace,
      c ≠ Call.locateLegacyRegion ∧ c ≠ Call.locateLegacyRegion2 ∧ c ≠ Call.isMtrrSupported ∧
      c.isMechanism = false) ∧
    (EnsureMemoryLock rb k fw hw S L op).hw = hw ∧
    read8 (EnsureMemoryLock rb k fw hw S L op).hw.mem S = read8 hw.mem S := by
  have hrun : EnsureMemoryLock rb k fw hw S L op =
      { Status := EFI_SUCCESS, hw := hw, trace := [Call.probe (decide (op = .UNLOCK))] } := by
    rw [EnsureMemoryLock_valid rb k fw hw S L op hS hL hop]
    rcases hop with rfl | rfl
    · simp only [checkAlready, tryLegacyRegion, tryLegacyRegion2, tryMtrr,
        LockState.probe_fst, LockState.probe_snd] at *
      simp at hst
      simp [hst, EFI_ERROR_SUCCESS]
    · simp only [checkAlready, tryLegacyRegion, tryLegacyRegion2, tryMtrr,
        LockState.probe_fst, LockState.probe_snd] at *
      simp at hst
      simp [hst, EFI_ERROR_SUCCESS]
  rw [hrun]
  refine ⟨rfl, rfl, ?_, rfl, rfl⟩
  intro c hc
  simp only [List.mem_singleton] at hc
  subst hc
  exact ⟨by simp, by simp, by simp, rfl⟩

/-- C12 (witness): locking a window whose initial probe reports that stores
are ignored, with the read-back loaded from the hardware; and unlocking a
window whose initial probe reports writable memory, with the read-back taken
from the value just stored. -/
theorem EnsureMemoryLock_short_circuit_witness :
    ((CanWriteAtAddress .load lockedHw 0xC0000).1 = decide (MEMORY_LOCK_OPERATION.LOCK = .UNLOCK) ∧
      (EnsureMemoryLock .load pcConstants regionFirmware lockedHw 0xC0000 0x10000 .LOCK).Status
        = EFI_SUCCESS ∧
      (EnsureMemoryLock .load pcConstants regionFirmware lockedHw 0xC0000 0x10000 .LOCK).trace
        = [Call.probe false]) ∧
    ((CanWriteAtAddress .forward openHw 0xC0000).1 =
        decide (MEMORY_LOCK_OPERATION.UNLOCK = .UNLOCK) ∧
      (EnsureMemoryLock .forward pcConstants regionFirmware openHw 0xC0000 0x10000 .UNLOCK).Status
        = EFI_SUCCESS ∧
      (EnsureMemoryLock .forward pcConstants regionFirmware openHw 0xC0000 0x10000 .UNLOCK).trace
        = [Call.probe true]) :=
  have h := EnsureMemoryLock_short_circuit .load pcConstants regionFirmware lockedHw 0xC0000
    0x10000 .LOCK (by decide) (by decide) (Or.inl rfl) (by decide)
  have g := EnsureMemoryLock_short_circuit .forward pcConstants regionFirmware openHw 0xC0000
    0x10000 .UNLOCK (by decide) (by decide) (Or.inr rfl) (by decide)
  ⟨⟨by decide, h.1, h.2.1⟩, ⟨by decide, g.1, g.2.1⟩⟩

/-- C16 (defect): at C0000h in memory that ignores every store, and holds 00h
there, the probe returns TRUE when its read-back is the value just stored,
which the plain `UINT8 *` of the source allows; the doc comment of
`CanWriteAtAddress` and the claim say FALSE for a location where writes have
no effect. With a read-back loaded from the hardware the same call returns
FALSE. Under both the byte at the address is afterwards as it was before. -/
theorem CanWriteAtAddress_forward_ignored :
    lockedHw.writable 0xC0000 = false ∧
    lockedHw.store 0xC0000 (read8 lockedHw.mem 0xC0000 + 1) = lockedHw ∧
    (CanWriteAtAddress .forward lockedHw 0xC0000).1 = true ∧
    (CanWriteAtAddress .load lockedHw 0xC0000).1 = false ∧
    read8 (CanWriteAtAddress .forward lockedHw 0xC0000).2.mem 0xC0000
      = read8 lockedHw.mem 0xC0000 ∧
    read8 (CanWriteAtAddress .load lockedHw 0xC0000).2.mem 0xC0000
      = read8 lockedHw.mem 0xC0000 := by
  refine ⟨rfl, rfl, by decide, by decide, by decide, by decide⟩

/-! ### Vector inspector, positive form -/

/-- C14: `IsInt10hHandlerDefined` returns TRUE exactly when the INT 10h entry
(entry 10h of the table at `IVT_ADDRESS`) decodes, as `Segment*16 + Offset`, to
an address inside `[VGA_ROM_ADDRESS, VGA_ROM_ADDRESS + VGA_ROM_SIZE)` and the
byte there is neither FFh nor 00h, and FALSE otherwise. It is a pure
inspection: its result is a function of the four bytes of the entry and of the
byte at the decoded address, and it produces no new memory state. -/
theorem IsInt10hHandlerDefined_true_iff (k : Constants) (m : Mem) :
    (IsInt10hHandlerDefined k m = true ↔
      ((k.VGA_ROM_ADDRESS ≤ IVT_ENTRY.Segment m (k.IVT_ADDRESS + 0x10 * 4) * 16 +
            IVT_ENTRY.Offset m (k.IVT_ADDRESS + 0x10 * 4) ∧
        IVT_ENTRY.Segment m (k.IVT_ADDRESS + 0x10 * 4) * 16 +
            IVT_ENTRY.Offset m (k.IVT_ADDRESS + 0x10 * 4) <
          k.VGA_ROM_ADDRESS + k.VGA_ROM_SIZE) ∧
       read8 m (IVT_ENTRY.Segment m (k.IVT_ADDRESS + 0x10 * 4) * 16 +
            IVT_ENTRY.Offset m (k.IVT_ADDRESS + 0x10 * 4)) ≠ 0xFF ∧
       read8 m (IVT_ENTRY.Segment m (k.IVT_ADDRESS + 0x10 * 4) * 16 +
            IVT_ENTRY.Offset m (k.IVT_ADDRESS + 0x10 * 4)) ≠ 0x00)) ∧
    (IsInt10hHandlerDefined k m = false ↔
      ¬ ((k.VGA_ROM_ADDRESS ≤ IVT_ENTRY.Segment m (k.IVT_ADDRESS + 0x10 * 4) * 16 +
            IVT_ENTRY.Offset m (k.IVT_ADDRESS + 0x10 * 4) ∧
        IVT_ENTRY.Segment m (k.IVT_ADDRESS + 0x10 * 4) * 16 +
            IVT_ENTRY.Offset m (k.IVT_ADDRESS + 0x10 * 4) <
          k.VGA_ROM_ADDRESS + k.VGA_ROM_SIZE) ∧
       read8 m (IVT_ENTRY.Segment m (k.IVT_ADDRESS + 0x10 * 4) * 16 +
            IVT_ENTRY.Offset m (k.IVT_ADDRESS + 0x10 * 4)) ≠ 0xFF ∧
       read8 m (IVT_ENTRY.Segment m (k.IVT_ADDRESS + 0x10 * 4) * 16 +
            IVT_ENTRY.Offset m (k.IVT_ADDRESS + 0x10 * 4)) ≠ 0x00)) ∧
    (∀ m2 : Mem,
      (∀ x, k.IVT_ADDRESS + 0x10 * 4 ≤ x → x < k.IVT_ADDRESS + 0x10 * 4 + 4 → m2 x = m x) →
      m2 (Int10hHandler k m) = m (Int10hHandler k m) →
      IsInt10hHandlerDefined k m2 = IsInt10hHandlerDefined k m) := by
  have hh : ∀ mm : Mem, Int10hHandler k mm =
      IVT_ENTRY.Segment mm (k.IVT_ADDRESS + 0x10 * 4) * 16 +
        IVT_ENTRY.Offset mm (k.IVT_ADDRESS + 0x10 * 4) := by
    intro mm
    simp [Int10hHandler, Int10hEntry, sizeof_IVT_ENTRY, Nat.shiftLeft_eq]
  have htrue : IsInt10hHandlerDefined k m = true ↔
      ((k.VGA_ROM_ADDRESS ≤ Int10hHandler k m ∧
        Int10hHandler k m < k.VGA_ROM_ADDRESS + k.VGA_ROM_SIZE) ∧
       read8 m (Int10hHandler k m) ≠ 0xFF ∧ read8 m (Int10hHandler k m) ≠ 0x00) := by
    unfold IsInt10hHandlerDefined
    simp only [PROTECTIVE_OPCODE_1, PROTECTIVE_OPCODE_2]
    by_cases hw : k.VGA_ROM_ADDRESS ≤ Int10hHandler k m ∧
        Int10hHandler k m < k.VGA_ROM_ADDRESS + k.VGA_ROM_SIZE
    · by_cases ho : read8 m (Int10hHandler k m) = 0xFF ∨ read8 m (Int10hHandler k m) = 0x00
      · rcases ho with ho | ho <;> simp [hw, ho]
      · have h1 : read8 m (Int10hHandler k m) ≠ 0xFF := fun e => ho (Or.inl e)
        have h2 : read8 m (Int10hHandler k m) ≠ 0x00 := fun e => ho (Or.inr e)
        simp [hw, h1, h2]
    · simp [hw]
  refine ⟨?_, ?_, ?_⟩
  · rw [← hh m]
    exact htrue
  · rw [← hh m, ← htrue]
    cases IsInt10hHandlerDefined k m <;> simp
  · intro m2 hslot hbyte
    have hseg : IVT_ENTRY.Segment m2 (k.IVT_ADDRESS + 0x10 * 4) =
        IVT_ENTRY.Segment m (k.IVT_ADDRESS + 0x10 * 4) := by
      unfold IVT_ENTRY.Segment
      exact read16_congr _ _ _ (hslot _ (by omega) (by omega)) (hslot _ (by omega) (by omega))
    have hoff : IVT_ENTRY.Offset m2 (k.IVT_ADDRESS + 0x10 * 4) =
        IVT_ENTRY.Offset m (k.IVT_ADDRESS + 0x10 * 4) := by
      unfold IVT_ENTRY.Offset
      exact read16_congr _ _ _ (hslot _ (by omega) (by omega)) (hslot _ (by omega) (by omega))
    have hsame : Int10hHandler k m2 = Int10hHandler k m := by
      rw [hh m2, hh m, hseg, hoff]
    unfold IsInt10hHandlerDefined
    simp only [hsame, read8, hbyte]

/-! ### Far pointers relative to the shadow-window base -/

/-- C18: for every `StartAddress` that is a multiple of 65536 below 1 MiB, with
the mode list and strings fitting the scratch buffer, every far pointer written
by a successful `ShimVesaInformation` has segment `StartAddress / 16` and
offset `target - StartAddress`, hence `segment*16 + offset` is the target. -/
theorem ShimVesaInformation_farPointer_parts (k : Constants)
    (ensure : DISPLAY_INFO → EFI_STATUS × DISPLAY_INFO)
    (d : DISPLAY_INFO) (mem : Mem) (S : Nat) (isNull : Bool)
    (hok : (ShimVesaInformation k ensure d mem S isNull).Status = EFI_SUCCESS)
    (hal : S % 65536 = 0) (hlt : S < 2 ^ 20) (hfit : k.StringsFit) :
    ∀ f target, (f, target) ∈
        [(VBE_INFO_BASE.OemNameAddress, OemNamePtr S),
         (VBE_INFO_BASE.ModeListAddress, ModeListPtr k S),
         (VBE_INFO_BASE.VendorNameAddress, VendorNamePtr k S),
         (VBE_INFO_BASE.ProductNameAddress, ProductNamePtr k S),
         (VBE_INFO_BASE.ProductRevAddress, ProductRevPtr k S)] →
      farSegment (read32 (ShimVesaInformation k ensure d mem S isNull).mem (S + f.offset))
        = S / 16 ∧
      farOffset (read32 (ShimVesaInformation k ensure d mem S isNull).mem (S + f.offset))
        = target - S ∧
      farSegment (read32 (ShimVesaInformation k ensure d mem S isNull).mem (S + f.offset)) * 16 +
        farOffset (read32 (ShimVesaInformation k ensure d mem S isNull).mem (S + f.offset))
        = target := by
  obtain ⟨hS, hN, hE, -⟩ := ShimVesaInformation_success k ensure d mem S isNull hok
  obtain ⟨p1, p2, p3, p4, p5⟩ := ShimVesaInformation_farPointers k ensure d mem S isNull hS hN hE
  have hfit2 := hfit
  unfold Constants.StringsFit at hfit2
  simp only [sizeof_VBE_INFO_BASE, sizeof_VBE_INFO] at hfit2
  intro f target hmem
  simp only [List.mem_cons, Prod.mk.injEq, List.mem_singleton, List.not_mem_nil, or_false] at hmem
  rcases hmem with ⟨rfl, rfl⟩ | ⟨rfl, rfl⟩ | ⟨rfl, rfl⟩ | ⟨rfl, rfl⟩ | ⟨rfl, rfl⟩
  · rw [p1]
    exact farPointer_roundtrip S _ hal hlt
      (by simp only [OemNamePtr, sizeof_VBE_INFO_BASE]; omega)
      (by simp only [OemNamePtr, sizeof_VBE_INFO_BASE]; omega)
  · rw [p2]
    exact farPointer_roundtrip S _ hal hlt
      (by simp only [ModeListPtr, OemNamePtr, sizeof_VBE_INFO_BASE]; omega)
      (by simp only [ModeListPtr, OemNamePtr, sizeof_VBE_INFO_BASE]; omega)
  · rw [p3]
    exact farPointer_roundtrip S _ hal hlt
      (by simp only [VendorNamePtr, ModeListPtr, OemNamePtr, sizeof_VBE_INFO_BASE]; omega)
      (by simp only [VendorNamePtr, ModeListPtr, OemNamePtr, sizeof_VBE_INFO_BASE]; omega)
  · rw [p4]
    exact farPointer_roundtrip S _ hal hlt
      (by simp only [ProductNamePtr, VendorNamePtr, ModeListPtr, OemNamePtr,
        sizeof_VBE_INFO_BASE]; omega)
      (by simp only [ProductNamePtr, VendorNamePtr, ModeListPtr, OemNamePtr,
        sizeof_VBE_INFO_BASE]; omega)
  · rw [p5]
    exact farPointer_roundtrip S _ hal hlt
      (by simp only [ProductRevPtr, ProductNamePtr, VendorNamePtr, ModeListPtr, OemNamePtr,
        sizeof_VBE_INFO_BASE]; omega)
      (by simp only [ProductRevPtr, ProductNamePtr, VendorNamePtr, ModeListPtr, OemNamePtr,
        sizeof_VBE_INFO_BASE]; omega)

/-- C18 (witness): at the base C0000h the vendor-name pointer is C000:0029. -/
theorem ShimVesaInformation_farPointer_parts_witness :
    (ShimVesaInformation pcConstants (EnsureDisplayAvailable none) wideDisplay zeroMem
      0xC0000 false).Status = EFI_SUCCESS ∧
    farSegment (read32 (ShimVesaInformation pcConstants (EnsureDisplayAvailable none)
      wideDisplay zeroMem 0xC0000 false).mem
      (0xC0000 + VBE_INFO_BASE.VendorNameAddress.offset)) = 0xC0000 / 16 ∧
    farOffset (read32 (ShimVesaInformation pcConstants (EnsureDisplayAvailable none)
      wideDisplay zeroMem 0xC0000 false).mem
      (0xC0000 + VBE_INFO_BASE.VendorNameAddress.offset))
      = VendorNamePtr pcConstants 0xC0000 - 0xC0000 :=
  have h := ShimVesaInformation_farPointer_parts pcConstants (EnsureDisplayAvailable none)
    wideDisplay zeroMem 0xC0000 false (by decide) (by decide) (by decide) (by decide)
    VBE_INFO_BASE.VendorNameAddress (VendorNamePtr pcConstants 0xC0000) (by decide)
  ⟨by decide, h.1, h.2.1⟩

/-! ### The advertised window inside the framebuffer -/

/-- C19: for a display state with `HorizontalResolution >= 1024`,
`VerticalResolution >= 768`, `PixelsPerScanLine >= HorizontalResolution` and
`FrameBufferSize >= PixelsPerScanLine * VerticalResolution * 4`, whose centred
address does not wrap in 32 bits, the advertised 1024x768 window lies inside
the framebuffer: with `off = LfbAddress - FrameBufferBase`,
`off + 767 * PixelsPerScanLine * 4 + 1024 * 4 <= FrameBufferSize`; `off` is
`top` rows plus `left` pixels with `top = (VerticalResolution - 768) / 2` and
`left = (HorizontalResolution - 1024) / 2`, and the opposite margins exceed
these by at most one. -/
theorem ShimVesaInformation_window_inside (k : Constants)
    (ensure : DISPLAY_INFO → EFI_STATUS × DISPLAY_INFO)
    (d : DISPLAY_INFO) (mem : Mem) (S : Nat) (isNull : Bool)
    (hok : (ShimVesaInformation k ensure d mem S isNull).Status = EFI_SUCCESS)
    (hT : (ensure d).2.WellTyped)
    (hH : 1024 ≤ (ensure d).2.HorizontalResolution)
    (hV : 768 ≤ (ensure d).2.VerticalResolution)
    (hP : (ensure d).2.HorizontalResolution ≤ (ensure d).2.PixelsPerScanLine)
    (hF : (ensure d).2.PixelsPerScanLine * (ensure d).2.VerticalResolution * 4 ≤
      (ensure d).2.FrameBufferSize)
    (h32 : (ensure d).2.FrameBufferBase +
      ((ensure d).2.VerticalResolution - 768) / 2 * (ensure d).2.PixelsPerScanLine * 4 +
      ((ensure d).2.HorizontalResolution - 1024) / 2 * 4 < 2 ^ 32) :
    (read32 (ShimVesaInformation k ensure d mem S isNull).mem
        (S + sizeof_VBE_INFO + VBE_MODE_INFO.LfbAddress.offset) - (ensure d).2.FrameBufferBase)
      + 767 * (ensure d).2.PixelsPerScanLine * 4 + 1024 * 4 ≤ (ensure d).2.FrameBufferSize ∧
    read32 (ShimVesaInformation k ensure d mem S isNull).mem
        (S + sizeof_VBE_INFO + VBE_MODE_INFO.LfbAddress.offset) - (ensure d).2.FrameBufferBase =
      ((ensure d).2.VerticalResolution - 768) / 2 * (ensure d).2.PixelsPerScanLine * 4 +
        ((ensure d).2.HorizontalResolution - 1024) / 2 * 4 ∧
    ((ensure d).2.HorizontalResolution - 1024) / 2 ≤
      (ensure d).2.HorizontalResolution - 1024 - ((ensure d).2.HorizontalResolution - 1024) / 2 ∧
    (ensure d).2.HorizontalResolution - 1024 - ((ensure d).2.HorizontalResolution - 1024) / 2 ≤
      ((ensure d).2.HorizontalResolution - 1024) / 2 + 1 ∧
    ((ensure d).2.VerticalResolution - 768) / 2 ≤
      (ensure d).2.VerticalResolution - 768 - ((ensure d).2.VerticalResolution - 768) / 2 ∧
    (ensure d).2.VerticalResolution - 768 - ((ensure d).2.VerticalResolution - 768) / 2 ≤
      ((ensure d).2.VerticalResolution - 768) / 2 + 1 := by
  have hval := ShimVesaInformation_LfbAddress_eq k ensure d mem S isNull hok
  rw [FrameBufferBaseWithOffset_centered _ hT hH hV h32] at hval
  rw [hval]
  have hrows : ((ensure d).2.VerticalResolution - 768) / 2 * (ensure d).2.PixelsPerScanLine +
      768 * (ensure d).2.PixelsPerScanLine ≤
      (ensure d).2.PixelsPerScanLine * (ensure d).2.VerticalResolution := by
    rw [← Nat.add_mul, Nat.mul_comm (ensure d).2.PixelsPerScanLine]
    exact Nat.mul_le_mul_right _ (by omega)
  generalize ((ensure d).2.VerticalResolution - 768) / 2 * (ensure d).2.PixelsPerScanLine = x
    at hrows h32 ⊢
  generalize (ensure d).2.PixelsPerScanLine * (ensure d).2.VerticalResolution = y at hrows hF
  refine ⟨by omega, by omega, by omega, by omega, by omega, by omega⟩

/-- C19 (witness): the 1280x800 display with a 4 MiB framebuffer. -/
theorem ShimVesaInformation_window_inside_witness :
    (ShimVesaInformation pcConstants (EnsureDisplayAvailable none) wideDisplay zeroMem
      0xC0000 false).Status = EFI_SUCCESS ∧
    (read32 (ShimVesaInformation pcConstants (EnsureDisplayAvailable none) wideDisplay zeroMem
        0xC0000 false).mem (0xC0000 + sizeof_VBE_INFO + VBE_MODE_INFO.LfbAddress.offset)
      - wideDisplay.FrameBufferBase) + 767 * wideDisplay.PixelsPerScanLine * 4 + 1024 * 4
      ≤ wideDisplay.FrameBufferSize :=
  ⟨by decide,
   (ShimVesaInformation_window_inside pcConstants (EnsureDisplayAvailable none) wideDisplay
      zeroMem 0xC0000 false (by decide) (by decide) (by decide) (by decide) (by decide)
      (by decide) (by decide)).1⟩

/-! ### Order of the mechanisms -/

theorem Hw.run_write8 (h : Hw) (a v : Nat) : h.run (fun m => write8 m a v) = h.store a v := by
  unfold Hw.run Hw.store
  by_cases hw : h.writable a = true
  · rw [if_pos hw]
    congr 1
    funext x
    by_cases hx : x = a
    · subst hx
      simp [hw, UefiSeven.write8]
    · simp [UefiSeven.write8, hx]
  · rw [if_neg hw]
    cases h with
    | mk mem writable =>
      congr 1
      funext x
      by_cases hx : x = a
      · subst hx
        simp only at hw
        simp [hw]
      · simp [UefiSeven.write8, hx]

/-- C15: in `UefiMain`, when `mForceFakeVesa` is not set and
`IsInt10hHandlerDefined` reports a handler, the installation stops as a no-op:
`EnsureMemoryLock` is not called, and the hardware state is the one it started
from, so no byte of the shadow window is written and the INT 10h vector entry
is unchanged. -/
theorem UefiMain_handler_present (rb : ReadBack) (k : Constants) (INT10H_HANDLER : List Nat)
    (fw : Firmware)
    (ensure : DISPLAY_INFO → EFI_STATUS × DISPLAY_INFO) (IvtAllocationStatus : EFI_STATUS)
    (d : DISPLAY_INFO) (hw : Hw)
    (hdef : IsInt10hHandlerDefined k hw.mem = true) :
    (UefiMain rb k INT10H_HANDLER fw ensure false IvtAllocationStatus d hw).exit
      = .handlerPresent ∧
    (UefiMain rb k INT10H_HANDLER fw ensure false IvtAllocationStatus d hw).lockCalls = [] ∧
    (UefiMain rb k INT10H_HANDLER fw ensure false IvtAllocationStatus d hw).hw = hw ∧
    (∀ x, k.VGA_ROM_ADDRESS ≤ x → x < k.VGA_ROM_ADDRESS + k.VGA_ROM_SIZE →
      (UefiMain rb k INT10H_HANDLER fw ensure false IvtAllocationStatus d hw).hw.mem x = hw.mem x) ∧
    IVT_ENTRY.Segment (UefiMain rb k INT10H_HANDLER fw ensure false IvtAllocationStatus d hw).hw.mem
      (Int10hEntry k) = IVT_ENTRY.Segment hw.mem (Int10hEntry k) ∧
    IVT_ENTRY.Offset (UefiMain rb k INT10H_HANDLER fw ensure false IvtAllocationStatus d hw).hw.mem
      (Int10hEntry k) = IVT_ENTRY.Offset hw.mem (Int10hEntry k) ∧
    (UefiMain rb k INT10H_HANDLER fw ensure false IvtAllocationStatus d hw).NewInt10hHandlerEntry
      = none := by
  have hrun : UefiMain rb k INT10H_HANDLER fw ensure false IvtAllocationStatus d hw =
      { exit := .handlerPresent, hw := hw, DisplayInfo := d, lockCalls := [],
        Int10hHandlerAddress := none, NewInt10hHandlerEntry := none, sanity := none } := by
    unfold UefiMain
    simp [hdef]
  rw [hrun]
  exact ⟨rfl, rfl, rfl, fun _ _ _ => rfl, rfl, rfl, rfl⟩

/-- C15 (witness): the vector entry holds C000:0200 and the byte at C0200h is
not a protective opcode. -/
theorem UefiMain_handler_present_witness :
    IsInt10hHandlerDefined pcConstants shimVectorHw.mem = true ∧
    (UefiMain .load pcConstants sampleBlob regionFirmware (EnsureDisplayAvailable none) false
      EFI_SUCCESS wideDisplay shimVectorHw).lockCalls = [] ∧
    (UefiMain .load pcConstants sampleBlob regionFirmware (EnsureDisplayAvailable none) false
      EFI_SUCCESS wideDisplay shimVectorHw).hw = shimVectorHw :=
  have h := UefiMain_handler_present .load pcConstants sampleBlob regionFirmware
    (EnsureDisplayAvailable none) EFI_SUCCESS wideDisplay shimVectorHw (by decide)
  ⟨by decide, h.2.1, h.2.2.1⟩

theorem ShimVesaInformation_no_error (k : Constants)
    (ensure : DISPLAY_INFO → EFI_STATUS × DISPLAY_INFO)
    (d : DISPLAY_INFO) (mem : Mem) (S : Nat) (isNull : Bool)
    (h : EFI_ERROR (ShimVesaInformation k ensure d mem S isNull).Status = false) :
    (ShimVesaInformation k ensure d mem S isNull).Status = EFI_SUCCESS := by
  rw [ShimVesaInformation_Status_eq] at h ⊢
  split_ifs at h ⊢
  · exact absurd h (by decide)
  · exact absurd h (by decide)
  · exact absurd h (by decide)
  · rfl

theorem Hw.run_mem_writable (h : Hw) (f : Mem → Mem) (x : Nat) (hw : h.writable x = true) :
    (h.run f).mem x = f h.mem x := by
  simp [Hw.run, hw]

theorem Hw.run_mem_locked (h : Hw) (f : Mem → Mem) (x : Nat) (hw : h.writable x = false) :
    (h.run f).mem x = h.mem x := by
  simp [Hw.run, hw]

theorem Hw.run_writable (h : Hw) (f : Mem → Mem) : (h.run f).writable = h.writable := rfl

/-- What the installation section leaves when it runs to its end. -/
theorem UefiMain_installed (rb : ReadBack) (k : Constants) (INT10H_HANDLER : List Nat)
    (fw : Firmware)
    (ensure : DISPLAY_INFO → EFI_STATUS × DISPLAY_INFO) (force : Bool)
    (IvtAllocationStatus : EFI_STATUS) (d : DISPLAY_INFO) (hw : Hw)
    (hinst : (UefiMain rb k INT10H_HANDLER fw ensure force IvtAllocationStatus d hw).exit
      = .installed) :
    ∃ h4 : Hw,
      (UefiMain rb k INT10H_HANDLER fw ensure force IvtAllocationStatus d hw).Int10hHandlerAddress
        = some (k.VGA_ROM_ADDRESS + 256 + 256) ∧
      (UefiMain rb k INT10H_HANDLER fw ensure force IvtAllocationStatus d hw).NewInt10hHandlerEntry
        = some (((k.VGA_ROM_ADDRESS % 2 ^ 32) >>> 4) % 2 ^ 16,
            (k.VGA_ROM_ADDRESS + 256 + 256 + 2 ^ 64 - k.VGA_ROM_ADDRESS % 2 ^ 64)
              % 2 ^ 64 % 2 ^ 16) ∧
      (UefiMain rb k INT10H_HANDLER fw ensure force IvtAllocationStatus d hw).hw =
        (if EFI_ERROR IvtAllocationStatus = false then
          (h4.run (fun m => write16 m (k.IVT_ADDRESS + 0x10 * sizeof_IVT_ENTRY + 2)
            (((k.VGA_ROM_ADDRESS % 2 ^ 32) >>> 4) % 2 ^ 16))).run
            (fun m => write16 m (k.IVT_ADDRESS + 0x10 * sizeof_IVT_ENTRY)
              ((k.VGA_ROM_ADDRESS + 256 + 256 + 2 ^ 64 - k.VGA_ROM_ADDRESS % 2 ^ 64)
                % 2 ^ 64 % 2 ^ 16))
         else h4) ∧
      (UefiMain rb k INT10H_HANDLER fw ensure force IvtAllocationStatus d hw).sanity =
        some (IsInt10hHandlerDefined k
          (UefiMain rb k INT10H_HANDLER fw ensure force IvtAllocationStatus d hw).hw.mem) := by
  unfold UefiMain at hinst ⊢
  simp only at hinst ⊢
  split_ifs at hinst ⊢ with c1 c2 c3 c4
  all_goals
    have hE : EFI_ERROR (ShimVesaInformation k ensure d
        (((EnsureMemoryLock rb k fw hw k.VGA_ROM_ADDRESS (k.VGA_ROM_SIZE % 2 ^ 32) .UNLOCK).hw.run
          (fun m => ZeroMem m k.VGA_ROM_ADDRESS k.VGA_ROM_SIZE)).run
          (fun m => CopyMem m k.VGA_ROM_ADDRESS INT10H_HANDLER)).mem
        k.VGA_ROM_ADDRESS false).Status = false := by simpa using c4
    obtain ⟨-, -, -, m', -, -, hend, -⟩ := ShimVesaInformation_success k ensure d _ _ _
      (ShimVesaInformation_no_error k ensure d _ _ _ hE)
    simp only [hend, Option.getD_some]
    refine ⟨(EnsureMemoryLock rb k fw
      ((((EnsureMemoryLock rb k fw hw k.VGA_ROM_ADDRESS (k.VGA_ROM_SIZE % 2 ^ 32) .UNLOCK).hw.run
        (fun m => ZeroMem m k.VGA_ROM_ADDRESS k.VGA_ROM_SIZE)).run
        (fun m => CopyMem m k.VGA_ROM_ADDRESS INT10H_HANDLER)).run
        (fun m => (ShimVesaInformation k ensure d m k.VGA_ROM_ADDRESS false).mem))
      k.VGA_ROM_ADDRESS (k.VGA_ROM_SIZE % 2 ^ 32) .LOCK).hw, ?_, ?_, ?_, ?_⟩ <;>
      first | rfl | trivial

theorem read16_run_writable (h : Hw) (f : Mem → Mem) (a : Nat)
    (h0 : h.writable a = true) (h1 : h.writable (a + 1) = true) :
    read16 (h.run f).mem a = read16 (f h.mem) a :=
  read16_congr _ _ _ (Hw.run_mem_writable h f a h0) (Hw.run_mem_writable h f (a + 1) h1)

/-- C20: when the installation section of `UefiMain` runs to its end, the
vector entry it builds round-trips to the address `ShimVesaInformation`
returned: with `Segment` the low 16 bits of `VGA_ROM_ADDRESS >> 4` and `Offset`
the low 16 bits of `Int10hHandlerAddress - VGA_ROM_ADDRESS`,
`Segment*16 + Offset == Int10hHandlerAddress` whenever `VGA_ROM_ADDRESS` is
16-byte aligned and below 1 MiB. When the vector table could be claimed and its
INT 10h slot takes stores, the entry is written to the slot that
`IsInt10hHandlerDefined` reads: read back through `Int10hEntry`, the slot holds
this segment and offset and decodes to `Int10hHandlerAddress`. -/
theorem UefiMain_vector_roundtrip (rb : ReadBack) (k : Constants) (INT10H_HANDLER : List Nat)
    (fw : Firmware)
    (ensure : DISPLAY_INFO → EFI_STATUS × DISPLAY_INFO) (force : Bool)
    (IvtAllocationStatus : EFI_STATUS) (d : DISPLAY_INFO) (hw : Hw)
    (hinst : (UefiMain rb k INT10H_HANDLER fw ensure force IvtAllocationStatus d hw).exit
      = .installed)
    (hal : k.VGA_ROM_ADDRESS % 16 = 0) (hlt : k.VGA_ROM_ADDRESS < 2 ^ 20) :
    ∃ A Segment Offset : Nat,
      (UefiMain rb k INT10H_HANDLER fw ensure force IvtAllocationStatus d hw).Int10hHandlerAddress
        = some A ∧
      (UefiMain rb k INT10H_HANDLER fw ensure force IvtAllocationStatus d hw).NewInt10hHandlerEntry
        = some (Segment, Offset) ∧
      A = k.VGA_ROM_ADDRESS + sizeof_VBE_INFO + sizeof_VBE_MODE_INFO ∧
      Segment = (k.VGA_ROM_ADDRESS >>> 4) % 2 ^ 16 ∧
      Offset = (A - k.VGA_ROM_ADDRESS) % 2 ^ 16 ∧
      Segment * 16 + Offset = A ∧
      (EFI_ERROR IvtAllocationStatus = false →
        (∀ x, Int10hEntry k ≤ x → x < Int10hEntry k + 4 →
          (UefiMain rb k INT10H_HANDLER fw ensure force IvtAllocationStatus d hw).hw.writable x
            = true) →
        IVT_ENTRY.Segment
          (UefiMain rb k INT10H_HANDLER fw ensure force IvtAllocationStatus d hw).hw.mem
          (Int10hEntry k) = Segment ∧
        IVT_ENTRY.Offset
          (UefiMain rb k INT10H_HANDLER fw ensure force IvtAllocationStatus d hw).hw.mem
          (Int10hEntry k) = Offset ∧
        Int10hHandler k
          (UefiMain rb k INT10H_HANDLER fw ensure force IvtAllocationStatus d hw).hw.mem = A) := by
  obtain ⟨h4, hA, hE, hhw, -⟩ :=
    UefiMain_installed rb k INT10H_HANDLER fw ensure force IvtAllocationStatus d hw hinst
  have hseg : ((k.VGA_ROM_ADDRESS % 2 ^ 32) >>> 4) % 2 ^ 16 = k.VGA_ROM_ADDRESS / 16 := by
    rw [Nat.shiftRight_eq_div_pow]
    omega
  have hseg2 : (k.VGA_ROM_ADDRESS >>> 4) % 2 ^ 16 = k.VGA_ROM_ADDRESS / 16 := by
    rw [Nat.shiftRight_eq_div_pow]
    omega
  have hoff : (k.VGA_ROM_ADDRESS + 256 + 256 + 2 ^ 64 - k.VGA_ROM_ADDRESS % 2 ^ 64)
      % 2 ^ 64 % 2 ^ 16 = 512 := by omega
  rw [hseg, hoff] at hE hhw
  refine ⟨k.VGA_ROM_ADDRESS + 256 + 256, k.VGA_ROM_ADDRESS / 16, 512, hA, hE, rfl, hseg2.symm,
    by omega, by omega, ?_⟩
  intro hivt hwr
  have hslot : ∀ x, k.IVT_ADDRESS + 64 ≤ x → x < k.IVT_ADDRESS + 64 + 4 →
      h4.writable x = true := by
    intro x h1 h2
    have := hwr x (by simp only [Int10hEntry, sizeof_IVT_ENTRY]; omega)
      (by simp only [Int10hEntry, sizeof_IVT_ENTRY]; omega)
    rw [hhw, if_pos hivt] at this
    exact this
  have hslot2 : ∀ x, k.IVT_ADDRESS + 64 ≤ x → x < k.IVT_ADDRESS + 64 + 4 →
      (h4.run (fun m => write16 m (k.IVT_ADDRESS + 16 * 4 + 2)
        (k.VGA_ROM_ADDRESS / 16))).writable x = true := hslot
  have hS : IVT_ENTRY.Segment
      (UefiMain rb k INT10H_HANDLER fw ensure force IvtAllocationStatus d hw).hw.mem
      (Int10hEntry k) = k.VGA_ROM_ADDRESS / 16 := by
    rw [hhw, if_pos hivt]
    simp only [IVT_ENTRY.Segment, Int10hEntry, sizeof_IVT_ENTRY]
    rw [read16_run_writable _ _ _ (hslot2 _ (by omega) (by omega))
        (hslot2 _ (by omega) (by omega)),
      read16_write16_ne _ _ _ _ (by omega),
      read16_run_writable _ _ _ (hslot _ (by omega) (by omega)) (hslot _ (by omega) (by omega)),
      read16_write16_same]
    omega
  have hO : IVT_ENTRY.Offset
      (UefiMain rb k INT10H_HANDLER fw ensure force IvtAllocationStatus d hw).hw.mem
      (Int10hEntry k) = 512 := by
    rw [hhw, if_pos hivt]
    simp only [IVT_ENTRY.Offset, Int10hEntry, sizeof_IVT_ENTRY]
    rw [read16_run_writable _ _ _ (hslot2 _ (by omega) (by omega))
        (hslot2 _ (by omega) (by omega)),
      read16_write16_same]
  refine ⟨hS, hO, ?_⟩
  unfold Int10hHandler
  rw [hS, hO, Nat.shiftLeft_eq]
  omega

set_option maxRecDepth 100000 in
/-- C20 (witness): a full installation on a platform with a working primary
protocol; the entry built is C000:0200. -/
theorem UefiMain_vector_roundtrip_witness :
    (UefiMain .load pcConstants sampleBlob regionFirmware (EnsureDisplayAvailable none) false
      EFI_SUCCESS wideDisplay lockedHw).exit = .installed ∧
    pcConstants.VGA_ROM_ADDRESS % 16 = 0 ∧ pcConstants.VGA_ROM_ADDRESS < 2 ^ 20 ∧
    ∃ A Segment Offset : Nat,
      (UefiMain .load pcConstants sampleBlob regionFirmware (EnsureDisplayAvailable none) false
        EFI_SUCCESS wideDisplay lockedHw).Int10hHandlerAddress = some A ∧
      (UefiMain .load pcConstants sampleBlob regionFirmware (EnsureDisplayAvailable none) false
        EFI_SUCCESS wideDisplay lockedHw).NewInt10hHandlerEntry = some (Segment, Offset) ∧
      Segment * 16 + Offset = A :=
  have h := UefiMain_vector_roundtrip .load pcConstants sampleBlob regionFirmware
    (EnsureDisplayAvailable none) false EFI_SUCCESS wideDisplay lockedHw (by decide)
    (by decide) (by decide)
  ⟨by decide, by decide, by decide,
   h.elim fun A hA => hA.elim fun sg hs => hs.elim fun off ho =>
     ⟨A, sg, off, ho.1, ho.2.1, ho.2.2.2.2.2.1⟩⟩

theorem read8_CopyMem_in (src : List Nat) (m : Mem) (dst x : Nat)
    (h1 : dst ≤ x) (h2 : x < dst + src.length) :
    read8 (CopyMem m dst src) x = src.getD (x - dst) 0 % 256 := by
  induction src generalizing m dst with
  | nil => simp at h2; omega
  | cons b bs ih =>
    simp only [List.length_cons] at h2
    rw [CopyMem]
    by_cases hx : x = dst
    · subst hx
      rw [read8_CopyMem_ne _ _ _ _ (by omega), read8_write8_same]
      simp
    · rw [ih _ _ (by omega) (by omega)]
      have e : x - dst = (x - (dst + 1)) + 1 := by omega
      rw [e, List.getD_cons_succ]

/-- Whatever its status, a call stores only inside the two records when the
mode list and strings fit the scratch buffer. -/
theorem ShimVesaInformation_frame (k : Constants)
    (ensure : DISPLAY_INFO → EFI_STATUS × DISPLAY_INFO)
    (d : DISPLAY_INFO) (mem : Mem) (S : Nat) (isNull : Bool) (hfit : k.StringsFit)
    (x : Nat) (hx : x < S ∨ S + 512 ≤ x) :
    (ShimVesaInformation k ensure d mem S isNull).mem x = mem x := by
  by_cases h1 : S = 0 ∨ isNull = true
  · unfold ShimVesaInformation
    simp only [h1, if_true]
  · have hS : S ≠ 0 := fun e => h1 (Or.inl e)
    have hN : isNull = false := by
      cases isNull
      · rfl
      · exact absurd (Or.inr rfl) h1
    by_cases h2 : EFI_ERROR (ensure d).1 = true
    · unfold ShimVesaInformation
      simp only [h1, h2, if_true, if_false]
    · have hE : EFI_ERROR (ensure d).1 = false := by simpa using h2
      rw [ShimVesaInformation_run k ensure d mem S isNull hS hN hE]
      cases hm : writeMaskPositions (ensure d).2
          (writeVbeModeInfo (ensure d).2 (writeVbeInfo k (ensure d).2 mem S) (S + 256))
          (S + 256) with
      | none =>
        simp only
        rw [writeVbeModeInfo_apply_ne _ _ _ _ (by omega),
          writeVbeInfo_apply_ne k _ _ _ _ hfit (by omega)]
      | some m' =>
        simp only
        rw [writeVbeModeInfoOther_apply_ne _ _ _ (by omega),
          writeMaskPositions_apply_ne _ _ _ _ _ hm (by omega),
          writeVbeModeInfo_apply_ne _ _ _ _ (by omega),
          writeVbeInfo_apply_ne k _ _ _ _ hfit (by omega)]

set_option maxRecDepth 100000 in
/-- C13 (counterexample): with a display whose pixel format is a bit mask,
`ShimVesaInformation` fails with `EFI_UNSUPPORTED` after the window has been
unlocked, zeroed and filled with the blob; `UefiMain` leaves at once, the
installation is not completed, and the byte at offset 512 of the window is the
blob's opcode 9Ch, not a protective opcode. -/
theorem UefiMain_keeps_blob :
    (UefiMain .load pcConstants sampleBlob regionFirmware (EnsureDisplayAvailable none) false
      EFI_SUCCESS maskDisplay lockedHw).exit = .vesaFailed ∧
    (UefiMain .load pcConstants sampleBlob regionFirmware (EnsureDisplayAvailable none) false
      EFI_SUCCESS maskDisplay lockedHw).exit ≠ .installed ∧
    pcConstants.VGA_ROM_ADDRESS ≤ 0xC0200 ∧
    0xC0200 < pcConstants.VGA_ROM_ADDRESS + pcConstants.VGA_ROM_SIZE ∧
    read8 (UefiMain .load pcConstants sampleBlob regionFirmware (EnsureDisplayAvailable none) false
      EFI_SUCCESS maskDisplay lockedHw).hw.mem 0xC0200 = 0x9C ∧
    read8 (UefiMain .load pcConstants sampleBlob regionFirmware (EnsureDisplayAvailable none) false
      EFI_SUCCESS maskDisplay lockedHw).hw.mem 0xC0200 ≠ PROTECTIVE_OPCODE_1 ∧
    read8 (UefiMain .load pcConstants sampleBlob regionFirmware (EnsureDisplayAvailable none) false
      EFI_SUCCESS maskDisplay lockedHw).hw.mem 0xC0200 ≠ PROTECTIVE_OPCODE_2 := by
  decide

/-- The hardware state the installation section leaves, by exit. -/
theorem UefiMain_hw (rb : ReadBack) (k : Constants) (INT10H_HANDLER : List Nat) (fw : Firmware)
    (ensure : DISPLAY_INFO → EFI_STATUS × DISPLAY_INFO) (force : Bool)
    (IvtAllocationStatus : EFI_STATUS) (d : DISPLAY_INFO) (hw : Hw) :
    ((UefiMain rb k INT10H_HANDLER fw ensure force IvtAllocationStatus d hw).exit = .handlerPresent →
      (UefiMain rb k INT10H_HANDLER fw ensure force IvtAllocationStatus d hw).hw = hw) ∧
    ((UefiMain rb k INT10H_HANDLER fw ensure force IvtAllocationStatus d hw).exit = .shimTooBig →
      (UefiMain rb k INT10H_HANDLER fw ensure force IvtAllocationStatus d hw).hw = hw) ∧
    ((UefiMain rb k INT10H_HANDLER fw ensure force IvtAllocationStatus d hw).exit = .unlockFailed →
      (UefiMain rb k INT10H_HANDLER fw ensure force IvtAllocationStatus d hw).hw =
        (EnsureMemoryLock rb k fw hw k.VGA_ROM_ADDRESS (k.VGA_ROM_SIZE % 2 ^ 32) .UNLOCK).hw) ∧
    ((UefiMain rb k INT10H_HANDLER fw ensure force IvtAllocationStatus d hw).exit = .vesaFailed →
      INT10H_HANDLER.length ≤ k.VGA_ROM_SIZE ∧
      (UefiMain rb k INT10H_HANDLER fw ensure force IvtAllocationStatus d hw).hw =
        (((EnsureMemoryLock rb k fw hw k.VGA_ROM_ADDRESS (k.VGA_ROM_SIZE % 2 ^ 32) .UNLOCK).hw.run
          (fun m => ZeroMem m k.VGA_ROM_ADDRESS k.VGA_ROM_SIZE)).run
          (fun m => CopyMem m k.VGA_ROM_ADDRESS INT10H_HANDLER)).run
          (fun m => (ShimVesaInformation k ensure d m k.VGA_ROM_ADDRESS false).mem) ∧
      (UefiMain rb k INT10H_HANDLER fw ensure force IvtAllocationStatus d hw).lockCalls =
        [(.UNLOCK,
          (EnsureMemoryLock rb k fw hw k.VGA_ROM_ADDRESS (k.VGA_ROM_SIZE % 2 ^ 32) .UNLOCK).trace)] ∧
      (UefiMain rb k INT10H_HANDLER fw ensure force IvtAllocationStatus d hw).NewInt10hHandlerEntry
        = none ∧
      (UefiMain rb k INT10H_HANDLER fw ensure force IvtAllocationStatus d hw).sanity = none) ∧
    ((UefiMain rb k INT10H_HANDLER fw ensure force IvtAllocationStatus d hw).exit = .installed →
      (∃ t, (UefiMain rb k INT10H_HANDLER fw ensure force IvtAllocationStatus d hw).lockCalls =
        [(.UNLOCK,
          (EnsureMemoryLock rb k fw hw k.VGA_ROM_ADDRESS (k.VGA_ROM_SIZE % 2 ^ 32) .UNLOCK).trace),
         (.LOCK, t)]) ∧
      (UefiMain rb k INT10H_HANDLER fw ensure force IvtAllocationStatus d hw
        ).NewInt10hHandlerEntry.isSome = true ∧
      (UefiMain rb k INT10H_HANDLER fw ensure force IvtAllocationStatus d hw).sanity.isSome
        = true) := by
  unfold UefiMain
  simp only
  split_ifs with c1 c2 c3 c4 <;> first | (simp; done) | (simp; omega)

theorem Hw.run2_mem_writable (h : Hw) (f g : Mem → Mem) (x : Nat)
    (hw : h.writable x = true) : ((h.run f).run g).mem x = g (h.run f).mem x :=
  Hw.run_mem_writable (h.run f) g x hw

theorem Hw.run3_mem_writable (h : Hw) (f g e : Mem → Mem) (x : Nat)
    (hw : h.writable x = true) :
    (((h.run f).run g).run e).mem x = e ((h.run f).run g).mem x :=
  Hw.run_mem_writable ((h.run f).run g) e x hw

theorem Hw.run3_mem_locked (h : Hw) (f g e : Mem → Mem) (x : Nat)
    (hw : h.writable x = false) : (((h.run f).run g).run e).mem x = h.mem x := by
  rw [Hw.run_mem_locked ((h.run f).run g) e x hw, Hw.run_mem_locked (h.run f) g x hw,
    Hw.run_mem_locked h f x hw]

/-- C13 (amended): in `UefiMain`, once the shadow window has been unlocked and
zeroed, either `ShimVesaInformation` succeeds and the run goes on to the lock
call, the vector entry and the final check, or it fails and `UefiMain` leaves
at once: no lock call is made, no vector entry is built, memory outside the
window is as the unlock call left it, and the window is not cleared again:
when the mode list and strings fit the scratch buffer, every writable byte of
the window from offset 512 on holds the byte of the copied blob (zero past the
end of the blob). -/
theorem UefiMain_after_zeroing (rb : ReadBack) (k : Constants) (INT10H_HANDLER : List Nat)
    (fw : Firmware)
    (ensure : DISPLAY_INFO → EFI_STATUS × DISPLAY_INFO) (force : Bool)
    (IvtAllocationStatus : EFI_STATUS) (d : DISPLAY_INFO) (hw : Hw) :
    ((UefiMain rb k INT10H_HANDLER fw ensure force IvtAllocationStatus d hw).exit = .installed →
      (∃ t, (UefiMain rb k INT10H_HANDLER fw ensure force IvtAllocationStatus d hw).lockCalls =
        [(.UNLOCK,
          (EnsureMemoryLock rb k fw hw k.VGA_ROM_ADDRESS (k.VGA_ROM_SIZE % 2 ^ 32) .UNLOCK).trace),
         (.LOCK, t)]) ∧
      (UefiMain rb k INT10H_HANDLER fw ensure force IvtAllocationStatus d hw
        ).NewInt10hHandlerEntry.isSome = true ∧
      (UefiMain rb k INT10H_HANDLER fw ensure force IvtAllocationStatus d hw).sanity.isSome
        = true) ∧
    ((UefiMain rb k INT10H_HANDLER fw ensure force IvtAllocationStatus d hw).exit = .vesaFailed →
      (UefiMain rb k INT10H_HANDLER fw ensure force IvtAllocationStatus d hw).lockCalls =
        [(.UNLOCK,
          (EnsureMemoryLock rb k fw hw k.VGA_ROM_ADDRESS (k.VGA_ROM_SIZE % 2 ^ 32) .UNLOCK).trace)] ∧
      (UefiMain rb k INT10H_HANDLER fw ensure force IvtAllocationStatus d hw).NewInt10hHandlerEntry
        = none ∧
      (k.StringsFit →
        (∀ x, k.VGA_ROM_ADDRESS + 512 ≤ x → x < k.VGA_ROM_ADDRESS + k.VGA_ROM_SIZE →
          (EnsureMemoryLock rb k fw hw k.VGA_ROM_ADDRESS (k.VGA_ROM_SIZE % 2 ^ 32)
            .UNLOCK).hw.writable x = true →
          read8 (UefiMain rb k INT10H_HANDLER fw ensure force IvtAllocationStatus d hw).hw.mem x =
            INT10H_HANDLER.getD (x - k.VGA_ROM_ADDRESS) 0 % 256) ∧
        (∀ x, x < k.VGA_ROM_ADDRESS ∨
            (k.VGA_ROM_ADDRESS + k.VGA_ROM_SIZE ≤ x ∧ k.VGA_ROM_ADDRESS + 512 ≤ x) →
          (UefiMain rb k INT10H_HANDLER fw ensure force IvtAllocationStatus d hw).hw.mem x =
            (EnsureMemoryLock rb k fw hw k.VGA_ROM_ADDRESS (k.VGA_ROM_SIZE % 2 ^ 32)
              .UNLOCK).hw.mem x))) := by
  obtain ⟨-, -, -, hfail, hinst⟩ :=
    UefiMain_hw rb k INT10H_HANDLER fw ensure force IvtAllocationStatus d hw
  refine ⟨hinst, ?_⟩
  intro hexit
  obtain ⟨hlen, hhw, hcalls, hentry, -⟩ := hfail hexit
  refine ⟨hcalls, hentry, ?_⟩
  intro hfit
  rw [hhw]
  constructor
  · intro x h1 h2 hwr
    simp only [read8]
    rw [Hw.run3_mem_writable _ _ _ _ _ hwr,
      ShimVesaInformation_frame k ensure d _ _ _ hfit _ (Or.inr h1),
      Hw.run2_mem_writable _ _ _ _ hwr]
    by_cases hin : x < k.VGA_ROM_ADDRESS + INT10H_HANDLER.length
    · have := read8_CopyMem_in INT10H_HANDLER
        ((EnsureMemoryLock rb k fw hw k.VGA_ROM_ADDRESS (k.VGA_ROM_SIZE % 2 ^ 32) .UNLOCK).hw.run
          (fun m => ZeroMem m k.VGA_ROM_ADDRESS k.VGA_ROM_SIZE)).mem
        k.VGA_ROM_ADDRESS x (by omega) hin
      simpa only [read8] using this
    · rw [CopyMem_apply_ne _ _ _ _ (by omega), Hw.run_mem_writable _ _ _ hwr]
      have hz : ZeroMem (EnsureMemoryLock rb k fw hw k.VGA_ROM_ADDRESS (k.VGA_ROM_SIZE % 2 ^ 32)
          .UNLOCK).hw.mem k.VGA_ROM_ADDRESS k.VGA_ROM_SIZE x = 0 := by
        unfold ZeroMem
        rw [if_pos ⟨by omega, h2⟩]
      rw [hz, List.getD_eq_default _ _ (by omega)]
      rfl
  · intro x hx
    by_cases hwr : (EnsureMemoryLock rb k fw hw k.VGA_ROM_ADDRESS (k.VGA_ROM_SIZE % 2 ^ 32)
        .UNLOCK).hw.writable x = true
    · rw [Hw.run3_mem_writable _ _ _ _ _ hwr,
        ShimVesaInformation_frame k ensure d _ _ _ hfit _ (by omega),
        Hw.run2_mem_writable _ _ _ _ hwr, CopyMem_apply_ne _ _ _ _ (by omega),
        Hw.run_mem_writable _ _ _ hwr]
      unfold ZeroMem
      rw [if_neg (by omega)]
    · have hwr2 : (EnsureMemoryLock rb k fw hw k.VGA_ROM_ADDRESS (k.VGA_ROM_SIZE % 2 ^ 32)
          .UNLOCK).hw.writable x = false := by simpa using hwr
      rw [Hw.run3_mem_locked _ _ _ _ _ hwr2]

end UefiSeven
